import Mathlib

/-! STM32-ARGB-DMA: frame encoder, transfer engine and colour model

A shallow embedding of `src/src/ARGB.c` / `src/src/ARGB.h`.

* Machine integers are naturals with explicit truncation (`u8`, `u16`, `u32`).
* The C arrays `RGB_BUF` and `PWM_BUF` are lists; a store or load outside the
  array is a fault (`none`).
* Loops with a `u16_t` counter are run with fuel `65536`: the counter has only
  that many values, so a loop that has not left after that many tests of its
  condition never leaves. `none` therefore stands for "faults or does not return".
* Floating-point operations are exact rational operations followed by a rounding
  that is a parameter (`FPU` for `HSV2RGB`, `duty_u8` for `ARGB_Init`).
* The STM32 HAL (types, constants, macros, `HAL_DMA_Start_IT`) is not part of the
  repository. Handles and register blocks are records with the fields the driver
  names; constants, macros and HAL functions are taken as parameters (`HAL`).
-/

namespace ARGB

/-! ## Machine integers and C arrays -/

/-- Truncation to `u8_t`. -/
def u8 (n : Nat) : Nat := n % 256

/-- Truncation to `u16_t`. -/
def u16 (n : Nat) : Nat := n % 65536

/-- Truncation to `u32_t`. -/
def u32 (n : Nat) : Nat := n % 4294967296

/-- Store `buf[i] = v`; a store outside the array is a fault. -/
def store (buf : List Nat) (i v : Nat) : Option (List Nat) :=
  if i < buf.length then some (buf.set i v) else none

/-- Load `buf[i]`; a load outside the array is a fault. -/
def load (buf : List Nat) (i : Nat) : Option Nat := buf[i]?

/-! ## Build configuration (`ARGB.h`, preprocessor) -/

/-- Strip family macro: exactly one of `WS2811S`, `WS2811F`, `WS2812`, `SK6812`. -/
inductive StripFamily where
  | WS2811S
  | WS2811F
  | WS2812
  | SK6812
  deriving DecidableEq, Repr

/-- DMA data width macro: `DMA_SIZE_BYTE`, `DMA_SIZE_HWORD` or `DMA_SIZE_WORD`. -/
inductive DmaSize where
  | BYTE
  | HWORD
  | WORD
  deriving DecidableEq, Repr

/-- Pointers are addresses; `0` is `NULL`. -/
abbrev Ptr := Nat

/-- The preprocessor configuration of one build. -/
structure Config where
  /-- strip family -/
  family : StripFamily
  /-- `NUM_PIXELS` -/
  NUM_PIXELS : Nat
  /-- `USE_GAMMA_CORRECTION` -/
  USE_GAMMA_CORRECTION : Bool
  /-- `DMA_SIZE_*`, the element type `dma_siz` of `PWM_BUF` -/
  dma_size : DmaSize
  /-- whether the macro `RGB` is defined (`#ifdef RGB` in `ARGB_SetWhite`) -/
  RGB : Bool
  /-- whether `ARGB_USE_RUNTIME_BINDING` is defined (Arduino builds) -/
  ARGB_USE_RUNTIME_BINDING : Bool
  /-- `TIM_NUM` (legacy binding) -/
  TIM_NUM : Nat
  /-- `TIM_CH` (legacy binding) -/
  TIM_CH : Nat
  /-- address of the extern `TIM_HANDLE` (legacy binding) -/
  TIM_HANDLE : Ptr
  /-- address of the extern `DMA_HANDLE` (legacy binding) -/
  DMA_HANDLE : Ptr

/-- The build `ARGB.h` selects when nothing is defined beforehand:
`WS2812`, 5 pixels, no gamma correction, `DMA_SIZE_WORD`, `TIM_NUM` 2.
The legacy channel and handle addresses come from the HAL and the application. -/
def defaultConfig (tim_ch : Nat) (tim_handle dma_handle : Ptr) : Config :=
  { family := .WS2812, NUM_PIXELS := 5, USE_GAMMA_CORRECTION := false,
    dma_size := .WORD, RGB := false, ARGB_USE_RUNTIME_BINDING := false,
    TIM_NUM := 2, TIM_CH := tim_ch, TIM_HANDLE := tim_handle, DMA_HANDLE := dma_handle }

/-- `#ifdef SK6812` -/
def Config.isSK6812 (cfg : Config) : Bool := cfg.family == .SK6812

/-- `NUM_BYTES`: `4 * NUM_PIXELS` for `SK6812`, else `3 * NUM_PIXELS`. -/
def NUM_BYTES (cfg : Config) : Nat :=
  if cfg.isSK6812 then 4 * cfg.NUM_PIXELS else 3 * cfg.NUM_PIXELS

/-- `BITS_PER_PIXEL`: `4 * 8` for `SK6812`, else `3 * 8`. -/
def BITS_PER_PIXEL (cfg : Config) : Nat :=
  if cfg.isSK6812 then 4 * 8 else 3 * 8

/-- `RST_LEN` -/
def RST_LEN : Nat := 60

/-- `PWM_BUF_LEN = NUM_PIXELS * BITS_PER_PIXEL + RST_LEN` -/
def PWM_BUF_LEN (cfg : Config) : Nat := cfg.NUM_PIXELS * BITS_PER_PIXEL cfg + RST_LEN

/-- Bit width of `dma_siz`. -/
def dma_siz_bits (cfg : Config) : Nat :=
  match cfg.dma_size with
  | .BYTE => 8
  | .HWORD => 16
  | .WORD => 32

/-- `#if TIM_NUM == 1 || (TIM_NUM >= 8 && TIM_NUM <= 11)`: the macro `APB1` is defined. -/
def Config.APB1 (cfg : Config) : Bool :=
  cfg.TIM_NUM == 1 || (8 ≤ cfg.TIM_NUM && cfg.TIM_NUM ≤ 11)

/-! ## Result codes -/

/-- `enum ARGB_STATE` -/
inductive ARGB_STATE where
  | ARGB_BUSY
  | ARGB_READY
  | ARGB_OK
  | ARGB_PARAM_ERR
  deriving DecidableEq, Repr

/-- The enumerators' values: `ARGB_BUSY = 0`, `ARGB_READY = 1`, `ARGB_OK = 2`,
`ARGB_PARAM_ERR = 3`. -/
def ARGB_STATE.val : ARGB_STATE → Nat
  | .ARGB_BUSY => 0
  | .ARGB_READY => 1
  | .ARGB_OK => 2
  | .ARGB_PARAM_ERR => 3

/-- The enumerator a stored value denotes (the driver stores only enumerators). -/
def ARGB_STATE.ofVal : Nat → ARGB_STATE
  | 0 => .ARGB_BUSY
  | 1 => .ARGB_READY
  | 2 => .ARGB_OK
  | _ => .ARGB_PARAM_ERR

/-! ## Hardware: HAL handles and timer registers -/

/-- `TIM_TypeDef`: the register block of one timer. -/
structure TIM_TypeDef where
  CR1 : Nat
  DIER : Nat
  SR : Nat
  EGR : Nat
  CCER : Nat
  CNT : Nat
  PSC : Nat
  ARR : Nat
  CCR1 : Nat
  CCR2 : Nat
  CCR3 : Nat
  CCR4 : Nat
  BDTR : Nat
  deriving DecidableEq, Repr

/-- A `volatile u32_t*` that is `NULL` or the address of one of the four
compare registers of the register block at `inst`. -/
inductive CCR_Ptr where
  | NULL
  | CCR1 (inst : Ptr)
  | CCR2 (inst : Ptr)
  | CCR3 (inst : Ptr)
  | CCR4 (inst : Ptr)
  deriving DecidableEq, Repr

/-- Values of the DMA handle's callback fields. -/
inductive Callback where
  | NULL
  | ARGB_TIM_DMADelayPulseCplt
  | ARGB_TIM_DMADelayPulseHalfCplt
  | TIM_DMAError
  | other (addr : Nat)
  deriving DecidableEq, Repr

/-- `DMA_HandleTypeDef`: the fields the driver names. -/
structure DMA_HandleTypeDef where
  State : Nat
  Parent : Ptr
  XferCpltCallback : Callback
  XferHalfCpltCallback : Callback
  XferErrorCallback : Callback

/-- `TIM_HandleTypeDef`: the fields the driver and the channel-state macro name. -/
structure TIM_HandleTypeDef where
  Instance : Ptr
  Channel : Nat
  hdma : Nat → Ptr
  ChannelState : Nat → Nat

/-- The hardware and HAL world: handles and register blocks by address, and the
part of the machine only the HAL looks at (`rest`: clock tree, DMA registers). -/
structure HW where
  tim : Ptr → TIM_HandleTypeDef
  dma : Ptr → DMA_HandleTypeDef
  regs : Ptr → TIM_TypeDef
  rest : Nat → Nat

/-- Address of the memory a DMA transfer reads: the driver only passes `PWM_BUF`. -/
inductive SrcAddr where
  | PWM_BUF
  deriving DecidableEq, Repr

/-- The arguments of one `HAL_DMA_Start_IT` call. -/
structure DMA_Request where
  hdma : Ptr
  SrcAddress : SrcAddr
  DstAddress : CCR_Ptr
  DataLength : Nat
  deriving DecidableEq, Repr

/-- The STM32 HAL as the driver uses it: constants, macros and functions that are
declared outside the repository, taken as parameters. Macros and functions act on
the hardware world. -/
structure HAL where
  TIM_CHANNEL_1 : Nat
  TIM_CHANNEL_2 : Nat
  TIM_CHANNEL_3 : Nat
  TIM_CHANNEL_4 : Nat
  TIM_DMA_CC1 : Nat
  TIM_DMA_CC2 : Nat
  TIM_DMA_CC3 : Nat
  TIM_DMA_CC4 : Nat
  TIM_DMA_ID_CC1 : Nat
  TIM_DMA_ID_CC2 : Nat
  TIM_DMA_ID_CC3 : Nat
  TIM_DMA_ID_CC4 : Nat
  TIM_FLAG_UPDATE : Nat
  TIM_FLAG_CC1 : Nat
  TIM_FLAG_CC2 : Nat
  TIM_FLAG_CC3 : Nat
  TIM_FLAG_CC4 : Nat
  HAL_TIM_CHANNEL_STATE_READY : Nat
  HAL_TIM_CHANNEL_STATE_BUSY : Nat
  HAL_TIM_ACTIVE_CHANNEL_CLEARED : Nat
  HAL_DMA_STATE_READY : Nat
  HAL_OK : Nat
  TIM_CCx_ENABLE : Nat
  /-- `__HAL_TIM_CLEAR_FLAG(htim, flags)` -/
  HAL_TIM_CLEAR_FLAG : HW → Ptr → Nat → HW
  /-- `TIM_CHANNEL_STATE_SET(htim, channel, state)` -/
  TIM_CHANNEL_STATE_SET : HW → Ptr → Nat → Nat → HW
  /-- `HAL_DMA_Start_IT(hdma, src, dst, len)`: status and new world -/
  HAL_DMA_Start_IT : HW → DMA_Request → Nat × HW
  /-- `__HAL_TIM_ENABLE_DMA(htim, dma)` -/
  HAL_TIM_ENABLE_DMA : HW → Ptr → Nat → HW
  /-- `__HAL_TIM_DISABLE_DMA(htim, dma)` -/
  HAL_TIM_DISABLE_DMA : HW → Ptr → Nat → HW
  /-- `IS_TIM_BREAK_INSTANCE(instance) != RESET` -/
  IS_TIM_BREAK_INSTANCE : Ptr → Bool
  /-- `__HAL_TIM_MOE_ENABLE(htim)` -/
  HAL_TIM_MOE_ENABLE : HW → Ptr → HW
  /-- `__HAL_TIM_MOE_DISABLE(htim)` -/
  HAL_TIM_MOE_DISABLE : HW → Ptr → HW
  /-- `__HAL_TIM_ENABLE(htim)` -/
  HAL_TIM_ENABLE : HW → Ptr → HW
  /-- `__HAL_TIM_DISABLE(htim)` -/
  HAL_TIM_DISABLE : HW → Ptr → HW
  /-- `TIM_CCxChannelCmd(instance, channel, state)` -/
  TIM_CCxChannelCmd : HW → Ptr → Nat → Nat → HW
  /-- `HAL_Delay(ms)` -/
  HAL_Delay : HW → Nat → HW
  /-- `HAL_RCC_GetPCLK1Freq()` -/
  HAL_RCC_GetPCLK1Freq : HW → Nat
  /-- `HAL_RCC_GetPCLK2Freq()` -/
  HAL_RCC_GetPCLK2Freq : HW → Nat
  /-- `RCC->CFGR & RCC_CFGR_PPRE1` -/
  RCC_CFGR_PPRE1 : HW → Nat
  /-- `RCC->CFGR & RCC_CFGR_PPRE2` -/
  RCC_CFGR_PPRE2 : HW → Nat
  /-- `(u8_t) (APBfq * 0.pp)`: the double product converted to `u8_t`, for the
  duty `pp` percent -/
  duty_u8 : Nat → Nat → Nat

/-! ## Driver state (the statics of `ARGB.c`) -/

/-- The driver's static variables, the hardware world, and the record of the
`HAL_DMA_Start_IT` calls the driver has made (newest first). -/
structure State where
  s_htim : Ptr
  s_hdma : Ptr
  s_tim_channel : Nat
  s_tim_ccr : CCR_Ptr
  s_tim_dma_cc : Nat
  s_timer_clock_hz : Nat
  PWM_HI : Nat
  PWM_LO : Nat
  RGB_BUF : List Nat
  PWM_BUF : List Nat
  ARGB_BR : Nat
  ARGB_LOC_ST : ARGB_STATE
  hw : HW
  dma_requests : List DMA_Request

/-- The statics at power-up: the initialisers of `ARGB.c`, zero where there is
none (`ARGB_LOC_ST` has none), over a given hardware world. -/
def State.initial (cfg : Config) (hw : HW) : State :=
  { s_htim := 0, s_hdma := 0, s_tim_channel := 0, s_tim_ccr := .NULL,
    s_tim_dma_cc := 0, s_timer_clock_hz := 0,
    PWM_HI := 0, PWM_LO := 0,
    RGB_BUF := List.replicate (NUM_BYTES cfg) 0,
    PWM_BUF := List.replicate (PWM_BUF_LEN cfg) 0,
    ARGB_BR := 255,
    ARGB_LOC_ST := ARGB_STATE.ofVal 0,
    hw := hw,
    dma_requests := [] }

/-- The buffers have their declared sizes. -/
def State.Sized (cfg : Config) (s : State) : Prop :=
  s.RGB_BUF.length = NUM_BYTES cfg ∧ s.PWM_BUF.length = PWM_BUF_LEN cfg

/-! ## Binding and initialisation -/

/-- `ARGB_Attach(htim, tim_channel, hdma, timer_clock_hz)` -/
def ARGB_Attach (hal : HAL) (s : State) (htim : Ptr) (tim_channel : Nat) (hdma : Ptr)
    (timer_clock_hz : Nat) : ARGB_STATE × State :=
  if htim = 0 ∨ hdma = 0 then (.ARGB_PARAM_ERR, s)
  else
    let s1 := { s with s_htim := htim, s_hdma := hdma, s_tim_channel := tim_channel,
                       s_timer_clock_hz := timer_clock_hz }
    let inst := (s.hw.tim htim).Instance
    -- Get CCR register address
    if tim_channel = hal.TIM_CHANNEL_1 then
      (.ARGB_OK, { s1 with s_tim_ccr := .CCR1 inst, s_tim_dma_cc := hal.TIM_DMA_CC1 })
    else if tim_channel = hal.TIM_CHANNEL_2 then
      (.ARGB_OK, { s1 with s_tim_ccr := .CCR2 inst, s_tim_dma_cc := hal.TIM_DMA_CC2 })
    else if tim_channel = hal.TIM_CHANNEL_3 then
      (.ARGB_OK, { s1 with s_tim_ccr := .CCR3 inst, s_tim_dma_cc := hal.TIM_DMA_CC3 })
    else if tim_channel = hal.TIM_CHANNEL_4 then
      (.ARGB_OK, { s1 with s_tim_ccr := .CCR4 inst, s_tim_dma_cc := hal.TIM_DMA_CC4 })
    else (.ARGB_PARAM_ERR, s1)

/-- The bit frequency divisor of `ARGB_Init`: `400 * 1000` for `WS2811S`,
`800 * 1000` otherwise. -/
def bit_freq (cfg : Config) : Nat :=
  if cfg.family = .WS2811S then 400 * 1000 else 800 * 1000

/-- The duties of `ARGB_Init` in percent, `(PWM_HI, PWM_LO)`, per family. -/
def duty (cfg : Config) : Nat × Nat :=
  match cfg.family with
  | .WS2811F => (48, 20)
  | .WS2811S => (48, 20)
  | .WS2812 => (56, 28)
  | .SK6812 => (48, 24)

/-- The tail of `ARGB_Init`, from the division by the bit frequency on. -/
def ARGB_Init_tail (cfg : Config) (hal : HAL) (s : State) (tim_inst : Ptr) (tim_ch : Nat)
    (APBfq : Nat) : State :=
  let APBfq := APBfq / bit_freq cfg
  let r := s.hw.regs tim_inst
  -- PSC = 0; ARR = (uint16_t) (APBfq - 1); EGR = 1
  let r1 := { r with PSC := 0, ARR := u16 (u32 (APBfq + 4294967295)), EGR := 1 }
  let hw1 := { s.hw with regs := Function.update s.hw.regs tim_inst r1 }
  -- (u8_t) (APBfq * duty) - 1, stored in a u8_t
  let hi := u8 (hal.duty_u8 APBfq (duty cfg).1 + 255)
  let lo := u8 (hal.duty_u8 APBfq (duty cfg).2 + 255)
  let hw2 := hal.TIM_CCxChannelCmd hw1 tim_inst tim_ch hal.TIM_CCx_ENABLE
  let hw3 := hal.HAL_Delay hw2 1
  { s with PWM_HI := hi, PWM_LO := lo, ARGB_LOC_ST := .ARGB_READY, hw := hw3 }

/-- `ARGB_Init()` -/
def ARGB_Init (cfg : Config) (hal : HAL) (s : State) : State :=
  if s.s_htim ≠ 0 then
    -- Runtime binding mode (ARGB_Attach was called)
    ARGB_Init_tail cfg hal s (s.hw.tim s.s_htim).Instance s.s_tim_channel s.s_timer_clock_hz
  else if cfg.ARGB_USE_RUNTIME_BINDING then
    s -- No timer configured
  else
    -- Legacy CubeMX mode
    let APBfq :=
      if cfg.APB1 then
        u32 (u32 (hal.HAL_RCC_GetPCLK1Freq s.hw) * (if hal.RCC_CFGR_PPRE1 s.hw = 0 then 1 else 2))
      else
        u32 (u32 (hal.HAL_RCC_GetPCLK2Freq s.hw) * (if hal.RCC_CFGR_PPRE2 s.hw = 0 then 1 else 2))
    ARGB_Init_tail cfg hal s (s.hw.tim cfg.TIM_HANDLE).Instance cfg.TIM_CH APBfq

/-! ## Colour model -/

/-- `ARGB_SetBrightness(br)` -/
def ARGB_SetBrightness (s : State) (br : Nat) : State :=
  { s with ARGB_BR := u8 br }

/-- `scale8(x, scale)`: `((uint16_t) x * scale) >> 8`, returned as `u8_t`. -/
def scale8 (x scale : Nat) : Nat := u8 ((u16 x * scale) >>> 8)

/-- The brightness step `x /= 256 / ((u16_t) ARGB_BR + 1)` on a `u8_t` value. -/
def brightness (br x : Nat) : Nat := u8 (x / (256 / (u16 br + 1)))

/-- `ARGB_SetRGB(i, r, g, b)` -/
def ARGB_SetRGB (cfg : Config) (s : State) (i r g b : Nat) : Option State :=
  -- overflow protection
  let i := if i ≥ cfg.NUM_PIXELS then
             let _i := u16 (i / cfg.NUM_PIXELS)
             u16 (i - _i * cfg.NUM_PIXELS)
           else i
  -- set brightness
  let r := brightness s.ARGB_BR r
  let g := brightness s.ARGB_BR g
  let b := brightness s.ARGB_BR b
  let g := if cfg.USE_GAMMA_CORRECTION then scale8 g 0xB0 else g
  let b := if cfg.USE_GAMMA_CORRECTION then scale8 b 0xF0 else b
  -- Subpixel chain order
  let subp1 := if cfg.family = .WS2812 then g else r
  let subp2 := if cfg.family = .WS2812 then r else g
  let subp3 := b
  -- RGB or RGBW
  let k := if cfg.isSK6812 then 4 * i else 3 * i
  (store s.RGB_BUF k subp1).bind fun buf1 =>
  (store buf1 (k + 1) subp2).bind fun buf2 =>
  (store buf2 (k + 2) subp3).bind fun buf3 =>
  some { s with RGB_BUF := buf3 }

/-- `ARGB_SetWhite(i, w)` -/
def ARGB_SetWhite (cfg : Config) (s : State) (i w : Nat) : Option State :=
  if cfg.RGB then some s
  else
    let w := brightness s.ARGB_BR w -- set brightness
    (store s.RGB_BUF (4 * i + 3) w).bind fun buf => -- set white part
    some { s with RGB_BUF := buf }

/-- The loop of `ARGB_FillRGB`: `for (volatile u16_t i = ..; i < NUM_PIXELS; i++)`. -/
def FillRGB_loop (cfg : Config) (r g b : Nat) : Nat → Nat → State → Option State
  | 0, _, _ => none
  | fuel + 1, i, s =>
    if i < cfg.NUM_PIXELS then
      (ARGB_SetRGB cfg s i r g b).bind fun s1 => FillRGB_loop cfg r g b fuel (u16 (i + 1)) s1
    else some s

/-- `ARGB_FillRGB(r, g, b)` -/
def ARGB_FillRGB (cfg : Config) (s : State) (r g b : Nat) : Option State :=
  FillRGB_loop cfg r g b 65536 0 s

/-- The loop of `ARGB_FillWhite`. -/
def FillWhite_loop (cfg : Config) (w : Nat) : Nat → Nat → State → Option State
  | 0, _, _ => none
  | fuel + 1, i, s =>
    if i < cfg.NUM_PIXELS then
      (ARGB_SetWhite cfg s i w).bind fun s1 => FillWhite_loop cfg w fuel (u16 (i + 1)) s1
    else some s

/-- `ARGB_FillWhite(w)` -/
def ARGB_FillWhite (cfg : Config) (s : State) (w : Nat) : Option State :=
  FillWhite_loop cfg w 65536 0 s

/-- `ARGB_Clear()` -/
def ARGB_Clear (cfg : Config) (s : State) : Option State :=
  (ARGB_FillRGB cfg s 0 0 0).bind fun s1 =>
  if cfg.isSK6812 then ARGB_FillWhite cfg s1 0 else some s1

/-! ## Transfer engine -/

/-- `ARGB_Ready()` -/
def ARGB_Ready (s : State) : ARGB_STATE := s.ARGB_LOC_ST

/-- Inner loop of `ARGB_Show`: `for (u8_t bit = ..; bit < 8; bit++)`, on
`(byte_val, pwm_idx, PWM_BUF)`; returns `(pwm_idx, PWM_BUF)`. -/
def Show_bits (hi lo : Nat) : Nat → Nat → Nat → Nat → List Nat → Option (Nat × List Nat)
  | 0, _, _, _, _ => none
  | fuel + 1, bit, byte_val, pwm_idx, buf =>
    if bit < 8 then
      (store buf pwm_idx (if byte_val &&& 0x80 ≠ 0 then hi else lo)).bind fun buf1 =>
        Show_bits hi lo fuel (u8 (bit + 1)) (u8 (byte_val <<< 1)) (u16 (pwm_idx + 1)) buf1
    else some (pwm_idx, buf)

/-- Outer loop of `ARGB_Show`: `for (u16_t byte_idx = ..; byte_idx < NUM_BYTES; byte_idx++)`. -/
def Show_bytes (cfg : Config) (hi lo : Nat) (rgb : List Nat) :
    Nat → Nat → Nat → List Nat → Option (Nat × List Nat)
  | 0, _, _, _ => none
  | fuel + 1, byte_idx, pwm_idx, buf =>
    if byte_idx < NUM_BYTES cfg then
      (load rgb byte_idx).bind fun byte_val =>
      (Show_bits hi lo 256 0 byte_val pwm_idx buf).bind fun pb =>
        Show_bytes cfg hi lo rgb fuel (u16 (byte_idx + 1)) pb.1 pb.2
    else some (pwm_idx, buf)

/-- Reset loop of `ARGB_Show`: `for (u16_t i = ..; i < RST_LEN; i++) PWM_BUF[pwm_idx++] = 0`. -/
def Show_reset : Nat → Nat → Nat → List Nat → Option (Nat × List Nat)
  | 0, _, _, _ => none
  | fuel + 1, i, pwm_idx, buf =>
    if i < RST_LEN then
      (store buf pwm_idx 0).bind fun buf1 =>
        Show_reset fuel (u16 (i + 1)) (u16 (pwm_idx + 1)) buf1
    else some (pwm_idx, buf)

/-- The buffer fill of `ARGB_Show` (both loops, `pwm_idx` starting at 0): the final
`(pwm_idx, PWM_BUF)`. -/
def Show_fill (cfg : Config) (hi lo : Nat) (rgb pwm : List Nat) : Option (Nat × List Nat) :=
  (Show_bytes cfg hi lo rgb 65536 0 0 pwm).bind fun pb =>
  Show_reset 65536 0 pb.1 pb.2

/-- The locals `htim`, `hdma`, `tim_ch`, `tim_dma_cc`, `ccr_reg` of `ARGB_Show`. -/
structure Handles where
  htim : Ptr
  hdma : Ptr
  tim_ch : Nat
  tim_dma_cc : Nat
  ccr_reg : CCR_Ptr
  deriving DecidableEq, Repr

/-- The handles `ARGB_Show` works on, from the runtime binding or the legacy macros;
`none` when there is neither (`return ARGB_PARAM_ERR`). -/
def Show_handles (cfg : Config) (hal : HAL) (s : State) : Option Handles :=
  if s.s_htim ≠ 0 then
    some ⟨s.s_htim, s.s_hdma, s.s_tim_channel, s.s_tim_dma_cc, s.s_tim_ccr⟩
  else if cfg.ARGB_USE_RUNTIME_BINDING then none
  else
    let htim := cfg.TIM_HANDLE
    let inst := (s.hw.tim htim).Instance
    if cfg.TIM_CH = hal.TIM_CHANNEL_1 then
      some ⟨htim, cfg.DMA_HANDLE, cfg.TIM_CH, hal.TIM_DMA_CC1, .CCR1 inst⟩
    else if cfg.TIM_CH = hal.TIM_CHANNEL_2 then
      some ⟨htim, cfg.DMA_HANDLE, cfg.TIM_CH, hal.TIM_DMA_CC2, .CCR2 inst⟩
    else if cfg.TIM_CH = hal.TIM_CHANNEL_3 then
      some ⟨htim, cfg.DMA_HANDLE, cfg.TIM_CH, hal.TIM_DMA_CC3, .CCR3 inst⟩
    else
      some ⟨htim, cfg.DMA_HANDLE, cfg.TIM_CH, hal.TIM_DMA_CC4, .CCR4 inst⟩

/-- The store `*ccr_reg = v`; through `NULL` it is a fault. -/
def write_ccr (hw : HW) (p : CCR_Ptr) (v : Nat) : Option HW :=
  match p with
  | .NULL => none
  | .CCR1 inst =>
    some { hw with regs := Function.update hw.regs inst { hw.regs inst with CCR1 := v } }
  | .CCR2 inst =>
    some { hw with regs := Function.update hw.regs inst { hw.regs inst with CCR2 := v } }
  | .CCR3 inst =>
    some { hw with regs := Function.update hw.regs inst { hw.regs inst with CCR3 := v } }
  | .CCR4 inst =>
    some { hw with regs := Function.update hw.regs inst { hw.regs inst with CCR4 := v } }

/-- The busy check of `ARGB_Show`:
`ARGB_LOC_ST == ARGB_BUSY || hdma->State != HAL_DMA_STATE_READY`. -/
def Show_busy (hal : HAL) (s : State) (hdma : Ptr) : Bool :=
  s.ARGB_LOC_ST == .ARGB_BUSY || (s.hw.dma hdma).State != hal.HAL_DMA_STATE_READY

/-- `TIM_DMA_ID_CCx` for the channel (`dma_id` in `ARGB_Show`). -/
def Show_dma_id (hal : HAL) (tim_ch : Nat) : Nat :=
  if tim_ch = hal.TIM_CHANNEL_1 then hal.TIM_DMA_ID_CC1
  else if tim_ch = hal.TIM_CHANNEL_2 then hal.TIM_DMA_ID_CC2
  else if tim_ch = hal.TIM_CHANNEL_3 then hal.TIM_DMA_ID_CC3
  else hal.TIM_DMA_ID_CC4

/-- `ARGB_Show()` from `ARGB_LOC_ST = ARGB_BUSY` up to the arguments of
`HAL_DMA_Start_IT`: the state reached and the request about to be made. -/
def Show_prepare (cfg : Config) (hal : HAL) (s : State) (h : Handles) :
    Option (State × DMA_Request) :=
  let s := { s with ARGB_LOC_ST := .ARGB_BUSY }
  -- Fill ENTIRE PWM buffer with all pixel data, add reset period
  (Show_fill cfg s.PWM_HI s.PWM_LO s.RGB_BUF s.PWM_BUF).bind fun pb =>
  let s := { s with PWM_BUF := pb.2 }
  -- Clear CCR before starting to avoid initial glitch
  (write_ccr s.hw h.ccr_reg 0).bind fun hw =>
  let inst := (hw.tim h.htim).Instance
  let hw := { hw with regs := Function.update hw.regs inst { hw.regs inst with CNT := 0 } }
  let hw := hal.HAL_TIM_CLEAR_FLAG hw h.htim
    (hal.TIM_FLAG_UPDATE ||| hal.TIM_FLAG_CC1 ||| hal.TIM_FLAG_CC2 ||| hal.TIM_FLAG_CC3
      ||| hal.TIM_FLAG_CC4)
  -- Get DMA ID from channel
  let dma_id := Show_dma_id hal h.tim_ch
  -- Set channel state
  let hw := hal.TIM_CHANNEL_STATE_SET hw h.htim h.tim_ch hal.HAL_TIM_CHANNEL_STATE_BUSY
  -- Setup callbacks
  let d := (hw.tim h.htim).hdma dma_id
  let cb := { hw.dma d with XferCpltCallback := .ARGB_TIM_DMADelayPulseCplt }
  let hw := { hw with dma := Function.update hw.dma d cb }
  let d := (hw.tim h.htim).hdma dma_id
  let cb := { hw.dma d with XferHalfCpltCallback := .NULL }
  let hw := { hw with dma := Function.update hw.dma d cb }
  let d := (hw.tim h.htim).hdma dma_id
  let cb := { hw.dma d with XferErrorCallback := .TIM_DMAError }
  let hw := { hw with dma := Function.update hw.dma d cb }
  -- Start DMA for entire buffer
  let req : DMA_Request :=
    { hdma := (hw.tim h.htim).hdma dma_id, SrcAddress := .PWM_BUF, DstAddress := h.ccr_reg,
      DataLength := u16 (PWM_BUF_LEN cfg) }
  some ({ s with hw := hw }, req)

/-- `ARGB_Show()` from the `HAL_DMA_Start_IT` call on. -/
def Show_start (hal : HAL) (s : State) (h : Handles) (req : DMA_Request) :
    ARGB_STATE × State :=
  let res := hal.HAL_DMA_Start_IT s.hw req
  let s := { s with hw := res.2, dma_requests := req :: s.dma_requests }
  if res.1 ≠ hal.HAL_OK then
    let s := { s with ARGB_LOC_ST := .ARGB_READY }
    let hw := hal.TIM_CHANNEL_STATE_SET s.hw h.htim h.tim_ch hal.HAL_TIM_CHANNEL_STATE_READY
    (.ARGB_PARAM_ERR, { s with hw := hw })
  else
    -- Enable DMA request from timer
    let hw := hal.HAL_TIM_ENABLE_DMA s.hw h.htim h.tim_dma_cc
    -- Enable timer output for advanced timers (TIM1, TIM8)
    let hw := if hal.IS_TIM_BREAK_INSTANCE (hw.tim h.htim).Instance then
                hal.HAL_TIM_MOE_ENABLE hw h.htim
              else hw
    -- Start timer
    let hw := hal.HAL_TIM_ENABLE hw h.htim
    (.ARGB_OK, { s with hw := hw })

/-- `ARGB_Show()` -/
def ARGB_Show (cfg : Config) (hal : HAL) (s : State) : Option (ARGB_STATE × State) :=
  match Show_handles cfg hal s with
  | none => some (.ARGB_PARAM_ERR, s)
  | some h =>
    -- Check if DMA is ready
    if Show_busy hal s h.hdma then some (.ARGB_BUSY, s)
    else (Show_prepare cfg hal s h).bind fun sr => some (Show_start hal sr.1 h sr.2)

/-- The call reaches the busy check with the handles `h` and passes it. -/
def Show_passes (cfg : Config) (hal : HAL) (s : State) (h : Handles) : Prop :=
  Show_handles cfg hal s = some h ∧ Show_busy hal s h.hdma = false

/-- `ARGB_TIM_DMADelayPulseCplt(hdma)`: the DMA transfer-complete callback. -/
def ARGB_TIM_DMADelayPulseCplt (cfg : Config) (hal : HAL) (s : State) (hdma : Ptr) : State :=
  let htim := (s.hw.dma hdma).Parent
  -- Get channel info
  let ch : Option (Nat × Nat) :=
    if s.s_htim ≠ 0 then some (s.s_tim_channel, s.s_tim_dma_cc)
    else if cfg.ARGB_USE_RUNTIME_BINDING then none
    else some (cfg.TIM_CH,
      if cfg.TIM_CH = hal.TIM_CHANNEL_1 then hal.TIM_DMA_CC1
      else if cfg.TIM_CH = hal.TIM_CHANNEL_2 then hal.TIM_DMA_CC2
      else if cfg.TIM_CH = hal.TIM_CHANNEL_3 then hal.TIM_DMA_CC3
      else hal.TIM_DMA_CC4)
  match ch with
  | none => s -- No valid configuration
  | some (tim_ch, tim_dma_cc) =>
    -- Stop DMA and timer
    let hw := hal.HAL_TIM_DISABLE_DMA s.hw htim tim_dma_cc
    let hw := if hal.IS_TIM_BREAK_INSTANCE (hw.tim htim).Instance then
                hal.HAL_TIM_MOE_DISABLE hw htim
              else hw
    let hw := hal.HAL_TIM_DISABLE hw htim
    -- Set channel state to ready
    let hw := hal.TIM_CHANNEL_STATE_SET hw htim tim_ch hal.HAL_TIM_CHANNEL_STATE_READY
    -- Clear active channel
    let h := { hw.tim htim with Channel := hal.HAL_TIM_ACTIVE_CHANNEL_CLEARED }
    let hw := { hw with tim := Function.update hw.tim htim h }
    -- Signal completion
    { s with hw := hw, ARGB_LOC_ST := .ARGB_READY }

/-! ## Specification-side definitions -/

/-- The pulse code the encoding prescribes for bit `j` (counted from the most
significant bit) of the byte `v`: `hi` for a 1-bit, `lo` for a 0-bit. -/
def pulse_code (hi lo v j : Nat) : Nat := if v.testBit (7 - j) then hi else lo

/-- The DMA engine accepts the start request that `ARGB_Show` makes from `s`. -/
def Show_dma_accepted (cfg : Config) (hal : HAL) (s : State) (h : Handles) : Prop :=
  ∀ s1 req, Show_prepare cfg hal s h = some (s1, req) →
    (hal.HAL_DMA_Start_IT s1.hw req).1 = hal.HAL_OK

/-- The DMA engine rejects the start request that `ARGB_Show` makes from `s`. -/
def Show_dma_rejected (cfg : Config) (hal : HAL) (s : State) (h : Handles) : Prop :=
  ∀ s1 req, Show_prepare cfg hal s h = some (s1, req) →
    (hal.HAL_DMA_Start_IT s1.hw req).1 ≠ hal.HAL_OK

/-- The `DataLength` of the most recent `HAL_DMA_Start_IT` call. -/
def last_DataLength (s : State) : Option Nat :=
  s.dma_requests.head?.map fun q => q.DataLength

/-- Bytes per pixel in `RGB_BUF`: 4 for `SK6812`, else 3. -/
def BYTES_PER_PIXEL (cfg : Config) : Nat := if cfg.isSK6812 then 4 else 3

/-- The three subpixel bytes `ARGB_SetRGB` stores for the colour `(r, g, b)` at
brightness `br`, in the order they are stored. -/
def subpixels (cfg : Config) (br r g b : Nat) : Nat × Nat × Nat :=
  let r1 := brightness br r
  let g1 := if cfg.USE_GAMMA_CORRECTION then scale8 (brightness br g) 0xB0 else brightness br g
  let b1 := if cfg.USE_GAMMA_CORRECTION then scale8 (brightness br b) 0xF0 else brightness br b
  if cfg.family = .WS2812 then (g1, r1, b1) else (r1, g1, b1)

/-- The colour buffer with the three colour bytes of pixel `p` replaced. -/
def set_pixel (cfg : Config) (buf : List Nat) (p : Nat) (c : Nat × Nat × Nat) : List Nat :=
  ((buf.set (BYTES_PER_PIXEL cfg * p) c.1).set (BYTES_PER_PIXEL cfg * p + 1) c.2.1).set
    (BYTES_PER_PIXEL cfg * p + 2) c.2.2

/-! ## A concrete HAL and hardware, for running the driver on examples -/

/-- Update of the register block at `inst`. -/
def HW.mod_regs (hw : HW) (inst : Ptr) (f : TIM_TypeDef → TIM_TypeDef) : HW :=
  { hw with regs := Function.update hw.regs inst (f (hw.regs inst)) }

/-- The 32-bit complement `~x`. -/
def not32 (x : Nat) : Nat := 0xFFFFFFFF ^^^ (x % 4294967296)

/-- The test of `__HAL_TIM_DISABLE` and `__HAL_TIM_MOE_DISABLE`: no channel output
is enabled in `CCER`. -/
def ccer_idle (r : TIM_TypeDef) : Bool := r.CCER &&& 0x1111 == 0 && r.CCER &&& 0x0444 == 0

/-- An example HAL: the constants of the STM32F4 HAL headers, the timer macros as
register updates, a DMA engine that accepts a start request exactly when the handle
is ready (answering `HAL_BUSY = 2` otherwise), and the duty product computed exactly. -/
def hal_f4 : HAL where
  TIM_CHANNEL_1 := 0x0
  TIM_CHANNEL_2 := 0x4
  TIM_CHANNEL_3 := 0x8
  TIM_CHANNEL_4 := 0xC
  TIM_DMA_CC1 := 0x200
  TIM_DMA_CC2 := 0x400
  TIM_DMA_CC3 := 0x800
  TIM_DMA_CC4 := 0x1000
  TIM_DMA_ID_CC1 := 1
  TIM_DMA_ID_CC2 := 2
  TIM_DMA_ID_CC3 := 3
  TIM_DMA_ID_CC4 := 4
  TIM_FLAG_UPDATE := 0x1
  TIM_FLAG_CC1 := 0x2
  TIM_FLAG_CC2 := 0x4
  TIM_FLAG_CC3 := 0x8
  TIM_FLAG_CC4 := 0x10
  HAL_TIM_CHANNEL_STATE_READY := 1
  HAL_TIM_CHANNEL_STATE_BUSY := 2
  HAL_TIM_ACTIVE_CHANNEL_CLEARED := 0
  HAL_DMA_STATE_READY := 1
  HAL_OK := 0
  TIM_CCx_ENABLE := 1
  HAL_TIM_CLEAR_FLAG := fun hw htim flags =>
    hw.mod_regs (hw.tim htim).Instance fun r => { r with SR := not32 flags }
  TIM_CHANNEL_STATE_SET := fun hw htim ch st =>
    let k := if ch = 0x0 then 0 else if ch = 0x4 then 1 else if ch = 0x8 then 2 else 3
    let h := { hw.tim htim with ChannelState := Function.update (hw.tim htim).ChannelState k st }
    { hw with tim := Function.update hw.tim htim h }
  HAL_DMA_Start_IT := fun hw req =>
    if (hw.dma req.hdma).State = 1 then
      (0, { hw with dma := Function.update hw.dma req.hdma { hw.dma req.hdma with State := 2 } })
    else (2, hw)
  HAL_TIM_ENABLE_DMA := fun hw htim dma =>
    hw.mod_regs (hw.tim htim).Instance fun r => { r with DIER := r.DIER ||| dma }
  HAL_TIM_DISABLE_DMA := fun hw htim dma =>
    hw.mod_regs (hw.tim htim).Instance fun r => { r with DIER := r.DIER &&& not32 dma }
  IS_TIM_BREAK_INSTANCE := fun inst => inst == 0x40010000 || inst == 0x40010400
  HAL_TIM_MOE_ENABLE := fun hw htim =>
    hw.mod_regs (hw.tim htim).Instance fun r => { r with BDTR := r.BDTR ||| 0x8000 }
  HAL_TIM_MOE_DISABLE := fun hw htim =>
    hw.mod_regs (hw.tim htim).Instance fun r =>
      if ccer_idle r then { r with BDTR := r.BDTR &&& not32 0x8000 } else r
  HAL_TIM_ENABLE := fun hw htim =>
    hw.mod_regs (hw.tim htim).Instance fun r => { r with CR1 := r.CR1 ||| 0x1 }
  HAL_TIM_DISABLE := fun hw htim =>
    hw.mod_regs (hw.tim htim).Instance fun r =>
      if ccer_idle r then { r with CR1 := r.CR1 &&& not32 0x1 } else r
  TIM_CCxChannelCmd := fun hw inst ch st =>
    hw.mod_regs inst fun r =>
      { r with CCER := (r.CCER &&& not32 (0x1 <<< (ch &&& 0x1F))) ||| (st <<< (ch &&& 0x1F)) }
  HAL_Delay := fun hw _ => hw
  HAL_RCC_GetPCLK1Freq := fun hw => hw.rest 0
  HAL_RCC_GetPCLK2Freq := fun hw => hw.rest 1
  RCC_CFGR_PPRE1 := fun hw => hw.rest 2
  RCC_CFGR_PPRE2 := fun hw => hw.rest 3
  duty_u8 := fun n pp => u8 (n * pp / 100)

/-- The example HAL with a DMA engine that rejects every start request
(`HAL_ERROR = 1`). -/
def hal_reject : HAL :=
  { hal_f4 with HAL_DMA_Start_IT := fun hw _ => (1, hw) }

/-- An example hardware world: every timer handle is on the register block at
`0x40000000` (TIM2) with its DMA links pointing at the handle at address `2`, every
DMA handle is ready with the timer handle at address `1` as parent, all registers
are zero, and both bus clocks run at 84 MHz undivided. -/
def hw_example : HW where
  tim := fun _ =>
    { Instance := 0x40000000, Channel := 0, hdma := fun _ => 2, ChannelState := fun _ => 1 }
  dma := fun _ =>
    { State := 1, Parent := 1, XferCpltCallback := .NULL, XferHalfCpltCallback := .NULL,
      XferErrorCallback := .NULL }
  regs := fun _ => ⟨0, 0, 0, 0, 0, 0, 0, 0, 0, 0, 0, 0, 0⟩
  rest := fun k => if k < 2 then 84000000 else 0

/-- The default build used through the legacy binding on channel 2, with the extern
handles at addresses `1` (timer) and `2` (DMA). -/
def cfg_default : Config := defaultConfig hal_f4.TIM_CHANNEL_2 1 2

/-- An Arduino build of the default strip: runtime binding only. -/
def cfg_arduino : Config := { cfg_default with ARGB_USE_RUNTIME_BINDING := true }

/-- The default strip family with 2729 pixels: `PWM_BUF_LEN` is 65556. -/
def cfg_2729 : Config := { cfg_default with NUM_PIXELS := 2729 }

/-- An `SK6812` (RGBW) build with 5 pixels. -/
def cfg_sk6812 : Config := { cfg_default with family := .SK6812 }

/-- The driver after power-up, `ARGB_Attach(htim = 1, TIM_CHANNEL_2, hdma = 2, 84 MHz)`
and `ARGB_Init()`, on the example hardware. -/
def s_ready (cfg : Config) : State :=
  ARGB_Init cfg hal_f4
    (ARGB_Attach hal_f4 (State.initial cfg hw_example) 1 hal_f4.TIM_CHANNEL_2 2 84000000).2

/-- The handles `ARGB_Show` works on in `s_ready`: timer handle `1`, DMA handle `2`,
`TIM_CHANNEL_2`, `TIM_DMA_CC2`, and the address of `CCR2` of the timer at `0x40000000`. -/
def h_example : Handles := ⟨1, 2, 0x4, 0x400, .CCR2 0x40000000⟩

/-- The state `s_ready` of the default build with every pixel holding the bytes
(0, 255, 0): what `ARGB_FillRGB(255, 0, 0)` leaves. -/
def s_red : State :=
  { s_ready cfg_default with
    RGB_BUF := [0, 255, 0, 0, 255, 0, 0, 255, 0, 0, 255, 0, 0, 255, 0] }

/-! ## Pin resolver (`ARGB_Auto.h`)

The Arduino core (`PinMap_PWM`, `digitalPinToPinName`, `STM_PORT`, `STM_PIN_CHANNEL`, ..)
and the device header (`TIM1`.., `DMA_CHANNEL_x`) are not part of the repository: they
are taken as parameters (`Core`). The table `ARGB_DMA_MAP` is in the source. -/

/-- `ARGB_DMA_Result_t` -/
inductive ARGB_DMA_Result_t where
  | ARGB_DMA_OK
  | ARGB_DMA_NO_PWM
  | ARGB_DMA_NO_DMA
  | ARGB_DMA_UNSUPPORTED_TIM
  | ARGB_DMA_ERR
  deriving DecidableEq, Repr

/-- A `DMA_TypeDef*`: `NULL`, `DMA1` or `DMA2`. -/
inductive DMA_Ptr where
  | NULL
  | DMA1
  | DMA2
  deriving DecidableEq, Repr

/-- A `DMA_Stream_TypeDef*`: `NULL`, `DMA1_Stream<n>` or `DMA2_Stream<n>`. -/
inductive DMA_Stream_Ptr where
  | NULL
  | DMA1_Stream (n : Nat)
  | DMA2_Stream (n : Nat)
  deriving DecidableEq, Repr

/-- The `IRQn_Type` values of the table: `(IRQn_Type)0`, `DMA1_Stream<n>_IRQn`,
`DMA2_Stream<n>_IRQn`. -/
inductive IRQn_Type where
  | zero
  | DMA1_Stream_IRQn (n : Nat)
  | DMA2_Stream_IRQn (n : Nat)
  deriving DecidableEq, Repr

/-- `ARGB_PinConfig_t` -/
structure ARGB_PinConfig_t where
  gpio_port : Ptr
  gpio_pin : Nat
  tim : Ptr
  tim_channel : Nat
  tim_af : Nat
  tim_dma_cc : Nat
  is_32bit_tim : Nat
  dma_stream : DMA_Stream_Ptr
  dma_channel : Nat
  dma_irqn : IRQn_Type
  deriving DecidableEq, Repr

/-- The structure after `memset(cfg, 0, sizeof(ARGB_PinConfig_t))`. -/
def ARGB_PinConfig_t.zero : ARGB_PinConfig_t :=
  { gpio_port := 0, gpio_pin := 0, tim := 0, tim_channel := 0, tim_af := 0, tim_dma_cc := 0,
    is_32bit_tim := 0, dma_stream := .NULL, dma_channel := 0, dma_irqn := .zero }

/-- `ARGB_DMA_Map_t` -/
structure ARGB_DMA_Map_t where
  tim : Ptr
  channel : Nat
  dma : DMA_Ptr
  stream : DMA_Stream_Ptr
  dma_ch : Nat
  irqn : IRQn_Type
  deriving DecidableEq, Repr

/-- `PinMap` of the Arduino core: the fields the resolver reads. -/
structure PinMap where
  pin : Nat
  peripheral : Ptr
  function : Nat
  deriving DecidableEq, Repr

/-- The Arduino core and device header as the resolver uses them. A timer macro
`TIMx` is `none` when it is not defined, else its address. -/
structure Core where
  /-- whether `STM32F4xx` is defined -/
  STM32F4xx : Bool
  /-- the pin name `NC` -/
  NC : Nat
  /-- `digitalPinToPinName(p)` -/
  digitalPinToPinName : Nat → Nat
  /-- `STM_PORT(pn)` -/
  STM_PORT : Nat → Nat
  /-- `STM_GPIO_PIN(pn)` -/
  STM_GPIO_PIN : Nat → Nat
  /-- `get_GPIO_Port(port)` -/
  get_GPIO_Port : Nat → Ptr
  /-- the memory at `PinMap_PWM`: the entries in order; reading past them is a fault -/
  PinMap_PWM : List PinMap
  /-- `STM_PIN_AFNUM(function)` -/
  STM_PIN_AFNUM : Nat → Nat
  /-- `STM_PIN_CHANNEL(function)` -/
  STM_PIN_CHANNEL : Nat → Nat
  TIM1 : Option Ptr
  TIM2 : Option Ptr
  TIM3 : Option Ptr
  TIM4 : Option Ptr
  TIM5 : Option Ptr
  DMA_CHANNEL_2 : Nat
  DMA_CHANNEL_3 : Nat
  DMA_CHANNEL_5 : Nat
  DMA_CHANNEL_6 : Nat

/-- The rows of `ARGB_DMA_MAP` under `#if defined(TIM1)`. -/
def DMA_MAP_TIM1 (core : Core) (hal : HAL) (t : Ptr) : List ARGB_DMA_Map_t :=
  [ ⟨t, hal.TIM_CHANNEL_1, .DMA2, .DMA2_Stream 1, core.DMA_CHANNEL_6, .DMA2_Stream_IRQn 1⟩,
    ⟨t, hal.TIM_CHANNEL_1, .DMA2, .DMA2_Stream 3, core.DMA_CHANNEL_6, .DMA2_Stream_IRQn 3⟩,
    ⟨t, hal.TIM_CHANNEL_2, .DMA2, .DMA2_Stream 2, core.DMA_CHANNEL_6, .DMA2_Stream_IRQn 2⟩,
    ⟨t, hal.TIM_CHANNEL_3, .DMA2, .DMA2_Stream 6, core.DMA_CHANNEL_6, .DMA2_Stream_IRQn 6⟩,
    ⟨t, hal.TIM_CHANNEL_4, .DMA2, .DMA2_Stream 4, core.DMA_CHANNEL_6, .DMA2_Stream_IRQn 4⟩ ]

/-- The rows of `ARGB_DMA_MAP` under `#if defined(TIM2)`. -/
def DMA_MAP_TIM2 (core : Core) (hal : HAL) (t : Ptr) : List ARGB_DMA_Map_t :=
  [ ⟨t, hal.TIM_CHANNEL_1, .DMA1, .DMA1_Stream 5, core.DMA_CHANNEL_3, .DMA1_Stream_IRQn 5⟩,
    ⟨t, hal.TIM_CHANNEL_2, .DMA1, .DMA1_Stream 6, core.DMA_CHANNEL_3, .DMA1_Stream_IRQn 6⟩,
    ⟨t, hal.TIM_CHANNEL_3, .DMA1, .DMA1_Stream 1, core.DMA_CHANNEL_3, .DMA1_Stream_IRQn 1⟩,
    ⟨t, hal.TIM_CHANNEL_4, .DMA1, .DMA1_Stream 6, core.DMA_CHANNEL_3, .DMA1_Stream_IRQn 6⟩,
    ⟨t, hal.TIM_CHANNEL_4, .DMA1, .DMA1_Stream 7, core.DMA_CHANNEL_3, .DMA1_Stream_IRQn 7⟩ ]

/-- The rows of `ARGB_DMA_MAP` under `#if defined(TIM3)`. -/
def DMA_MAP_TIM3 (core : Core) (hal : HAL) (t : Ptr) : List ARGB_DMA_Map_t :=
  [ ⟨t, hal.TIM_CHANNEL_1, .DMA1, .DMA1_Stream 4, core.DMA_CHANNEL_5, .DMA1_Stream_IRQn 4⟩,
    ⟨t, hal.TIM_CHANNEL_2, .DMA1, .DMA1_Stream 5, core.DMA_CHANNEL_5, .DMA1_Stream_IRQn 5⟩,
    ⟨t, hal.TIM_CHANNEL_3, .DMA1, .DMA1_Stream 7, core.DMA_CHANNEL_5, .DMA1_Stream_IRQn 7⟩,
    ⟨t, hal.TIM_CHANNEL_4, .DMA1, .DMA1_Stream 2, core.DMA_CHANNEL_5, .DMA1_Stream_IRQn 2⟩ ]

/-- The rows of `ARGB_DMA_MAP` under `#if defined(TIM4)`. -/
def DMA_MAP_TIM4 (core : Core) (hal : HAL) (t : Ptr) : List ARGB_DMA_Map_t :=
  [ ⟨t, hal.TIM_CHANNEL_1, .DMA1, .DMA1_Stream 0, core.DMA_CHANNEL_2, .DMA1_Stream_IRQn 0⟩,
    ⟨t, hal.TIM_CHANNEL_2, .DMA1, .DMA1_Stream 3, core.DMA_CHANNEL_2, .DMA1_Stream_IRQn 3⟩,
    ⟨t, hal.TIM_CHANNEL_3, .DMA1, .DMA1_Stream 7, core.DMA_CHANNEL_2, .DMA1_Stream_IRQn 7⟩ ]

/-- The rows of `ARGB_DMA_MAP` under `#if defined(TIM5)`. -/
def DMA_MAP_TIM5 (core : Core) (hal : HAL) (t : Ptr) : List ARGB_DMA_Map_t :=
  [ ⟨t, hal.TIM_CHANNEL_1, .DMA1, .DMA1_Stream 2, core.DMA_CHANNEL_6, .DMA1_Stream_IRQn 2⟩,
    ⟨t, hal.TIM_CHANNEL_2, .DMA1, .DMA1_Stream 4, core.DMA_CHANNEL_6, .DMA1_Stream_IRQn 4⟩,
    ⟨t, hal.TIM_CHANNEL_3, .DMA1, .DMA1_Stream 0, core.DMA_CHANNEL_6, .DMA1_Stream_IRQn 0⟩,
    ⟨t, hal.TIM_CHANNEL_4, .DMA1, .DMA1_Stream 1, core.DMA_CHANNEL_6, .DMA1_Stream_IRQn 1⟩,
    ⟨t, hal.TIM_CHANNEL_4, .DMA1, .DMA1_Stream 3, core.DMA_CHANNEL_6, .DMA1_Stream_IRQn 3⟩ ]

/-- The rows a timer macro contributes: those of its block when it is defined. -/
def DMA_MAP_block (rows : Ptr → List ARGB_DMA_Map_t) (tim : Option Ptr) :
    List ARGB_DMA_Map_t :=
  match tim with
  | some t => rows t
  | none => []

/-- The sentinel row `{NULL, 0, NULL, NULL, 0, (IRQn_Type)0}`. -/
def DMA_MAP_sentinel : ARGB_DMA_Map_t := ⟨0, 0, .NULL, .NULL, 0, .zero⟩

/-- `ARGB_DMA_MAP[]`: the blocks of the defined timers in the order TIM1 .. TIM5, then
the sentinel. -/
def ARGB_DMA_MAP (core : Core) (hal : HAL) : List ARGB_DMA_Map_t :=
  DMA_MAP_block (DMA_MAP_TIM1 core hal) core.TIM1 ++
  DMA_MAP_block (DMA_MAP_TIM2 core hal) core.TIM2 ++
  DMA_MAP_block (DMA_MAP_TIM3 core hal) core.TIM3 ++
  DMA_MAP_block (DMA_MAP_TIM4 core hal) core.TIM4 ++
  DMA_MAP_block (DMA_MAP_TIM5 core hal) core.TIM5 ++
  [DMA_MAP_sentinel]

/-- The PWM scan of `ARGB_AnalyzePin`, `while (map->pin != NC) { .. map++; }`, with
`map` pointing at the head of the list. `break` leaves with the configuration,
`continue` (the `default:` of the switch) re-enters the loop with `map` as it is. -/
def AnalyzePin_pwm_scan (core : Core) (hal : HAL) (pn : Nat) :
    Nat → List PinMap → ARGB_PinConfig_t → Option ARGB_PinConfig_t
  | 0, _, _ => none
  | _ + 1, [], _ => none
  | fuel + 1, e :: rest, cfg =>
    if e.pin ≠ core.NC then
      if e.pin = pn then
        let cfg := { cfg with tim := e.peripheral, tim_af := core.STM_PIN_AFNUM e.function }
        let channel_n := core.STM_PIN_CHANNEL e.function
        if channel_n = 1 then
          some { cfg with tim_channel := hal.TIM_CHANNEL_1, tim_dma_cc := hal.TIM_DMA_CC1 }
        else if channel_n = 2 then
          some { cfg with tim_channel := hal.TIM_CHANNEL_2, tim_dma_cc := hal.TIM_DMA_CC2 }
        else if channel_n = 3 then
          some { cfg with tim_channel := hal.TIM_CHANNEL_3, tim_dma_cc := hal.TIM_DMA_CC3 }
        else if channel_n = 4 then
          some { cfg with tim_channel := hal.TIM_CHANNEL_4, tim_dma_cc := hal.TIM_DMA_CC4 }
        else AnalyzePin_pwm_scan core hal pn fuel (e :: rest) cfg
      else AnalyzePin_pwm_scan core hal pn fuel rest cfg
    else some cfg

/-- The DMA scan of `ARGB_AnalyzePin`, `while (dma_map->tim != NULL) { .. dma_map++; }`,
with `dma_map` pointing at the head of the list; reading past the table is a fault. -/
def AnalyzePin_dma_scan :
    List ARGB_DMA_Map_t → ARGB_PinConfig_t → Option (ARGB_DMA_Result_t × ARGB_PinConfig_t)
  | [], _ => none
  | d :: rest, cfg =>
    if d.tim ≠ 0 then
      if d.tim = cfg.tim ∧ d.channel = cfg.tim_channel then
        some (.ARGB_DMA_OK,
          { cfg with dma_stream := d.stream, dma_channel := d.dma_ch, dma_irqn := d.irqn })
      else AnalyzePin_dma_scan rest cfg
    else some (.ARGB_DMA_NO_DMA, cfg)

/-- `ARGB_AnalyzePin` after the PWM scan: the `NULL` test of the timer, the counter
width, and the DMA scan. -/
def AnalyzePin_finish (core : Core) (hal : HAL) (cfg : ARGB_PinConfig_t) :
    Option (ARGB_DMA_Result_t × Option ARGB_PinConfig_t) :=
  if cfg.tim = 0 then some (.ARGB_DMA_NO_PWM, some cfg)
  else
    let cfg := if core.TIM2 = some cfg.tim then { cfg with is_32bit_tim := 1 } else cfg
    let cfg := if core.TIM5 = some cfg.tim then { cfg with is_32bit_tim := 1 } else cfg
    if core.STM32F4xx then
      (AnalyzePin_dma_scan (ARGB_DMA_MAP core hal) cfg).map fun rc => (rc.1, some rc.2)
    else some (.ARGB_DMA_NO_DMA, some cfg)

/-- `ARGB_AnalyzePin(arduino_pin, cfg)`: the result and the structure behind `cfg`
(`none` for a `NULL` pointer). The PWM scan runs with the given fuel; `none` stands
for a fault or for a scan that has not ended within the fuel. -/
def ARGB_AnalyzePin (core : Core) (hal : HAL) (fuel : Nat) (arduino_pin : Nat)
    (cfg : Option ARGB_PinConfig_t) : Option (ARGB_DMA_Result_t × Option ARGB_PinConfig_t) :=
  match cfg with
  | none => some (.ARGB_DMA_ERR, none)
  | some _ =>
    let cfg := ARGB_PinConfig_t.zero
    let pn := core.digitalPinToPinName arduino_pin
    if pn = core.NC then some (.ARGB_DMA_ERR, some cfg)
    else
      let cfg := { cfg with gpio_port := core.get_GPIO_Port (core.STM_PORT pn),
                            gpio_pin := core.STM_GPIO_PIN pn }
      if cfg.gpio_port = 0 then some (.ARGB_DMA_ERR, some cfg)
      else
        (AnalyzePin_pwm_scan core hal pn fuel core.PinMap_PWM cfg).bind
          (AnalyzePin_finish core hal)

/-- The channel constant and DMA-request selector the switch of the PWM scan picks for
the channel number `n` in 1..4. -/
def channel_consts (hal : HAL) (n : Nat) : Nat × Nat :=
  if n = 1 then (hal.TIM_CHANNEL_1, hal.TIM_DMA_CC1)
  else if n = 2 then (hal.TIM_CHANNEL_2, hal.TIM_DMA_CC2)
  else if n = 3 then (hal.TIM_CHANNEL_3, hal.TIM_DMA_CC3)
  else (hal.TIM_CHANNEL_4, hal.TIM_DMA_CC4)

/-- The channel number is one of 1, 2, 3, 4. -/
def channel_valid (n : Nat) : Prop := n = 1 ∨ n = 2 ∨ n = 3 ∨ n = 4

/-- The table has a row for the pair (timer, channel). -/
def DMA_mapped (core : Core) (hal : HAL) (tim : Ptr) (ch : Nat) : Prop :=
  ∃ d ∈ ARGB_DMA_MAP core hal, d.tim = tim ∧ d.channel = ch

/-- The timer macros of the table, in table order. -/
def Core.timers (core : Core) : List (Option Ptr) :=
  [core.TIM1, core.TIM2, core.TIM3, core.TIM4, core.TIM5]

/-- What the device header guarantees: the channel constants are pairwise distinct
(they are the labels of one `switch`), and the timers that are defined have pairwise
distinct, non-`NULL` addresses. -/
def Core.Distinct (core : Core) (hal : HAL) : Prop :=
  [hal.TIM_CHANNEL_1, hal.TIM_CHANNEL_2, hal.TIM_CHANNEL_3, hal.TIM_CHANNEL_4].Nodup ∧
  core.timers.Pairwise (fun a b => a = none ∨ a ≠ b) ∧
  (∀ a ∈ core.timers, a ≠ some 0)

/-- The configuration `ARGB_AnalyzePin` has built when the PWM scan starts: zeroed,
with the GPIO port and pin of the pin name. -/
def AnalyzePin_start (core : Core) (arduino_pin : Nat) : ARGB_PinConfig_t :=
  { ARGB_PinConfig_t.zero with
    gpio_port := core.get_GPIO_Port (core.STM_PORT (core.digitalPinToPinName arduino_pin)),
    gpio_pin := core.STM_GPIO_PIN (core.digitalPinToPinName arduino_pin) }

/-- The configuration after a PWM scan that left at the row `e`, with the counter
width flag set as `ARGB_AnalyzePin` sets it (1 for `TIM2` and `TIM5`). -/
def AnalyzePin_timer (core : Core) (hal : HAL) (arduino_pin : Nat) (e : PinMap) :
    ARGB_PinConfig_t :=
  { AnalyzePin_start core arduino_pin with
    tim := e.peripheral, tim_af := core.STM_PIN_AFNUM e.function,
    tim_channel := (channel_consts hal (core.STM_PIN_CHANNEL e.function)).1,
    tim_dma_cc := (channel_consts hal (core.STM_PIN_CHANNEL e.function)).2,
    is_32bit_tim := if core.TIM2 = some e.peripheral ∨ core.TIM5 = some e.peripheral then 1
                    else 0 }

/-- The `function` field of a PWM row with alternate function `af` and channel `ch`,
in the encoding of the example core (`STM_PIN_AFNUM` at bit 8, `STM_PIN_CHANNEL` at
bit 15). -/
def pwm_function (af ch : Nat) : Nat := (af <<< 8) ||| (ch <<< 15)

/-- An example core after the STM32F4 Arduino core: pin names are `16 * port + pin`
(`PA_0 = 0`, `PB_9 = 25`, ..), five ports, `NC = 0xFFFFFFFF`, the timers at their F4
addresses, and a short PWM table ending in the sentinel. Pin `PA_3 = 3` has no row,
`PB_9 = 25` is on TIM4 channel 4, `PA_8 = 8` on TIM1 channel 1, `PA_2 = 2` has two rows. -/
def core_f4 : Core where
  STM32F4xx := true
  NC := 0xFFFFFFFF
  digitalPinToPinName := fun p => if p < 80 then p else 0xFFFFFFFF
  STM_PORT := fun pn => (pn >>> 4) &&& 0xF
  STM_GPIO_PIN := fun pn => 1 <<< (pn &&& 0xF)
  get_GPIO_Port := fun port => if port < 5 then 0x40020000 + 0x400 * port else 0
  PinMap_PWM :=
    [ ⟨0, 0x40000000, pwm_function 1 1⟩,
      ⟨1, 0x40000000, pwm_function 1 2⟩,
      ⟨2, 0x40000000, pwm_function 1 3⟩,
      ⟨2, 0x40000C00, pwm_function 2 3⟩,
      ⟨8, 0x40010000, pwm_function 1 1⟩,
      ⟨19, 0x40000000, pwm_function 1 4⟩,
      ⟨25, 0x40000800, pwm_function 2 4⟩,
      ⟨0xFFFFFFFF, 0, 0⟩ ]
  STM_PIN_AFNUM := fun f => (f >>> 8) &&& 0x7F
  STM_PIN_CHANNEL := fun f => (f >>> 15) &&& 0x1F
  TIM1 := some 0x40010000
  TIM2 := some 0x40000000
  TIM3 := some 0x40000400
  TIM4 := some 0x40000800
  TIM5 := some 0x40000C00
  DMA_CHANNEL_2 := 2 <<< 25
  DMA_CHANNEL_3 := 3 <<< 25
  DMA_CHANNEL_5 := 5 <<< 25
  DMA_CHANNEL_6 := 6 <<< 25

/-- The example core with a PWM table whose first row for `PA_0` carries the channel
number 5, followed by a row for `PA_0` with channel 1 and the sentinel. -/
def core_bad_channel : Core :=
  { core_f4 with
    PinMap_PWM :=
      [ ⟨0, 0x40000000, pwm_function 1 5⟩,
        ⟨0, 0x40000000, pwm_function 1 1⟩,
        ⟨0xFFFFFFFF, 0, 0⟩ ] }

/-! ## Automatic setup (`ARGB_Setup` in `ARGB_Auto.h`)

The clock-enable macros and the HAL initialisation functions are not part of the
repository. `ARGB_Setup` is modelled by the calls it makes, in order and with their
arguments (`Setup_Call`); what a call does to the hardware world is a parameter. -/

/-- The HAL constants `ARGB_Setup` stores into the initialisation structures, by name;
`zero` is a field left at its `{0}` initialiser. -/
inductive HAL_Const where
  | zero
  | GPIO_MODE_AF_PP
  | GPIO_NOPULL
  | GPIO_SPEED_FREQ_HIGH
  | TIM_COUNTERMODE_UP
  | TIM_CLOCKDIVISION_DIV1
  | TIM_OCMODE_PWM1
  | TIM_OCPOLARITY_HIGH
  | DMA_MEMORY_TO_PERIPH
  | DMA_PINC_DISABLE
  | DMA_MINC_ENABLE
  | DMA_PDATAALIGN_HALFWORD
  | DMA_PDATAALIGN_WORD
  | DMA_MDATAALIGN_HALFWORD
  | DMA_MDATAALIGN_WORD
  | DMA_NORMAL
  | DMA_PRIORITY_HIGH
  | DMA_FIFOMODE_DISABLE
  deriving DecidableEq, Repr

/-- `GPIO_InitTypeDef` -/
structure GPIO_InitTypeDef where
  Pin : Nat
  Mode : HAL_Const
  Pull : HAL_Const
  Speed : HAL_Const
  Alternate : Nat
  deriving DecidableEq, Repr

/-- The fields of `ARGB_htim.Init` that `ARGB_Setup` sets. -/
structure TIM_Base_InitTypeDef where
  Prescaler : Nat
  CounterMode : HAL_Const
  Period : Nat
  ClockDivision : HAL_Const
  deriving DecidableEq, Repr

/-- `TIM_OC_InitTypeDef`: the fields `ARGB_Setup` sets, the others being `{0}`. -/
structure TIM_OC_InitTypeDef where
  OCMode : HAL_Const
  Pulse : Nat
  OCPolarity : HAL_Const
  deriving DecidableEq, Repr

/-- The fields of `ARGB_hdma.Init` that `ARGB_Setup` sets. -/
structure DMA_InitTypeDef where
  Channel : Nat
  Direction : HAL_Const
  PeriphInc : HAL_Const
  MemInc : HAL_Const
  PeriphDataAlignment : HAL_Const
  MemDataAlignment : HAL_Const
  Mode : HAL_Const
  Priority : HAL_Const
  FIFOMode : HAL_Const
  deriving DecidableEq, Repr

/-- The macro and HAL calls of `ARGB_Setup`, with the arguments the driver has set up
for them (for a handle: its address and the fields written just before). -/
inductive Setup_Call where
  | HAL_RCC_GPIOA_CLK_ENABLE
  | HAL_RCC_GPIOB_CLK_ENABLE
  | HAL_RCC_GPIOC_CLK_ENABLE
  | HAL_RCC_TIM1_CLK_ENABLE
  | HAL_RCC_TIM2_CLK_ENABLE
  | HAL_RCC_TIM3_CLK_ENABLE
  | HAL_RCC_TIM4_CLK_ENABLE
  | HAL_RCC_TIM5_CLK_ENABLE
  | HAL_RCC_DMA1_CLK_ENABLE
  | HAL_RCC_DMA2_CLK_ENABLE
  | HAL_GPIO_Init (port : Ptr) (init : GPIO_InitTypeDef)
  | HAL_TIM_PWM_Init (htim : Ptr) (Instance : Ptr) (Init : TIM_Base_InitTypeDef)
  | HAL_TIM_PWM_ConfigChannel (htim : Ptr) (oc : TIM_OC_InitTypeDef) (channel : Nat)
  | HAL_DMA_Init (hdma : Ptr) (Instance : DMA_Stream_Ptr) (Init : DMA_InitTypeDef)
  | HAL_LINKDMA (htim : Ptr) (dma_id : Nat) (hdma : Ptr)
  | HAL_NVIC_SetPriority (irqn : IRQn_Type) (preempt : Nat) (sub : Nat)
  | HAL_NVIC_EnableIRQ (irqn : IRQn_Type)
  deriving DecidableEq, Repr

/-- The device header and link-time facts `ARGB_Setup` depends on: the GPIO port macros
(`none` when not defined), whether `DMA2` is defined, the addresses of the statics
`ARGB_htim` and `ARGB_hdma`, and what each macro or HAL call does to the hardware. -/
structure Device where
  GPIOA : Option Ptr
  GPIOB : Option Ptr
  GPIOC : Option Ptr
  DMA2 : Bool
  /-- `&ARGB_htim` -/
  ARGB_htim : Ptr
  /-- `&ARGB_hdma` -/
  ARGB_hdma : Ptr
  /-- the effect of a call on the hardware world -/
  exec : HW → Setup_Call → HW

/-- The statics of `ARGB_Auto.h` next to the driver's: `ARGB_cfg`, and the record of
the calls `ARGB_Setup` has made (oldest first). -/
structure Setup_State where
  s : State
  ARGB_cfg : ARGB_PinConfig_t
  calls : List Setup_Call

/-- Make one call: record it and let it act on the hardware. -/
def Setup_State.call (dev : Device) (st : Setup_State) (c : Setup_Call) : Setup_State :=
  { st with s := { st.s with hw := dev.exec st.s.hw c }, calls := st.calls ++ [c] }

/-- Make the call when the test holds: `if (b) call();`. -/
def Setup_State.call_if (dev : Device) (st : Setup_State) (b : Bool) (c : Setup_Call) :
    Setup_State :=
  if b then st.call dev c else st

/-- `ARGB_Setup`: the GPIO, timer and DMA clock enables. -/
def Setup_clocks (core : Core) (dev : Device) (st : Setup_State) : Setup_State :=
  let c := st.ARGB_cfg
  -- GPIO clock
  let st := st.call_if dev (dev.GPIOA == some c.gpio_port) .HAL_RCC_GPIOA_CLK_ENABLE
  let st := st.call_if dev (dev.GPIOB == some c.gpio_port) .HAL_RCC_GPIOB_CLK_ENABLE
  let st := st.call_if dev (dev.GPIOC == some c.gpio_port) .HAL_RCC_GPIOC_CLK_ENABLE
  -- Timer clock
  let st := st.call_if dev (core.TIM1 == some c.tim) .HAL_RCC_TIM1_CLK_ENABLE
  let st := st.call_if dev (core.TIM2 == some c.tim) .HAL_RCC_TIM2_CLK_ENABLE
  let st := st.call_if dev (core.TIM3 == some c.tim) .HAL_RCC_TIM3_CLK_ENABLE
  let st := st.call_if dev (core.TIM4 == some c.tim) .HAL_RCC_TIM4_CLK_ENABLE
  let st := st.call_if dev (core.TIM5 == some c.tim) .HAL_RCC_TIM5_CLK_ENABLE
  -- DMA clock
  let st := st.call dev .HAL_RCC_DMA1_CLK_ENABLE
  st.call_if dev dev.DMA2 .HAL_RCC_DMA2_CLK_ENABLE

/-- `ARGB_Setup`: the GPIO, timer, DMA and interrupt configuration. -/
def Setup_periph (dev : Device) (hal : HAL) (st : Setup_State) : Setup_State :=
  let c := st.ARGB_cfg
  -- GPIO
  let st := st.call dev (.HAL_GPIO_Init c.gpio_port
    { Pin := c.gpio_pin, Mode := .GPIO_MODE_AF_PP, Pull := .GPIO_NOPULL,
      Speed := .GPIO_SPEED_FREQ_HIGH, Alternate := c.tim_af })
  -- Timer: ARGB_htim.Instance = ARGB_cfg.tim, then the Init fields
  let h := { st.s.hw.tim dev.ARGB_htim with Instance := c.tim }
  let hw := { st.s.hw with tim := Function.update st.s.hw.tim dev.ARGB_htim h }
  let st := { st with s := { st.s with hw := hw } }
  let st := st.call dev (.HAL_TIM_PWM_Init dev.ARGB_htim c.tim
    { Prescaler := 0, CounterMode := .TIM_COUNTERMODE_UP, Period := 104,
      ClockDivision := .TIM_CLOCKDIVISION_DIV1 })
  let st := st.call dev (.HAL_TIM_PWM_ConfigChannel dev.ARGB_htim
    { OCMode := .TIM_OCMODE_PWM1, Pulse := 0, OCPolarity := .TIM_OCPOLARITY_HIGH }
    c.tim_channel)
  -- DMA
  let st := st.call dev (.HAL_DMA_Init dev.ARGB_hdma c.dma_stream
    { Channel := c.dma_channel, Direction := .DMA_MEMORY_TO_PERIPH,
      PeriphInc := .DMA_PINC_DISABLE, MemInc := .DMA_MINC_ENABLE,
      PeriphDataAlignment :=
        if c.is_32bit_tim ≠ 0 then .DMA_PDATAALIGN_WORD else .DMA_PDATAALIGN_HALFWORD,
      MemDataAlignment :=
        if c.is_32bit_tim ≠ 0 then .DMA_MDATAALIGN_WORD else .DMA_MDATAALIGN_HALFWORD,
      Mode := .DMA_NORMAL, Priority := .DMA_PRIORITY_HIGH,
      FIFOMode := .DMA_FIFOMODE_DISABLE })
  -- Link DMA to Timer
  let st := st.call dev (.HAL_LINKDMA dev.ARGB_htim (Show_dma_id hal c.tim_channel)
    dev.ARGB_hdma)
  -- Enable DMA IRQ
  let st := st.call dev (.HAL_NVIC_SetPriority c.dma_irqn 1 0)
  st.call dev (.HAL_NVIC_EnableIRQ c.dma_irqn)

/-- `ARGB_Setup`: the timer clock `tim_clk` handed to `ARGB_Attach`. -/
def Setup_tim_clk (core : Core) (hal : HAL) (st : Setup_State) : Nat :=
  let c := st.ARGB_cfg
  let tim_clk := 0
  let tim_clk :=
    if core.TIM2 = some c.tim ∨ core.TIM3 = some c.tim ∨ core.TIM4 = some c.tim ∨
        core.TIM5 = some c.tim then
      let clk := u32 (hal.HAL_RCC_GetPCLK1Freq st.s.hw)
      if hal.RCC_CFGR_PPRE1 st.s.hw ≠ 0 then u32 (clk * 2) else clk
    else tim_clk
  if core.TIM1 = some c.tim then
    let clk := u32 (hal.HAL_RCC_GetPCLK2Freq st.s.hw)
    if hal.RCC_CFGR_PPRE2 st.s.hw ≠ 0 then u32 (clk * 2) else clk
  else tim_clk

/-- `ARGB_Setup(arduino_pin)`: the result and the statics afterwards. -/
def ARGB_Setup (cfg : Config) (core : Core) (dev : Device) (hal : HAL) (fuel : Nat)
    (st : Setup_State) (arduino_pin : Nat) : Option (ARGB_DMA_Result_t × Setup_State) :=
  (ARGB_AnalyzePin core hal fuel arduino_pin (some st.ARGB_cfg)).bind fun rc =>
  let st := { st with ARGB_cfg := rc.2.getD st.ARGB_cfg }
  if rc.1 ≠ .ARGB_DMA_OK then some (rc.1, st)
  else
    let st := Setup_clocks core dev st
    let st := Setup_periph dev hal st
    let tim_clk := Setup_tim_clk core hal st
    -- Pass to ARGB library
    let s := (ARGB_Attach hal st.s dev.ARGB_htim st.ARGB_cfg.tim_channel dev.ARGB_hdma tim_clk).2
    let s := ARGB_Init cfg hal s
    some (.ARGB_DMA_OK, { st with s := s })

/-- The width in bits a `DMA_PDATAALIGN_*` or `DMA_MDATAALIGN_*` constant stands for. -/
def HAL_Const.align_bits : HAL_Const → Option Nat
  | .DMA_PDATAALIGN_HALFWORD => some 16
  | .DMA_MDATAALIGN_HALFWORD => some 16
  | .DMA_PDATAALIGN_WORD => some 32
  | .DMA_MDATAALIGN_WORD => some 32
  | _ => none

/-- The data alignments of the `HAL_DMA_Init` calls in a record of calls, as
(peripheral, memory) pairs. -/
def DMA_Init_aligns (calls : List Setup_Call) : List (HAL_Const × HAL_Const) :=
  calls.filterMap fun c =>
    match c with
    | .HAL_DMA_Init _ _ i => some (i.PeriphDataAlignment, i.MemDataAlignment)
    | _ => none

/-- An example device: ports A, B, C at their F4 addresses, `DMA2` defined, the two
handles at addresses in RAM; `__HAL_LINKDMA` links the handles, `HAL_DMA_Init` leaves
the handle ready, the other calls do not touch the modelled handles and registers. -/
def dev_f4 : Device where
  GPIOA := some 0x40020000
  GPIOB := some 0x40020400
  GPIOC := some 0x40020800
  DMA2 := true
  ARGB_htim := 0x20000100
  ARGB_hdma := 0x20000200
  exec := fun hw c =>
    match c with
    | .HAL_LINKDMA htim dma_id hdma =>
      let h := { hw.tim htim with hdma := Function.update (hw.tim htim).hdma dma_id hdma }
      let d := { hw.dma hdma with Parent := htim }
      { hw with tim := Function.update hw.tim htim h, dma := Function.update hw.dma hdma d }
    | .HAL_DMA_Init hdma _ _ =>
      { hw with dma := Function.update hw.dma hdma { hw.dma hdma with State := 1 } }
    | _ => hw

/-- The example core with a PWM row for `PD_12 = 60` (`TIM4` channel 1) in front. -/
def core_portD : Core :=
  { core_f4 with PinMap_PWM := ⟨60, 0x40000800, pwm_function 2 1⟩ :: core_f4.PinMap_PWM }

/-- The statics at power-up, for the default build on the example hardware. -/
def setup_initial : Setup_State :=
  { s := State.initial cfg_default hw_example, ARGB_cfg := ARGB_PinConfig_t.zero, calls := [] }

/-! ## Colour conversion (`HSV2RGB`)

`HSV2RGB` computes in `float` and `double`. The exact value of every operation is a
rational; what the floating-point unit delivers for it is a parameter (`FPU`), one
rounding per operation, so that the theorems hold for every rounding mode, for excess
precision and for contracted operations alike. -/

/-- The floating-point unit as `HSV2RGB` uses it: the value delivered by the
operation number `k` of the function whose exact result is `x`. The operations are
numbered in the order of the source text (0 .. 17). -/
structure FPU where
  round : Nat → ℚ → ℚ

/-- Every operation delivers 0 and 1 exactly and is off by at most one part in 4096 of
the exact result plus `2^-20`: what IEEE single and double arithmetic, with or without
contraction or excess precision, satisfies in the range of `HSV2RGB`. -/
def FPU.Faithful (fp : FPU) : Prop :=
  (∀ k, fp.round k 0 = 0) ∧ (∀ k, fp.round k 1 = 1) ∧
  ∀ k x, |fp.round k x - x| ≤ |x| / 4096 + 1 / 1048576

/-- The conversion `(u8_t) x` of a floating value: truncation toward zero, undefined
(`none`) when the truncated value is outside 0 .. 255. -/
def to_u8 (x : ℚ) : Option Nat :=
  if -1 < x ∧ x < 256 then some (if 0 ≤ x then ⌊x⌋.toNat else 0) else none

/-- `v * (1 - s) * 255.0`, before the conversion to `u8_t` -/
def HSV2RGB_p (fp : FPU) (s v : ℚ) : ℚ :=
  fp.round 8 (fp.round 7 (v * fp.round 6 (1 - s)) * 255)

/-- `v * (1 - f * s) * 255.0`, before the conversion to `u8_t` -/
def HSV2RGB_q (fp : FPU) (f s v : ℚ) : ℚ :=
  fp.round 12 (fp.round 11 (v * fp.round 10 (1 - fp.round 9 (f * s))) * 255)

/-- `v * (1 - (1 - f) * s) * 255.0`, before the conversion to `u8_t` -/
def HSV2RGB_t (fp : FPU) (f s v : ℚ) : ℚ :=
  fp.round 17 (fp.round 16 (v * fp.round 15 (1 - fp.round 14 (fp.round 13 (1 - f) * s))) * 255)

/-- `HSV2RGB(hue, sat, val, &r, &g, &b)`: the triple `(r, g, b)`, or `none` when a
conversion to `u8_t` is undefined. -/
def HSV2RGB (fp : FPU) (hue sat val : Nat) : Option (Nat × Nat × Nat) :=
  if sat = 0 then some (val, val, val) -- if white color
  else
    -- float h = (float)hue / 255; the conversions of small integers are exact
    let h := fp.round 0 ((hue : ℚ) / 255)
    let s := fp.round 1 ((sat : ℚ) / 255)
    let v := fp.round 2 ((val : ℚ) / 255)
    -- int i = (int)floorf(h * 6);
    let i : Int := ⌊fp.round 3 (h * 6)⌋
    -- float f = h * 6 - (float)i;
    let f := fp.round 5 (fp.round 4 (h * 6) - (i : ℚ))
    (to_u8 (HSV2RGB_p fp s v)).bind fun p =>
    (to_u8 (HSV2RGB_q fp f s v)).bind fun q =>
    (to_u8 (HSV2RGB_t fp f s v)).bind fun t =>
    -- switch (i % 6): the remainder of C, with the sign of `i`
    match Int.tmod i 6 with
    | 0 => some (val, t, p)
    | 1 => some (q, val, p)
    | 2 => some (p, val, t)
    | 3 => some (p, q, val)
    | 4 => some (t, p, val)
    | _ => some (val, p, q)

/-- Arithmetic rounded to the nearest multiple of `2^-24`, the same for every
operation. -/
def fp_fixed24 : FPU where
  round := fun _ x => (⌊x * 16777216 + 1 / 2⌋ : ℚ) / 16777216

/-! ## Lemmas: stores -/

theorem store_eq_some {buf : List Nat} {i : Nat} (v : Nat) (h : i < buf.length) :
    store buf i v = some (buf.set i v) := by
  simp [store, h]

theorem store_length {buf buf1 : List Nat} {i v : Nat} (h : store buf i v = some buf1) :
    buf1.length = buf.length := by
  unfold store at h
  split at h
  · cases h; simp
  · cases h

/-! ## Lemmas: the bit test of the inner loop -/

theorem and_0x80_ne_zero (v : Nat) : (v &&& 0x80 ≠ 0) ↔ v.testBit 7 = true := by
  constructor
  · intro h
    by_contra hb
    apply h
    apply Nat.eq_of_testBit_eq
    intro i
    have h128 : (0x80 : Nat) = 2 ^ 7 := by norm_num
    rw [Nat.testBit_and, h128, Nat.testBit_two_pow, Nat.zero_testBit]
    by_cases hi : 7 = i
    · subst hi; simpa using hb
    · simp [hi]
  · intro h hz
    have h2 : (v &&& 0x80).testBit 7 = true := by
      have h128 : (0x80 : Nat) = 2 ^ 7 := by norm_num
      rw [Nat.testBit_and, h128, Nat.testBit_two_pow, h]
      simp
    rw [hz, Nat.zero_testBit] at h2
    cases h2

theorem testBit_shift_u8 (v t : Nat) (ht : t < 7) :
    (u8 (v <<< 1)).testBit (7 - t) = v.testBit (7 - (t + 1)) := by
  have h256 : (256 : Nat) = 2 ^ 8 := by norm_num
  unfold u8
  rw [h256, Nat.testBit_mod_two_pow, Nat.testBit_shiftLeft]
  have h1 : 7 - t < 8 := by omega
  have h2 : 7 - t ≥ 1 := by omega
  have h3 : 7 - t - 1 = 7 - (t + 1) := by omega
  simp [h1, h2, h3]

/-! ## Lemmas: the loops of `ARGB_Show` -/

/-- The inner loop with `n` bits to go, when no index wraps and the stores stay
inside the buffer: it returns, `pwm_idx` has advanced by `n`, and the `n` entries
written are the pulse codes of the top `n` bits of `byte_val`. -/
theorem Show_bits_spec (hi lo : Nat) :
    ∀ (n fuel bit byte_val p : Nat) (buf : List Nat),
      bit + n = 8 → n < fuel → p + n ≤ buf.length → p + n ≤ 65535 →
      ∃ buf1, Show_bits hi lo fuel bit byte_val p buf = some (p + n, buf1) ∧
        buf1.length = buf.length ∧
        ∀ i, buf1[i]? =
          if p ≤ i ∧ i < p + n then some (pulse_code hi lo byte_val (i - p)) else buf[i]? := by
  intro n
  induction n with
  | zero =>
    intro fuel bit byte_val p buf hb hf _ _
    obtain ⟨f, rfl⟩ : ∃ f, fuel = f + 1 := ⟨fuel - 1, by omega⟩
    refine ⟨buf, ?_, rfl, ?_⟩
    · have : ¬ bit < 8 := by omega
      simp [Show_bits, this]
    · intro i
      have : ¬ (p ≤ i ∧ i < p + 0) := by omega
      rw [if_neg this]
  | succ n ih =>
    intro fuel bit byte_val p buf hb hf hlen hw
    obtain ⟨f, rfl⟩ : ∃ f, fuel = f + 1 := ⟨fuel - 1, by omega⟩
    have hbit : bit < 8 := by omega
    have hp : p < buf.length := by omega
    have hu8 : u8 (bit + 1) = bit + 1 := by unfold u8; omega
    have hu16 : u16 (p + 1) = p + 1 := by unfold u16; omega
    obtain ⟨buf1, h1, h2, h3⟩ :=
      ih f (bit + 1) (u8 (byte_val <<< 1)) (p + 1)
        (buf.set p (if byte_val &&& 0x80 ≠ 0 then hi else lo))
        (by omega) (by omega) (by simp; omega) (by omega)
    refine ⟨buf1, ?_, ?_, ?_⟩
    · rw [Show_bits, if_pos hbit, store_eq_some _ hp, Option.some_bind, hu8, hu16, h1]
      congr 2
      omega
    · simpa using h2
    · intro i
      rw [h3 i]
      by_cases hi1 : p + 1 ≤ i ∧ i < p + 1 + n
      · have hi2 : p ≤ i ∧ i < p + (n + 1) := by omega
        rw [if_pos hi1, if_pos hi2]
        have ht : i - (p + 1) < 7 := by omega
        have hs : i - p = (i - (p + 1)) + 1 := by omega
        unfold pulse_code
        rw [testBit_shift_u8 _ _ ht, hs]
      · rw [if_neg hi1]
        by_cases hip : i = p
        · subst hip
          have hi2 : i ≤ i ∧ i < i + (n + 1) := by omega
          rw [if_pos hi2, List.getElem?_set_self hp]
          unfold pulse_code
          have := and_0x80_ne_zero byte_val
          by_cases hb7 : byte_val.testBit 7 = true
          · simp [hb7, this.mpr hb7]
          · have hz : ¬ (byte_val &&& 0x80 ≠ 0) := fun h => hb7 (this.mp h)
            simp [hb7, hz]
        · have hi2 : ¬ (p ≤ i ∧ i < p + (n + 1)) := by omega
          rw [if_neg hi2, List.getElem?_set_ne (Ne.symm hip)]

/-- The outer loop with `m` bytes to go, when no index wraps and the stores stay
inside the buffer: it returns, `pwm_idx` has advanced by `8 * m`, and entry
`p + 8 * k + j` holds the pulse code of bit `j` of byte `byte_idx + k`. -/
theorem Show_bytes_spec (cfg : Config) (hi lo : Nat) (rgb : List Nat) :
    ∀ (m fuel byte_idx p : Nat) (buf : List Nat),
      byte_idx + m = NUM_BYTES cfg → m < fuel → NUM_BYTES cfg ≤ rgb.length →
      NUM_BYTES cfg ≤ 65535 → p + 8 * m ≤ buf.length → p + 8 * m ≤ 65535 →
      ∃ buf1, Show_bytes cfg hi lo rgb fuel byte_idx p buf = some (p + 8 * m, buf1) ∧
        buf1.length = buf.length ∧
        ∀ i, buf1[i]? =
          if p ≤ i ∧ i < p + 8 * m then
            some (pulse_code hi lo (rgb.getD (byte_idx + (i - p) / 8) 0) ((i - p) % 8))
          else buf[i]? := by
  intro m
  induction m with
  | zero =>
    intro fuel byte_idx p buf hb hf _ _ _ _
    obtain ⟨f, rfl⟩ : ∃ f, fuel = f + 1 := ⟨fuel - 1, by omega⟩
    refine ⟨buf, ?_, rfl, ?_⟩
    · have : ¬ byte_idx < NUM_BYTES cfg := by omega
      simp [Show_bytes, this]
    · intro i
      have : ¬ (p ≤ i ∧ i < p + 8 * 0) := by omega
      rw [if_neg this]
  | succ m ih =>
    intro fuel byte_idx p buf hb hf hrgb hN hlen hw
    obtain ⟨f, rfl⟩ : ∃ f, fuel = f + 1 := ⟨fuel - 1, by omega⟩
    have hidx : byte_idx < NUM_BYTES cfg := by omega
    have hidx2 : byte_idx < rgb.length := by omega
    have hu16 : u16 (byte_idx + 1) = byte_idx + 1 := by unfold u16; omega
    have hload : load rgb byte_idx = some (rgb.getD byte_idx 0) := by
      simp [load, List.getD, List.getElem?_eq_getElem hidx2]
    obtain ⟨b1, hb1, hb2, hb3⟩ :=
      Show_bits_spec hi lo 8 256 0 (rgb.getD byte_idx 0) p buf (by omega) (by omega)
        (by omega) (by omega)
    obtain ⟨b2, hc1, hc2, hc3⟩ :=
      ih f (byte_idx + 1) (p + 8) b1 (by omega) (by omega) hrgb hN (by omega) (by omega)
    refine ⟨b2, ?_, ?_, ?_⟩
    · rw [Show_bytes, if_pos hidx, hload, Option.some_bind, hb1, Option.some_bind, hu16, hc1]
      congr 2
      omega
    · omega
    · intro i
      rw [hc3 i, hb3 i]
      by_cases h1 : p + 8 ≤ i ∧ i < p + 8 + 8 * m
      · have h2 : p ≤ i ∧ i < p + 8 * (m + 1) := by omega
        rw [if_pos h1, if_pos h2]
        have e1 : byte_idx + 1 + (i - (p + 8)) / 8 = byte_idx + (i - p) / 8 := by omega
        have e2 : (i - (p + 8)) % 8 = (i - p) % 8 := by omega
        rw [e1, e2]
      · rw [if_neg h1]
        by_cases h3 : p ≤ i ∧ i < p + 8
        · have h2 : p ≤ i ∧ i < p + 8 * (m + 1) := by omega
          rw [if_pos h3, if_pos h2]
          have e1 : byte_idx + (i - p) / 8 = byte_idx := by omega
          have e2 : (i - p) % 8 = i - p := by omega
          rw [e1, e2]
        · have h2 : ¬ (p ≤ i ∧ i < p + 8 * (m + 1)) := by omega
          rw [if_neg h3, if_neg h2]

/-- The reset loop with `n` entries to go, when no index wraps and the stores stay
inside the buffer: it returns, `pwm_idx` has advanced by `n`, and the `n` entries
written are zero. -/
theorem Show_reset_spec :
    ∀ (n fuel i p : Nat) (buf : List Nat),
      i + n = RST_LEN → n < fuel → p + n ≤ buf.length → p + n ≤ 65535 →
      ∃ buf1, Show_reset fuel i p buf = some (p + n, buf1) ∧
        buf1.length = buf.length ∧
        ∀ j, buf1[j]? = if p ≤ j ∧ j < p + n then some 0 else buf[j]? := by
  intro n
  induction n with
  | zero =>
    intro fuel i p buf hb hf _ _
    obtain ⟨f, rfl⟩ : ∃ f, fuel = f + 1 := ⟨fuel - 1, by omega⟩
    refine ⟨buf, ?_, rfl, ?_⟩
    · have : ¬ i < RST_LEN := by omega
      simp [Show_reset, this]
    · intro j
      have : ¬ (p ≤ j ∧ j < p + 0) := by omega
      rw [if_neg this]
  | succ n ih =>
    intro fuel i p buf hb hf hlen hw
    obtain ⟨f, rfl⟩ : ∃ f, fuel = f + 1 := ⟨fuel - 1, by omega⟩
    have hi : i < RST_LEN := by omega
    have hp : p < buf.length := by omega
    have hR : RST_LEN = 60 := rfl
    have hu16 : u16 (i + 1) = i + 1 := by unfold u16; omega
    have hu16p : u16 (p + 1) = p + 1 := by unfold u16; omega
    obtain ⟨b1, h1, h2, h3⟩ :=
      ih f (i + 1) (p + 1) (buf.set p 0) (by omega) (by omega) (by simp; omega) (by omega)
    refine ⟨b1, ?_, ?_, ?_⟩
    · rw [Show_reset, if_pos hi, store_eq_some _ hp, Option.some_bind, hu16, hu16p, h1]
      congr 2
      omega
    · simpa using h2
    · intro j
      rw [h3 j]
      by_cases h4 : p + 1 ≤ j ∧ j < p + 1 + n
      · have h5 : p ≤ j ∧ j < p + (n + 1) := by omega
        rw [if_pos h4, if_pos h5]
      · rw [if_neg h4]
        by_cases hjp : j = p
        · subst hjp
          have h5 : j ≤ j ∧ j < j + (n + 1) := by omega
          rw [if_pos h5, List.getElem?_set_self hp]
        · have h5 : ¬ (p ≤ j ∧ j < p + (n + 1)) := by omega
          rw [if_neg h5, List.getElem?_set_ne (Ne.symm hjp)]

theorem eight_NUM_BYTES (cfg : Config) :
    8 * NUM_BYTES cfg = cfg.NUM_PIXELS * BITS_PER_PIXEL cfg := by
  unfold NUM_BYTES BITS_PER_PIXEL
  split <;> omega

/-- The whole fill when `PWM_BUF_LEN` fits a `u16_t`: it returns with the write
index at `PWM_BUF_LEN`, the pixel part holds the pulse codes of the colour bytes
(most significant bit first) and the `RST_LEN` entries after it are zero. -/
theorem Show_fill_spec (cfg : Config) (hi lo : Nat) (rgb pwm : List Nat)
    (hrgb : rgb.length = NUM_BYTES cfg) (hpwm : pwm.length = PWM_BUF_LEN cfg)
    (hN : PWM_BUF_LEN cfg ≤ 65535) :
    ∃ buf1, Show_fill cfg hi lo rgb pwm = some (PWM_BUF_LEN cfg, buf1) ∧
      buf1.length = PWM_BUF_LEN cfg ∧
      (∀ i, i < 8 * NUM_BYTES cfg →
        buf1[i]? = some (pulse_code hi lo (rgb.getD (i / 8) 0) (i % 8))) ∧
      (∀ i, i < RST_LEN → buf1[8 * NUM_BYTES cfg + i]? = some 0) := by
  have h8 := eight_NUM_BYTES cfg
  have hR : RST_LEN = 60 := rfl
  have hL : PWM_BUF_LEN cfg = 8 * NUM_BYTES cfg + 60 := by unfold PWM_BUF_LEN; omega
  obtain ⟨b1, h1, h2, h3⟩ :=
    Show_bytes_spec cfg hi lo rgb (NUM_BYTES cfg) 65536 0 0 pwm (by omega) (by omega)
      (by omega) (by omega) (by omega) (by omega)
  obtain ⟨b2, k1, k2, k3⟩ :=
    Show_reset_spec 60 65536 0 (0 + 8 * NUM_BYTES cfg) b1 (by omega) (by omega) (by omega)
      (by omega)
  refine ⟨b2, ?_, by omega, ?_, ?_⟩
  · rw [Show_fill, h1, Option.some_bind, k1]
    congr 2
    omega
  · intro i hi
    have e1 : ¬ (0 + 8 * NUM_BYTES cfg ≤ i ∧ i < 0 + 8 * NUM_BYTES cfg + 60) := by omega
    have e2 : 0 ≤ i ∧ i < 0 + 8 * NUM_BYTES cfg := by omega
    rw [k3 i, if_neg e1, h3 i, if_pos e2]
    simp
  · intro i hi
    have e1 : 0 + 8 * NUM_BYTES cfg ≤ 8 * NUM_BYTES cfg + i ∧
        8 * NUM_BYTES cfg + i < 0 + 8 * NUM_BYTES cfg + 60 := by omega
    rw [k3 _, if_pos e1]

/-! ### The loops return whenever the byte count fits a `u16_t` -/

theorem Show_bits_total (hi lo : Nat) :
    ∀ (n fuel bit byte_val p : Nat) (buf : List Nat),
      bit + n = 8 → n < fuel → p < 65536 → 65536 ≤ buf.length →
      ∃ p1 buf1, Show_bits hi lo fuel bit byte_val p buf = some (p1, buf1) ∧
        buf1.length = buf.length ∧ p1 < 65536 := by
  intro n
  induction n with
  | zero =>
    intro fuel bit byte_val p buf hb hf hp _
    obtain ⟨f, rfl⟩ : ∃ f, fuel = f + 1 := ⟨fuel - 1, by omega⟩
    refine ⟨p, buf, ?_, rfl, hp⟩
    have : ¬ bit < 8 := by omega
    simp [Show_bits, this]
  | succ n ih =>
    intro fuel bit byte_val p buf hb hf hp hlen
    obtain ⟨f, rfl⟩ : ∃ f, fuel = f + 1 := ⟨fuel - 1, by omega⟩
    have hbit : bit < 8 := by omega
    have hpl : p < buf.length := by omega
    have hu8 : u8 (bit + 1) = bit + 1 := by unfold u8; omega
    have hu16 : u16 (p + 1) < 65536 := by unfold u16; omega
    obtain ⟨p1, buf1, h1, h2, h3⟩ :=
      ih f (bit + 1) (u8 (byte_val <<< 1)) (u16 (p + 1))
        (buf.set p (if byte_val &&& 0x80 ≠ 0 then hi else lo))
        (by omega) (by omega) hu16 (by simpa using hlen)
    refine ⟨p1, buf1, ?_, by simpa using h2, h3⟩
    rw [Show_bits, if_pos hbit, store_eq_some _ hpl, Option.some_bind, hu8, h1]

theorem Show_bytes_total (cfg : Config) (hi lo : Nat) (rgb : List Nat) :
    ∀ (m fuel byte_idx p : Nat) (buf : List Nat),
      byte_idx + m = NUM_BYTES cfg → m < fuel → NUM_BYTES cfg ≤ rgb.length →
      NUM_BYTES cfg ≤ 65535 → p < 65536 → 65536 ≤ buf.length →
      ∃ p1 buf1, Show_bytes cfg hi lo rgb fuel byte_idx p buf = some (p1, buf1) ∧
        buf1.length = buf.length ∧ p1 < 65536 := by
  intro m
  induction m with
  | zero =>
    intro fuel byte_idx p buf hb hf _ _ hp _
    obtain ⟨f, rfl⟩ : ∃ f, fuel = f + 1 := ⟨fuel - 1, by omega⟩
    refine ⟨p, buf, ?_, rfl, hp⟩
    have : ¬ byte_idx < NUM_BYTES cfg := by omega
    simp [Show_bytes, this]
  | succ m ih =>
    intro fuel byte_idx p buf hb hf hrgb hN hp hlen
    obtain ⟨f, rfl⟩ : ∃ f, fuel = f + 1 := ⟨fuel - 1, by omega⟩
    have hidx : byte_idx < NUM_BYTES cfg := by omega
    have hidx2 : byte_idx < rgb.length := by omega
    have hu16 : u16 (byte_idx + 1) = byte_idx + 1 := by unfold u16; omega
    have hload : load rgb byte_idx = some (rgb.getD byte_idx 0) := by
      simp [load, List.getD, List.getElem?_eq_getElem hidx2]
    obtain ⟨p1, b1, hb1, hb2, hb3⟩ :=
      Show_bits_total hi lo 8 256 0 (rgb.getD byte_idx 0) p buf (by omega) (by omega) hp hlen
    obtain ⟨p2, b2, hc1, hc2, hc3⟩ :=
      ih f (byte_idx + 1) p1 b1 (by omega) (by omega) hrgb hN hb3 (by omega)
    refine ⟨p2, b2, ?_, by omega, hc3⟩
    rw [Show_bytes, if_pos hidx, hload, Option.some_bind, hb1, Option.some_bind, hu16, hc1]

theorem Show_reset_total :
    ∀ (n fuel i p : Nat) (buf : List Nat),
      i + n = RST_LEN → n < fuel → p < 65536 → 65536 ≤ buf.length →
      ∃ p1 buf1, Show_reset fuel i p buf = some (p1, buf1) ∧
        buf1.length = buf.length ∧ p1 < 65536 := by
  intro n
  induction n with
  | zero =>
    intro fuel i p buf hb hf hp _
    obtain ⟨f, rfl⟩ : ∃ f, fuel = f + 1 := ⟨fuel - 1, by omega⟩
    refine ⟨p, buf, ?_, rfl, hp⟩
    have : ¬ i < RST_LEN := by omega
    simp [Show_reset, this]
  | succ n ih =>
    intro fuel i p buf hb hf hp hlen
    obtain ⟨f, rfl⟩ : ∃ f, fuel = f + 1 := ⟨fuel - 1, by omega⟩
    have hi : i < RST_LEN := by omega
    have hpl : p < buf.length := by omega
    have hR : RST_LEN = 60 := rfl
    have hu16 : u16 (i + 1) = i + 1 := by unfold u16; omega
    have hu16p : u16 (p + 1) < 65536 := by unfold u16; omega
    obtain ⟨p1, b1, h1, h2, h3⟩ :=
      ih f (i + 1) (u16 (p + 1)) (buf.set p 0) (by omega) (by omega) hu16p
        (by simpa using hlen)
    refine ⟨p1, b1, ?_, by simpa using h2, h3⟩
    rw [Show_reset, if_pos hi, store_eq_some _ hpl, Option.some_bind, hu16, h1]

/-- The fill returns, keeping the buffer's size, in every build whose `NUM_BYTES`
fits the `u16_t` byte counter. -/
theorem Show_fill_total (cfg : Config) (hi lo : Nat) (rgb pwm : List Nat)
    (hrgb : rgb.length = NUM_BYTES cfg) (hpwm : pwm.length = PWM_BUF_LEN cfg)
    (hN : NUM_BYTES cfg ≤ 65535) :
    ∃ pb, Show_fill cfg hi lo rgb pwm = some pb ∧ pb.2.length = PWM_BUF_LEN cfg := by
  by_cases hL : PWM_BUF_LEN cfg ≤ 65535
  · obtain ⟨b, h1, h2, _⟩ := Show_fill_spec cfg hi lo rgb pwm hrgb hpwm hL
    exact ⟨(PWM_BUF_LEN cfg, b), h1, h2⟩
  · have hR : RST_LEN = 60 := rfl
    obtain ⟨p1, b1, h1, h2, h3⟩ :=
      Show_bytes_total cfg hi lo rgb (NUM_BYTES cfg) 65536 0 0 pwm (by omega) (by omega)
        (by omega) hN (by omega) (by omega)
    obtain ⟨p2, b2, k1, k2, _⟩ :=
      Show_reset_total 60 65536 0 p1 b1 (by omega) (by omega) h3 (by omega)
    refine ⟨(p2, b2), ?_, by simp; omega⟩
    rw [Show_fill, h1, Option.some_bind, k1]

/-! ## Lemmas: `ARGB_Show` as a whole -/

theorem write_ccr_total (hw : HW) (p : CCR_Ptr) (v : Nat) (hp : p ≠ .NULL) :
    ∃ hw1, write_ccr hw p v = some hw1 := by
  cases p with
  | NULL => exact absurd rfl hp
  | CCR1 inst => exact ⟨_, rfl⟩
  | CCR2 inst => exact ⟨_, rfl⟩
  | CCR3 inst => exact ⟨_, rfl⟩
  | CCR4 inst => exact ⟨_, rfl⟩

/-- Once the fill has returned `pb` and `ccr_reg` is not `NULL`, the preparation
reaches the DMA start: the flag is Busy, `PWM_BUF` is the filled buffer, the other
statics are untouched, and the request asks for `(u16_t)PWM_BUF_LEN` items. -/
theorem Show_prepare_some (cfg : Config) (hal : HAL) (s : State) (h : Handles)
    (pb : Nat × List Nat)
    (hfill : Show_fill cfg s.PWM_HI s.PWM_LO s.RGB_BUF s.PWM_BUF = some pb)
    (hc : h.ccr_reg ≠ .NULL) :
    ∃ s1 req, Show_prepare cfg hal s h = some (s1, req) ∧
      s1.ARGB_LOC_ST = .ARGB_BUSY ∧ s1.PWM_BUF = pb.2 ∧ s1.RGB_BUF = s.RGB_BUF ∧
      s1.PWM_HI = s.PWM_HI ∧ s1.PWM_LO = s.PWM_LO ∧ s1.ARGB_BR = s.ARGB_BR ∧
      s1.s_htim = s.s_htim ∧ s1.s_tim_channel = s.s_tim_channel ∧
      s1.s_tim_dma_cc = s.s_tim_dma_cc ∧
      s1.dma_requests = s.dma_requests ∧
      req.DataLength = u16 (PWM_BUF_LEN cfg) ∧ req.DstAddress = h.ccr_reg ∧
      req.SrcAddress = .PWM_BUF := by
  obtain ⟨hw1, hw1e⟩ := write_ccr_total s.hw h.ccr_reg 0 hc
  simp only [Show_prepare, hfill, Option.some_bind, hw1e]
  refine ⟨_, _, rfl, ?_⟩
  simp

/-- What the part of `ARGB_Show` after the preparation does to the statics. -/
theorem Show_start_spec (hal : HAL) (s : State) (h : Handles) (req : DMA_Request) :
    (Show_start hal s h req).2.PWM_BUF = s.PWM_BUF ∧
    (Show_start hal s h req).2.RGB_BUF = s.RGB_BUF ∧
    (Show_start hal s h req).2.PWM_HI = s.PWM_HI ∧
    (Show_start hal s h req).2.PWM_LO = s.PWM_LO ∧
    (Show_start hal s h req).2.s_htim = s.s_htim ∧
    (Show_start hal s h req).2.s_tim_channel = s.s_tim_channel ∧
    (Show_start hal s h req).2.s_tim_dma_cc = s.s_tim_dma_cc ∧
    (Show_start hal s h req).2.dma_requests = req :: s.dma_requests ∧
    ((hal.HAL_DMA_Start_IT s.hw req).1 = hal.HAL_OK →
      (Show_start hal s h req).1 = .ARGB_OK ∧
      (Show_start hal s h req).2.ARGB_LOC_ST = s.ARGB_LOC_ST) ∧
    ((hal.HAL_DMA_Start_IT s.hw req).1 ≠ hal.HAL_OK →
      (Show_start hal s h req).1 = .ARGB_PARAM_ERR ∧
      (Show_start hal s h req).2.ARGB_LOC_ST = .ARGB_READY) := by
  unfold Show_start
  by_cases hok : (hal.HAL_DMA_Start_IT s.hw req).1 = hal.HAL_OK
  · simp [hok]
  · simp [hok]

/-- A call that passes the busy check runs the preparation and the start. -/
theorem Show_of_passes (cfg : Config) (hal : HAL) (s : State) (h : Handles)
    (hp : Show_passes cfg hal s h) :
    ARGB_Show cfg hal s =
      (Show_prepare cfg hal s h).bind fun sr => some (Show_start hal sr.1 h sr.2) := by
  obtain ⟨h1, h2⟩ := hp
  simp [ARGB_Show, h1, h2]

/-- Eight consecutive entries read off as a list. -/
theorem take8_drop (buf : List Nat) (p : Nat) (f : Nat → Nat)
    (hf : ∀ j, j < 8 → buf[p + j]? = some (f j)) :
    (buf.drop p).take 8 = [f 0, f 1, f 2, f 3, f 4, f 5, f 6, f 7] := by
  apply List.ext_getElem?
  intro n
  by_cases hn : n < 8
  · rw [List.getElem?_take_of_lt hn, List.getElem?_drop, hf n hn]
    interval_cases n <;> rfl
  · have h1 : ((buf.drop p).take 8)[n]? = none := by
      apply List.getElem?_eq_none
      simp
      omega
    rw [h1]
    symm
    apply List.getElem?_eq_none
    simp
    omega

/-! ## Lemmas: the colour model -/

theorem NUM_BYTES_eq (cfg : Config) : NUM_BYTES cfg = BYTES_PER_PIXEL cfg * cfg.NUM_PIXELS := by
  unfold NUM_BYTES BYTES_PER_PIXEL
  split <;> rfl

theorem BYTES_PER_PIXEL_ge (cfg : Config) : 3 ≤ BYTES_PER_PIXEL cfg := by
  unfold BYTES_PER_PIXEL
  split <;> omega

/-- The overflow protection of `ARGB_SetRGB` computes `i mod NUM_PIXELS`. -/
theorem wrap_index (N i : Nat) (hN : 0 < N) (hi : i < 65536) :
    (if i ≥ N then u16 (i - u16 (i / N) * N) else i) = i % N := by
  have hdiv : i / N ≤ i := Nat.div_le_self i N
  have hmod : i % N < N := Nat.mod_lt i hN
  have hdm : N * (i / N) + i % N = i := Nat.div_add_mod i N
  have hcomm : i / N * N = N * (i / N) := Nat.mul_comm _ _
  split
  · have h1 : u16 (i / N) = i / N := Nat.mod_eq_of_lt (lt_of_le_of_lt hdiv hi)
    rw [h1, hcomm]
    generalize i / N = q at *
    generalize i % N = r at *
    generalize N * q = t at *
    unfold u16
    omega
  · rename_i h
    have : i < N := by omega
    exact (Nat.mod_eq_of_lt this).symm

/-- `ARGB_SetRGB` on an index is `ARGB_SetRGB` on the index reduced modulo
`NUM_PIXELS`. -/
theorem SetRGB_wrap (cfg : Config) (s : State) (i r g b : Nat)
    (hN : 0 < cfg.NUM_PIXELS) (hi : i < 65536) :
    ARGB_SetRGB cfg s i r g b = ARGB_SetRGB cfg s (i % cfg.NUM_PIXELS) r g b := by
  have h1 := wrap_index cfg.NUM_PIXELS i hN hi
  have hlt : i % cfg.NUM_PIXELS < cfg.NUM_PIXELS := Nat.mod_lt i hN
  have h2 : (if i % cfg.NUM_PIXELS ≥ cfg.NUM_PIXELS then
      u16 (i % cfg.NUM_PIXELS - u16 (i % cfg.NUM_PIXELS / cfg.NUM_PIXELS) * cfg.NUM_PIXELS)
      else i % cfg.NUM_PIXELS) = i % cfg.NUM_PIXELS := by
    rw [if_neg (by omega)]
  simp only [ARGB_SetRGB, h1, h2]

/-- `ARGB_SetRGB` on an index inside the strip: the three stores are inside
`RGB_BUF`, and only the three colour bytes of that pixel change. -/
theorem SetRGB_in_range (cfg : Config) (s : State) (p r g b : Nat)
    (hp : p < cfg.NUM_PIXELS) (hlen : s.RGB_BUF.length = NUM_BYTES cfg) :
    ARGB_SetRGB cfg s p r g b =
      some { s with RGB_BUF := set_pixel cfg s.RGB_BUF p (subpixels cfg s.ARGB_BR r g b) } := by
  have hB := BYTES_PER_PIXEL_ge cfg
  have hNB := NUM_BYTES_eq cfg
  have hk : BYTES_PER_PIXEL cfg * p + BYTES_PER_PIXEL cfg ≤ BYTES_PER_PIXEL cfg * cfg.NUM_PIXELS := by
    have : BYTES_PER_PIXEL cfg * (p + 1) ≤ BYTES_PER_PIXEL cfg * cfg.NUM_PIXELS :=
      Nat.mul_le_mul_left _ hp
    rw [Nat.mul_add, Nat.mul_one] at this
    exact this
  have hidx : (if cfg.isSK6812 then 4 * p else 3 * p) = BYTES_PER_PIXEL cfg * p := by
    unfold BYTES_PER_PIXEL
    split <;> rfl
  have h0 : BYTES_PER_PIXEL cfg * p < s.RGB_BUF.length := by omega
  have h1 : BYTES_PER_PIXEL cfg * p + 1 < s.RGB_BUF.length := by omega
  have h2 : BYTES_PER_PIXEL cfg * p + 2 < s.RGB_BUF.length := by omega
  unfold ARGB_SetRGB
  simp only [if_neg (show ¬ p ≥ cfg.NUM_PIXELS by omega), hidx]
  rw [store_eq_some _ h0, Option.some_bind, store_eq_some _ (by simpa using h1),
    Option.some_bind, store_eq_some _ (by simpa using h2), Option.some_bind]
  unfold set_pixel subpixels
  by_cases hf : cfg.family = .WS2812 <;> simp [hf]

theorem set_pixel_length (cfg : Config) (buf : List Nat) (p : Nat) (c : Nat × Nat × Nat) :
    (set_pixel cfg buf p c).length = buf.length := by
  simp [set_pixel]

/-- Reading the colour buffer after one pixel has been set. -/
theorem set_pixel_getElem? (cfg : Config) (buf : List Nat) (p : Nat) (c : Nat × Nat × Nat)
    (hp : BYTES_PER_PIXEL cfg * p + 2 < buf.length) (j : Nat) :
    (set_pixel cfg buf p c)[j]? =
      if j = BYTES_PER_PIXEL cfg * p then some c.1
      else if j = BYTES_PER_PIXEL cfg * p + 1 then some c.2.1
      else if j = BYTES_PER_PIXEL cfg * p + 2 then some c.2.2
      else buf[j]? := by
  unfold set_pixel
  generalize BYTES_PER_PIXEL cfg * p = k at hp
  rw [List.getElem?_set, List.getElem?_set, List.getElem?_set]
  simp only [List.length_set]
  by_cases h0 : j = k
  · subst h0
    have a1 : ¬ j + 2 = j := by omega
    have a2 : ¬ j + 1 = j := by omega
    have a3 : j < buf.length := by omega
    simp [a1, a2, a3]
  · by_cases h1 : j = k + 1
    · subst h1
      have a1 : ¬ k + 2 = k + 1 := by omega
      have a3 : k + 1 < buf.length := by omega
      simp [a1, a3]
    · by_cases h2 : j = k + 2
      · subst h2
        simp [hp]
      · have a0 : ¬ k = j := fun h => h0 h.symm
        have a1 : ¬ k + 1 = j := fun h => h1 h.symm
        have a2 : ¬ k + 2 = j := fun h => h2 h.symm
        simp [h0, h1, h2, a0, a1, a2]

theorem BYTES_PER_PIXEL_cases (cfg : Config) :
    BYTES_PER_PIXEL cfg = 3 ∨ BYTES_PER_PIXEL cfg = 4 := by
  unfold BYTES_PER_PIXEL
  split
  · exact Or.inr rfl
  · exact Or.inl rfl

/-- The loop of `ARGB_FillRGB` with `m` pixels to go: it returns, and exactly the
colour bytes of the pixels `i .. NUM_PIXELS - 1` are replaced by the subpixel bytes
of the colour. -/
theorem FillRGB_loop_spec (cfg : Config) (r g b : Nat) :
    ∀ (m fuel i : Nat) (s : State),
      i + m = cfg.NUM_PIXELS → m < fuel → cfg.NUM_PIXELS ≤ 65535 →
      s.RGB_BUF.length = NUM_BYTES cfg →
      ∃ buf, FillRGB_loop cfg r g b fuel i s = some { s with RGB_BUF := buf } ∧
        buf.length = s.RGB_BUF.length ∧
        ∀ j, buf[j]? =
          if BYTES_PER_PIXEL cfg * i ≤ j ∧ j < NUM_BYTES cfg ∧ j % BYTES_PER_PIXEL cfg < 3 then
            some (if j % BYTES_PER_PIXEL cfg = 0 then (subpixels cfg s.ARGB_BR r g b).1
                  else if j % BYTES_PER_PIXEL cfg = 1 then (subpixels cfg s.ARGB_BR r g b).2.1
                  else (subpixels cfg s.ARGB_BR r g b).2.2)
          else s.RGB_BUF[j]? := by
  intro m
  induction m with
  | zero =>
    intro fuel i s hb hf _ hlen
    obtain ⟨f, rfl⟩ : ∃ f, fuel = f + 1 := ⟨fuel - 1, by omega⟩
    refine ⟨s.RGB_BUF, ?_, rfl, ?_⟩
    · have : ¬ i < cfg.NUM_PIXELS := by omega
      simp [FillRGB_loop, this]
    · intro j
      have hNB := NUM_BYTES_eq cfg
      have hi : i = cfg.NUM_PIXELS := by omega
      have : ¬ (BYTES_PER_PIXEL cfg * i ≤ j ∧ j < NUM_BYTES cfg ∧
          j % BYTES_PER_PIXEL cfg < 3) := by
        rw [hNB, hi]; omega
      rw [if_neg this]
  | succ m ih =>
    intro fuel i s hb hf hN hlen
    obtain ⟨f, rfl⟩ : ∃ f, fuel = f + 1 := ⟨fuel - 1, by omega⟩
    have hi : i < cfg.NUM_PIXELS := by omega
    have hu16 : u16 (i + 1) = i + 1 := by unfold u16; omega
    have hNB := NUM_BYTES_eq cfg
    have hset := SetRGB_in_range cfg s i r g b hi hlen
    obtain ⟨buf, h1, h2, h3⟩ :=
      ih f (i + 1)
        { s with RGB_BUF := set_pixel cfg s.RGB_BUF i (subpixels cfg s.ARGB_BR r g b) }
        (by omega) (by omega) hN (by simp [set_pixel_length, hlen])
    refine ⟨buf, ?_, ?_, ?_⟩
    · rw [FillRGB_loop, if_pos hi, hset, Option.some_bind, hu16, h1]
    · rw [h2]; simp [set_pixel_length]
    · intro j
      have hk : BYTES_PER_PIXEL cfg * i + 2 < s.RGB_BUF.length := by
        rw [hlen, hNB]
        rcases BYTES_PER_PIXEL_cases cfg with hB | hB <;> rw [hB] <;> omega
      rw [h3 j]
      simp only [set_pixel_getElem? cfg s.RGB_BUF i _ hk j]
      rw [hNB]
      rcases BYTES_PER_PIXEL_cases cfg with hB | hB
      · rw [hB]
        by_cases c1 : 3 * (i + 1) ≤ j ∧ j < 3 * cfg.NUM_PIXELS ∧ j % 3 < 3
        · have c2 : 3 * i ≤ j ∧ j < 3 * cfg.NUM_PIXELS ∧ j % 3 < 3 := by omega
          rw [if_pos c1, if_pos c2]
        · rw [if_neg c1]
          by_cases d0 : j = 3 * i
          · have c2 : 3 * i ≤ j ∧ j < 3 * cfg.NUM_PIXELS ∧ j % 3 < 3 := by omega
            have e0 : j % 3 = 0 := by omega
            rw [if_pos d0, if_pos c2, if_pos e0]
          · rw [if_neg d0]
            by_cases d1 : j = 3 * i + 1
            · have c2 : 3 * i ≤ j ∧ j < 3 * cfg.NUM_PIXELS ∧ j % 3 < 3 := by omega
              have e0 : ¬ j % 3 = 0 := by omega
              have e1 : j % 3 = 1 := by omega
              rw [if_pos d1, if_pos c2, if_neg e0, if_pos e1]
            · rw [if_neg d1]
              by_cases d2 : j = 3 * i + 2
              · have c2 : 3 * i ≤ j ∧ j < 3 * cfg.NUM_PIXELS ∧ j % 3 < 3 := by omega
                have e0 : ¬ j % 3 = 0 := by omega
                have e1 : ¬ j % 3 = 1 := by omega
                rw [if_pos d2, if_pos c2, if_neg e0, if_neg e1]
              · have c2 : ¬ (3 * i ≤ j ∧ j < 3 * cfg.NUM_PIXELS ∧ j % 3 < 3) := by omega
                rw [if_neg d2, if_neg c2]
      · rw [hB]
        by_cases c1 : 4 * (i + 1) ≤ j ∧ j < 4 * cfg.NUM_PIXELS ∧ j % 4 < 3
        · have c2 : 4 * i ≤ j ∧ j < 4 * cfg.NUM_PIXELS ∧ j % 4 < 3 := by omega
          rw [if_pos c1, if_pos c2]
        · rw [if_neg c1]
          by_cases d0 : j = 4 * i
          · have c2 : 4 * i ≤ j ∧ j < 4 * cfg.NUM_PIXELS ∧ j % 4 < 3 := by omega
            have e0 : j % 4 = 0 := by omega
            rw [if_pos d0, if_pos c2, if_pos e0]
          · rw [if_neg d0]
            by_cases d1 : j = 4 * i + 1
            · have c2 : 4 * i ≤ j ∧ j < 4 * cfg.NUM_PIXELS ∧ j % 4 < 3 := by omega
              have e0 : ¬ j % 4 = 0 := by omega
              have e1 : j % 4 = 1 := by omega
              rw [if_pos d1, if_pos c2, if_neg e0, if_pos e1]
            · rw [if_neg d1]
              by_cases d2 : j = 4 * i + 2
              · have c2 : 4 * i ≤ j ∧ j < 4 * cfg.NUM_PIXELS ∧ j % 4 < 3 := by omega
                have e0 : ¬ j % 4 = 0 := by omega
                have e1 : ¬ j % 4 = 1 := by omega
                rw [if_pos d2, if_pos c2, if_neg e0, if_neg e1]
              · have c2 : ¬ (4 * i ≤ j ∧ j < 4 * cfg.NUM_PIXELS ∧ j % 4 < 3) := by omega
                rw [if_neg d2, if_neg c2]

/-! ## Lemmas: running and inverting `ARGB_Show` -/

theorem NUM_BYTES_le_of_PWM_BUF_LEN (cfg : Config) (h : PWM_BUF_LEN cfg ≤ 65535) :
    NUM_BYTES cfg ≤ 65535 := by
  have h8 := eight_NUM_BYTES cfg
  unfold PWM_BUF_LEN at h
  omega

/-- A call that passes the busy check, in a build whose `NUM_BYTES` fits the byte
counter and with a non-`NULL` compare register pointer, returns: the fill returns
`pb`, the preparation reaches the DMA start in `s1` with the request `req`, and the
result is that of the start. -/
theorem Show_runs (cfg : Config) (hal : HAL) (s : State) (h : Handles)
    (hs : s.Sized cfg) (hN : NUM_BYTES cfg ≤ 65535) (hp : Show_passes cfg hal s h)
    (hc : h.ccr_reg ≠ .NULL) :
    ∃ pb s1 req,
      Show_fill cfg s.PWM_HI s.PWM_LO s.RGB_BUF s.PWM_BUF = some pb ∧
      Show_prepare cfg hal s h = some (s1, req) ∧
      ARGB_Show cfg hal s = some (Show_start hal s1 h req) ∧
      pb.2.length = PWM_BUF_LEN cfg ∧
      s1.ARGB_LOC_ST = .ARGB_BUSY ∧ s1.PWM_BUF = pb.2 ∧ s1.RGB_BUF = s.RGB_BUF ∧
      s1.PWM_HI = s.PWM_HI ∧ s1.PWM_LO = s.PWM_LO ∧ s1.s_htim = s.s_htim ∧
      s1.dma_requests = s.dma_requests ∧
      req.DataLength = u16 (PWM_BUF_LEN cfg) ∧ req.DstAddress = h.ccr_reg ∧
      req.SrcAddress = .PWM_BUF := by
  obtain ⟨pb, hfill, hlen⟩ :=
    Show_fill_total cfg s.PWM_HI s.PWM_LO s.RGB_BUF s.PWM_BUF hs.1 hs.2 hN
  obtain ⟨s1, req, hprep, a1, a2, a3, a4, a5, _, a7, _, _, a10, a11, a12, a13⟩ :=
    Show_prepare_some cfg hal s h pb hfill hc
  refine ⟨pb, s1, req, hfill, hprep, ?_, hlen, a1, a2, a3, a4, a5, a7, a10, a11, a12, a13⟩
  rw [Show_of_passes cfg hal s h hp, hprep, Option.some_bind]

/-- From a preparation that returned: the fill returned, and the statics of the
state reached. -/
theorem Show_prepare_inv (cfg : Config) (hal : HAL) (s : State) (h : Handles) (s1 : State)
    (req : DMA_Request) (hprep : Show_prepare cfg hal s h = some (s1, req)) :
    ∃ pb, Show_fill cfg s.PWM_HI s.PWM_LO s.RGB_BUF s.PWM_BUF = some pb ∧
      s1.ARGB_LOC_ST = .ARGB_BUSY ∧ s1.PWM_BUF = pb.2 ∧ s1.RGB_BUF = s.RGB_BUF ∧
      s1.PWM_HI = s.PWM_HI ∧ s1.PWM_LO = s.PWM_LO ∧ s1.s_htim = s.s_htim ∧
      s1.dma_requests = s.dma_requests ∧ req.DataLength = u16 (PWM_BUF_LEN cfg) := by
  cases hfill : Show_fill cfg s.PWM_HI s.PWM_LO s.RGB_BUF s.PWM_BUF with
  | none => simp [Show_prepare, hfill] at hprep
  | some pb =>
    have hc : h.ccr_reg ≠ .NULL := by
      intro hnull
      simp [Show_prepare, hfill, hnull, write_ccr] at hprep
    obtain ⟨t1, q, hq, a1, a2, a3, a4, a5, _, a7, _, _, a10, a11, _, _⟩ :=
      Show_prepare_some cfg hal s h pb hfill hc
    rw [hq] at hprep
    cases hprep
    exact ⟨pb, rfl, a1, a2, a3, a4, a5, a7, a10, a11⟩

/-- A call that returned `ARGB_OK` passed the busy check, ran the preparation, and
had its DMA start request accepted. -/
theorem Show_ok_inv (cfg : Config) (hal : HAL) (s s2 : State)
    (hshow : ARGB_Show cfg hal s = some (.ARGB_OK, s2)) :
    ∃ h s1 req, Show_passes cfg hal s h ∧ Show_prepare cfg hal s h = some (s1, req) ∧
      (hal.HAL_DMA_Start_IT s1.hw req).1 = hal.HAL_OK ∧
      Show_start hal s1 h req = (.ARGB_OK, s2) := by
  unfold ARGB_Show at hshow
  cases hh : Show_handles cfg hal s with
  | none => simp [hh] at hshow
  | some h =>
    simp only [hh] at hshow
    cases hb : Show_busy hal s h.hdma with
    | true => simp [hb] at hshow
    | false =>
      simp only [hb] at hshow
      cases hprep : Show_prepare cfg hal s h with
      | none => simp [hprep] at hshow
      | some sr =>
        obtain ⟨s1, req⟩ := sr
        simp only [hprep, Option.some_bind, Option.some.injEq] at hshow
        refine ⟨h, s1, req, ⟨hh, hb⟩, hprep, ?_, by simpa using hshow⟩
        by_contra hne
        have := ((Show_start_spec hal s1 h req).2.2.2.2.2.2.2.2.2 hne).1
        rw [show (Show_start hal s1 h req) = (.ARGB_OK, s2) by simpa using hshow] at this
        cases this

/-- The completion callback sets the flag to Ready whenever a binding is available. -/
theorem Cplt_ready (cfg : Config) (hal : HAL) (s : State) (hdma : Ptr)
    (hb : s.s_htim ≠ 0 ∨ cfg.ARGB_USE_RUNTIME_BINDING = false) :
    (ARGB_TIM_DMADelayPulseCplt cfg hal s hdma).ARGB_LOC_ST = .ARGB_READY := by
  unfold ARGB_TIM_DMADelayPulseCplt
  by_cases h0 : s.s_htim ≠ 0
  · simp [h0]
  · rcases hb with hb | hb
    · exact absurd hb h0
    · simp [h0, hb]

/-- Handles exist exactly when a binding is available. -/
theorem Show_handles_some (cfg : Config) (hal : HAL) (s : State) (h : Handles)
    (hh : Show_handles cfg hal s = some h) :
    s.s_htim ≠ 0 ∨ cfg.ARGB_USE_RUNTIME_BINDING = false := by
  by_cases h0 : s.s_htim ≠ 0
  · exact Or.inl h0
  · right
    by_contra hr
    simp [Show_handles, h0, hr] at hh

/-! ## Lemmas: buffer sizes of the example states -/

theorem initial_Sized (cfg : Config) (hw : HW) : (State.initial cfg hw).Sized cfg := by
  simp [State.Sized, State.initial]

theorem Attach_Sized (cfg : Config) (hal : HAL) (s : State) (htim ch hdma clk : Nat)
    (hs : s.Sized cfg) : (ARGB_Attach hal s htim ch hdma clk).2.Sized cfg := by
  unfold ARGB_Attach
  split
  · exact hs
  · simp only
    split_ifs <;> exact hs

theorem Init_Sized (cfg : Config) (hal : HAL) (s : State) (hs : s.Sized cfg) :
    (ARGB_Init cfg hal s).Sized cfg := by
  unfold ARGB_Init
  split_ifs <;> exact hs

theorem s_ready_Sized (cfg : Config) : (s_ready cfg).Sized cfg :=
  Init_Sized cfg _ _ (Attach_Sized cfg _ _ _ _ _ _ (initial_Sized cfg _))

/-! ## Lemmas: the DMA request of `ARGB_Show` -/

/-- A call that passes the busy check asks the DMA engine for `(u16_t)PWM_BUF_LEN`
items, out of `PWM_BUF`, in exactly one request. -/
theorem Show_DataLength (cfg : Config) (hal : HAL) (s : State) (h : Handles)
    (hs : s.Sized cfg) (hN : NUM_BYTES cfg ≤ 65535) (hp : Show_passes cfg hal s h)
    (hc : h.ccr_reg ≠ .NULL) :
    ∃ r s1 req, ARGB_Show cfg hal s = some (r, s1) ∧
      s1.dma_requests = req :: s.dma_requests ∧
      req.SrcAddress = .PWM_BUF ∧
      last_DataLength s1 = some (u16 (PWM_BUF_LEN cfg)) ∧
      s1.PWM_BUF.length = PWM_BUF_LEN cfg := by
  obtain ⟨pb, s1, req, _, _, hshow, hlen, _, hbuf, _, _, _, _, hreq, hdl, _, hsrc⟩ :=
    Show_runs cfg hal s h hs hN hp hc
  have hsp := Show_start_spec hal s1 h req
  refine ⟨(Show_start hal s1 h req).1, (Show_start hal s1 h req).2, req, hshow, ?_, hsrc,
    ?_, ?_⟩
  · rw [hsp.2.2.2.2.2.2.2.1, hreq]
  · simp [last_DataLength, hsp.2.2.2.2.2.2.2.1, hdl]
  · rw [hsp.1, hbuf, hlen]

theorem option_all_elim {α : Type} (o : Option α) (p : α → Bool) (h : o.all p = true) :
    ∀ a, o = some a → p a = true := by
  intro a ha
  subst ha
  simpa using h

/-! ## The claims -/

/-- C1: in a build whose `PWM_BUF_LEN` fits 16 bits, an `ARGB_Show` call that passes
the busy check returns, and afterwards `PWM_BUF[8 * k + j]` is `PWM_HI` if bit
`7 - j` of `RGB_BUF[k]` is 1 and `PWM_LO` otherwise, for every byte index
`k < NUM_BYTES` and every `j < 8`; so a byte `0xAA` gives HI,LO,HI,LO,HI,LO,HI,LO,
a byte `0x00` eight LO codes and a byte `0xFF` eight HI codes. -/
theorem C1_show_encodes_msb_first (cfg : Config) (hal : HAL) (s : State) (h : Handles)
    (hs : s.Sized cfg) (hN : cfg.NUM_PIXELS * BITS_PER_PIXEL cfg + RST_LEN ≤ 65535)
    (hp : Show_passes cfg hal s h) (hc : h.ccr_reg ≠ .NULL) :
    ∃ r s1, ARGB_Show cfg hal s = some (r, s1) ∧
      (∀ k, k < NUM_BYTES cfg → ∀ j, j < 8 →
        s1.PWM_BUF[8 * k + j]? =
          some (if (s.RGB_BUF.getD k 0).testBit (7 - j) then s.PWM_HI else s.PWM_LO)) ∧
      (∀ k, s.RGB_BUF[k]? = some 0xAA →
        (s1.PWM_BUF.drop (8 * k)).take 8 =
          [s.PWM_HI, s.PWM_LO, s.PWM_HI, s.PWM_LO, s.PWM_HI, s.PWM_LO, s.PWM_HI, s.PWM_LO]) ∧
      (∀ k, s.RGB_BUF[k]? = some 0x00 →
        (s1.PWM_BUF.drop (8 * k)).take 8 = List.replicate 8 s.PWM_LO) ∧
      (∀ k, s.RGB_BUF[k]? = some 0xFF →
        (s1.PWM_BUF.drop (8 * k)).take 8 = List.replicate 8 s.PWM_HI) := by
  have hL : PWM_BUF_LEN cfg ≤ 65535 := hN
  obtain ⟨pb, s1, req, hfill, _, hshow, _, _, hbuf, _⟩ :=
    Show_runs cfg hal s h hs (NUM_BYTES_le_of_PWM_BUF_LEN cfg hL) hp hc
  obtain ⟨b, hb1, _, hb3, _⟩ :=
    Show_fill_spec cfg s.PWM_HI s.PWM_LO s.RGB_BUF s.PWM_BUF hs.1 hs.2 hL
  rw [hfill] at hb1
  cases hb1
  have hP : (Show_start hal s1 h req).2.PWM_BUF = b := by
    rw [(Show_start_spec hal s1 h req).1, hbuf]
  have key : ∀ k, k < NUM_BYTES cfg → ∀ j, j < 8 →
      (Show_start hal s1 h req).2.PWM_BUF[8 * k + j]? =
        some (if (s.RGB_BUF.getD k 0).testBit (7 - j) then s.PWM_HI else s.PWM_LO) := by
    intro k hk j hj
    rw [hP, hb3 (8 * k + j) (by omega)]
    have e1 : (8 * k + j) / 8 = k := by omega
    have e2 : (8 * k + j) % 8 = j := by omega
    rw [e1, e2]
    rfl
  have byte : ∀ k v, s.RGB_BUF[k]? = some v → k < NUM_BYTES cfg ∧ s.RGB_BUF.getD k 0 = v := by
    intro k v hv
    obtain ⟨hlt, hget⟩ := List.getElem?_eq_some_iff.mp hv
    refine ⟨by rw [← hs.1]; exact hlt, ?_⟩
    simp [List.getD, hv]
  refine ⟨(Show_start hal s1 h req).1, (Show_start hal s1 h req).2, hshow, key, ?_, ?_, ?_⟩
  · intro k hv
    obtain ⟨hk, hg⟩ := byte k _ hv
    rw [take8_drop _ (8 * k)
      (fun j => if (0xAA : Nat).testBit (7 - j) then s.PWM_HI else s.PWM_LO)
      (fun j hj => by rw [key k hk j hj, hg])]
    simp [Nat.testBit]
  · intro k hv
    obtain ⟨hk, hg⟩ := byte k _ hv
    rw [take8_drop _ (8 * k)
      (fun j => if (0x00 : Nat).testBit (7 - j) then s.PWM_HI else s.PWM_LO)
      (fun j hj => by rw [key k hk j hj, hg])]
    simp
  · intro k hv
    obtain ⟨hk, hg⟩ := byte k _ hv
    rw [take8_drop _ (8 * k)
      (fun j => if (0xFF : Nat).testBit (7 - j) then s.PWM_HI else s.PWM_LO)
      (fun j hj => by rw [key k hk j hj, hg])]
    simp [Nat.testBit]

/-- Witness for C1: the default build, attached and initialised on the example
hardware. -/
theorem C1_show_encodes_msb_first_witness :
    ∃ r s1, ARGB_Show cfg_default hal_f4 (s_ready cfg_default) = some (r, s1) ∧
      (∀ k, k < NUM_BYTES cfg_default → ∀ j, j < 8 →
        s1.PWM_BUF[8 * k + j]? =
          some (if ((s_ready cfg_default).RGB_BUF.getD k 0).testBit (7 - j)
            then (s_ready cfg_default).PWM_HI else (s_ready cfg_default).PWM_LO)) :=
  let ⟨r, s1, h1, h2, _⟩ :=
    C1_show_encodes_msb_first cfg_default hal_f4 (s_ready cfg_default) h_example
      (s_ready_Sized cfg_default) (by decide) ⟨by decide, by decide⟩ (by decide)
  ⟨r, s1, h1, h2⟩

/-- C7: in a build whose `PWM_BUF_LEN` fits 16 bits, an `ARGB_Show` call that passes
the busy check returns (so no store fell outside `PWM_BUF`), the write index of the
fill ends exactly at `PWM_BUF_LEN`, and the `RST_LEN` entries of `PWM_BUF` from
position `NUM_PIXELS * BITS_PER_PIXEL` on are all zero. -/
theorem C7_show_reset_tail (cfg : Config) (hal : HAL) (s : State) (h : Handles)
    (hs : s.Sized cfg) (hN : cfg.NUM_PIXELS * BITS_PER_PIXEL cfg + RST_LEN ≤ 65535)
    (hp : Show_passes cfg hal s h) (hc : h.ccr_reg ≠ .NULL) :
    ∃ r s1, ARGB_Show cfg hal s = some (r, s1) ∧
      Show_fill cfg s.PWM_HI s.PWM_LO s.RGB_BUF s.PWM_BUF =
        some (PWM_BUF_LEN cfg, s1.PWM_BUF) ∧
      s1.PWM_BUF.length = PWM_BUF_LEN cfg ∧
      (∀ i, i < RST_LEN →
        s1.PWM_BUF[cfg.NUM_PIXELS * BITS_PER_PIXEL cfg + i]? = some 0) := by
  have hL : PWM_BUF_LEN cfg ≤ 65535 := hN
  obtain ⟨pb, s1, req, hfill, _, hshow, _, _, hbuf, _⟩ :=
    Show_runs cfg hal s h hs (NUM_BYTES_le_of_PWM_BUF_LEN cfg hL) hp hc
  obtain ⟨b, hb1, hb2, _, hb4⟩ :=
    Show_fill_spec cfg s.PWM_HI s.PWM_LO s.RGB_BUF s.PWM_BUF hs.1 hs.2 hL
  have hP : (Show_start hal s1 h req).2.PWM_BUF = b := by
    rw [(Show_start_spec hal s1 h req).1, hbuf]
    rw [hfill] at hb1
    cases hb1
    rfl
  refine ⟨(Show_start hal s1 h req).1, (Show_start hal s1 h req).2, hshow, ?_, ?_, ?_⟩
  · rw [hP, hb1]
  · rw [hP, hb2]
  · intro i hi
    rw [hP, ← eight_NUM_BYTES cfg]
    exact hb4 i hi

/-- Witness for C7: the default build, attached and initialised on the example
hardware. -/
theorem C7_show_reset_tail_witness :
    ∃ r s1, ARGB_Show cfg_default hal_f4 (s_ready cfg_default) = some (r, s1) ∧
      s1.PWM_BUF.length = 180 ∧ (∀ i, i < 60 → s1.PWM_BUF[120 + i]? = some 0) :=
  let ⟨r, s1, h1, _, h3, h4⟩ :=
    C7_show_reset_tail cfg_default hal_f4 (s_ready cfg_default) h_example
      (s_ready_Sized cfg_default) (by decide) ⟨by decide, by decide⟩ (by decide)
  ⟨r, s1, h1, h3, h4⟩

/-- C2, counterexample: in an Arduino build (runtime binding only) with nothing
attached, the transfer state is Busy at power-up, yet `ARGB_Show` returns
`ARGB_PARAM_ERR`, not `ARGB_BUSY`. -/
theorem C2_counterexample :
    ARGB_Ready (State.initial cfg_arduino hw_example) = .ARGB_BUSY ∧
    (ARGB_Show cfg_arduino hal_f4 (State.initial cfg_arduino hw_example)).map (fun p => p.1)
      = some .ARGB_PARAM_ERR := by
  decide

/-- C2, amended: when a binding is available (`ARGB_Show` finds its handles) and the
transfer state is Busy or the DMA handle's state is not ready, `ARGB_Show` returns
`ARGB_BUSY` and the whole state (flag, `PWM_BUF`, `RGB_BUF`, handles and registers)
is exactly as before; repeating the call gives the same result and state. -/
theorem C2_show_busy_rejected (cfg : Config) (hal : HAL) (s : State) (h : Handles)
    (hh : Show_handles cfg hal s = some h)
    (hb : s.ARGB_LOC_ST = .ARGB_BUSY ∨ (s.hw.dma h.hdma).State ≠ hal.HAL_DMA_STATE_READY) :
    ARGB_Show cfg hal s = some (.ARGB_BUSY, s) ∧
    (ARGB_Show cfg hal s).bind (fun p => ARGB_Show cfg hal p.2) = some (.ARGB_BUSY, s) := by
  have hbusy : Show_busy hal s h.hdma = true := by
    unfold Show_busy
    rcases hb with hb | hb
    · simp [hb]
    · simp [hb]
  have h1 : ARGB_Show cfg hal s = some (.ARGB_BUSY, s) := by
    simp [ARGB_Show, hh, hbusy]
  exact ⟨h1, by rw [h1, Option.some_bind, h1]⟩

/-- Witness for C2: the default (legacy) build at power-up, where the flag is Busy. -/
theorem C2_show_busy_rejected_witness :
    ARGB_Show cfg_default hal_f4 (State.initial cfg_default hw_example) =
      some (.ARGB_BUSY, State.initial cfg_default hw_example) ∧
    (ARGB_Show cfg_default hal_f4 (State.initial cfg_default hw_example)).bind
      (fun p => ARGB_Show cfg_default hal_f4 p.2) =
      some (.ARGB_BUSY, State.initial cfg_default hw_example) :=
  C2_show_busy_rejected cfg_default hal_f4 (State.initial cfg_default hw_example) h_example
    (by decide) (Or.inl rfl)

/-- C3: with a binding attached (`s_htim` set, compare register pointer set), in a
build whose `NUM_BYTES` fits the byte counter, when the transfer state is Ready, the
DMA handle is ready and the DMA engine accepts the start request, `ARGB_Show` returns
`ARGB_OK` and the transfer state is Busy afterwards; the completion callback then
sets it back to Ready. `ARGB_Ready` reports Ready, Busy, Ready over the sequence. -/
theorem C3_ready_busy_ready (cfg : Config) (hal : HAL) (s : State)
    (hs : s.Sized cfg) (hN : NUM_BYTES cfg ≤ 65535)
    (hbind : s.s_htim ≠ 0) (hccr : s.s_tim_ccr ≠ .NULL)
    (hst : s.ARGB_LOC_ST = .ARGB_READY)
    (hidle : (s.hw.dma s.s_hdma).State = hal.HAL_DMA_STATE_READY)
    (hacc : Show_dma_accepted cfg hal s
      ⟨s.s_htim, s.s_hdma, s.s_tim_channel, s.s_tim_dma_cc, s.s_tim_ccr⟩) :
    ARGB_Ready s = .ARGB_READY ∧
    ∃ s2, ARGB_Show cfg hal s = some (.ARGB_OK, s2) ∧
      ARGB_Ready s2 = .ARGB_BUSY ∧
      ∀ hdma, ARGB_Ready (ARGB_TIM_DMADelayPulseCplt cfg hal s2 hdma) = .ARGB_READY := by
  have hp : Show_passes cfg hal s
      ⟨s.s_htim, s.s_hdma, s.s_tim_channel, s.s_tim_dma_cc, s.s_tim_ccr⟩ := by
    constructor
    · simp [Show_handles, hbind]
    · simp [Show_busy, hst, hidle]
  obtain ⟨pb, s1, req, _, hprep, hshow, _, hbusy, _, _, _, _, hhtim, _⟩ :=
    Show_runs cfg hal s _ hs hN hp hccr
  have hsp := Show_start_spec hal s1
    ⟨s.s_htim, s.s_hdma, s.s_tim_channel, s.s_tim_dma_cc, s.s_tim_ccr⟩ req
  obtain ⟨hr, hl⟩ := hsp.2.2.2.2.2.2.2.2.1 (hacc s1 req hprep)
  refine ⟨hst, (Show_start hal s1
    ⟨s.s_htim, s.s_hdma, s.s_tim_channel, s.s_tim_dma_cc, s.s_tim_ccr⟩ req).2, ?_, ?_, ?_⟩
  · rw [hshow, ← hr]
  · show (Show_start hal s1 _ req).2.ARGB_LOC_ST = .ARGB_BUSY
    rw [hl, hbusy]
  · intro hdma
    apply Cplt_ready
    left
    rw [hsp.2.2.2.2.1, hhtim]
    exact hbind

set_option maxRecDepth 100000 in
/-- Witness for C3: the default build, attached and initialised on the example
hardware, with the example HAL. -/
theorem C3_ready_busy_ready_witness :
    ARGB_Ready (s_ready cfg_default) = .ARGB_READY ∧
    ∃ s2, ARGB_Show cfg_default hal_f4 (s_ready cfg_default) = some (.ARGB_OK, s2) ∧
      ARGB_Ready s2 = .ARGB_BUSY ∧
      ∀ hdma, ARGB_Ready (ARGB_TIM_DMADelayPulseCplt cfg_default hal_f4 s2 hdma) =
        .ARGB_READY :=
  C3_ready_busy_ready cfg_default hal_f4 (s_ready cfg_default) (s_ready_Sized cfg_default)
    (by decide) (by decide) (by decide) (by decide) (by decide)
    (fun s1 req hprep => of_decide_eq_true
      (option_all_elim (Show_prepare cfg_default hal_f4 (s_ready cfg_default) h_example)
        (fun sr => decide ((hal_f4.HAL_DMA_Start_IT sr.1.hw sr.2).1 = hal_f4.HAL_OK))
        (by decide) (s1, req) hprep))

/-- C4: when an `ARGB_Show` call passes the busy check (in a build whose `NUM_BYTES`
fits the byte counter, with a non-`NULL` compare register pointer) and the DMA
engine rejects the start request, the call returns `ARGB_PARAM_ERR` and the transfer
state is Ready on return, so the state flag does not make a following `ARGB_Show`
answer Busy: its busy check then depends on the DMA handle's state only. -/
theorem C4_dma_rejected_param_err (cfg : Config) (hal : HAL) (s : State) (h : Handles)
    (hs : s.Sized cfg) (hN : NUM_BYTES cfg ≤ 65535) (hp : Show_passes cfg hal s h)
    (hc : h.ccr_reg ≠ .NULL) (hrej : Show_dma_rejected cfg hal s h) :
    ∃ s2, ARGB_Show cfg hal s = some (.ARGB_PARAM_ERR, s2) ∧
      ARGB_Ready s2 = .ARGB_READY ∧
      ∀ hdma, Show_busy hal s2 hdma = ((s2.hw.dma hdma).State != hal.HAL_DMA_STATE_READY) := by
  obtain ⟨pb, s1, req, _, hprep, hshow, _⟩ := Show_runs cfg hal s h hs hN hp hc
  have hsp := Show_start_spec hal s1 h req
  obtain ⟨hr, hl⟩ := hsp.2.2.2.2.2.2.2.2.2 (hrej s1 req hprep)
  have hready : ARGB_Ready (Show_start hal s1 h req).2 = .ARGB_READY := hl
  refine ⟨(Show_start hal s1 h req).2, ?_, hready, ?_⟩
  · rw [hshow, ← hr]
  · intro hdma
    unfold Show_busy
    rw [show (Show_start hal s1 h req).2.ARGB_LOC_ST = .ARGB_READY from hl]
    simp

/-- Witness for C4: the default build, attached and initialised on the example
hardware, with a DMA engine that rejects the request. -/
theorem C4_dma_rejected_param_err_witness :
    ∃ s2, ARGB_Show cfg_default hal_reject (s_ready cfg_default) = some (.ARGB_PARAM_ERR, s2) ∧
      ARGB_Ready s2 = .ARGB_READY ∧
      ∀ hdma, Show_busy hal_reject s2 hdma =
        ((s2.hw.dma hdma).State != hal_reject.HAL_DMA_STATE_READY) :=
  C4_dma_rejected_param_err cfg_default hal_reject (s_ready cfg_default) h_example
    (s_ready_Sized cfg_default) (by decide) ⟨by decide, by decide⟩ (by decide)
    (fun _ _ _ => by show (1 : Nat) ≠ 0; decide)

/-- C5, counterexample: at power-up (before `ARGB_Init` or any other operation) the
default build's `ARGB_Ready` returns `ARGB_BUSY`, not `ARGB_READY`: `ARGB_LOC_ST` has
no initialiser and `ARGB_BUSY` is the enumerator with value 0. -/
theorem C5_counterexample :
    ARGB_Ready (State.initial cfg_default hw_example) = .ARGB_BUSY ∧
    ARGB_Ready (State.initial cfg_default hw_example) ≠ .ARGB_READY := by
  decide

/-- C5, amended: in the initial static state `ARGB_Ready` returns `ARGB_BUSY`; it is
`ARGB_Init` that makes the transfer state Ready, from any state in which a binding is
available (a runtime binding attached, or a build with the legacy binding). -/
theorem C5_busy_until_init (cfg : Config) (hal : HAL) (hw : HW) (s : State)
    (hb : s.s_htim ≠ 0 ∨ cfg.ARGB_USE_RUNTIME_BINDING = false) :
    ARGB_Ready (State.initial cfg hw) = .ARGB_BUSY ∧
    ARGB_Ready (ARGB_Init cfg hal s) = .ARGB_READY := by
  refine ⟨rfl, ?_⟩
  unfold ARGB_Init ARGB_Ready
  by_cases h0 : s.s_htim ≠ 0
  · simp [h0, ARGB_Init_tail]
  · rcases hb with hb | hb
    · exact absurd hb h0
    · simp [h0, hb, ARGB_Init_tail]

/-- Witness for C5: the default (legacy) build at power-up. -/
theorem C5_busy_until_init_witness :
    ARGB_Ready (State.initial cfg_default hw_example) = .ARGB_BUSY ∧
    ARGB_Ready (ARGB_Init cfg_default hal_f4 (State.initial cfg_default hw_example)) =
      .ARGB_READY :=
  C5_busy_until_init cfg_default hal_f4 hw_example (State.initial cfg_default hw_example)
    (Or.inr rfl)

/-- C6, counterexample: with 2729 pixels of the default family `PWM_BUF_LEN` is
65556, and `ARGB_Show` asks the DMA engine for 20 items: the length argument is
`(u16_t)PWM_BUF_LEN`. -/
theorem C6_counterexample :
    0 < cfg_2729.NUM_PIXELS ∧
    cfg_2729.NUM_PIXELS * BITS_PER_PIXEL cfg_2729 + RST_LEN = 65556 ∧
    (ARGB_Show cfg_2729 hal_f4 (s_ready cfg_2729)).map (fun p => last_DataLength p.2) =
      some (some 20) := by
  refine ⟨by decide, by decide, ?_⟩
  obtain ⟨r, s1, req, hshow, _, _, hlast, _⟩ :=
    Show_DataLength cfg_2729 hal_f4 (s_ready cfg_2729) h_example (s_ready_Sized cfg_2729)
      (by decide) ⟨by decide, by decide⟩ (by decide)
  rw [hshow, Option.map_some', hlast]
  rfl

/-- C6, amended: in a build whose `PWM_BUF_LEN` fits 16 bits, an `ARGB_Show` call
that passes the busy check makes one DMA start request, out of `PWM_BUF`, whose
length is `NUM_PIXELS * BITS_PER_PIXEL + RST_LEN`, the full length of `PWM_BUF`
(24 bits per pixel, 32 for `SK6812`, plus 60), whatever the colour content. -/
theorem C6_dma_length (cfg : Config) (hal : HAL) (s : State) (h : Handles)
    (hs : s.Sized cfg) (hN : cfg.NUM_PIXELS * BITS_PER_PIXEL cfg + RST_LEN ≤ 65535)
    (hp : Show_passes cfg hal s h) (hc : h.ccr_reg ≠ .NULL) :
    ∃ r s1 req, ARGB_Show cfg hal s = some (r, s1) ∧
      s1.dma_requests = req :: s.dma_requests ∧ req.SrcAddress = .PWM_BUF ∧
      last_DataLength s1 = some (cfg.NUM_PIXELS * BITS_PER_PIXEL cfg + RST_LEN) ∧
      s1.PWM_BUF.length = cfg.NUM_PIXELS * BITS_PER_PIXEL cfg + RST_LEN ∧
      BITS_PER_PIXEL cfg = (if cfg.family = .SK6812 then 32 else 24) ∧ RST_LEN = 60 := by
  have hL : PWM_BUF_LEN cfg ≤ 65535 := hN
  obtain ⟨r, s1, req, hshow, hreq, hsrc, hlast, hlen⟩ :=
    Show_DataLength cfg hal s h hs (NUM_BYTES_le_of_PWM_BUF_LEN cfg hL) hp hc
  have hu : u16 (PWM_BUF_LEN cfg) = PWM_BUF_LEN cfg := by unfold u16; omega
  refine ⟨r, s1, req, hshow, hreq, hsrc, ?_, hlen, ?_, rfl⟩
  · rw [hlast, hu]; rfl
  · unfold BITS_PER_PIXEL Config.isSK6812
    by_cases hf : cfg.family = .SK6812 <;> simp [hf]

/-- Witness for C6: the default build, attached and initialised on the example
hardware: 180 items. -/
theorem C6_dma_length_witness :
    ∃ r s1 req, ARGB_Show cfg_default hal_f4 (s_ready cfg_default) = some (r, s1) ∧
      s1.dma_requests = req :: (s_ready cfg_default).dma_requests ∧
      last_DataLength s1 = some 180 :=
  let ⟨r, s1, req, h1, h2, _, h4, _⟩ :=
    C6_dma_length cfg_default hal_f4 (s_ready cfg_default) h_example
      (s_ready_Sized cfg_default) (by decide) ⟨by decide, by decide⟩ (by decide)
  ⟨r, s1, req, h1, h2, h4⟩

/-- C8: in the default strip build (`WS2812`, 5 pixels, gamma off) at brightness 255,
`ARGB_FillRGB(255, 0, 0)` returns and leaves the bytes (0, 255, 0) in every pixel
(wire order green, red, blue); an `ARGB_Show` after it that passes the busy check
and whose DMA start is accepted returns `ARGB_OK`, the 24 codes of every pixel are
eight `PWM_LO`, eight `PWM_HI`, eight `PWM_LO`, the remaining 60 codes are zero, the
transfer state is Busy after it and Ready after the completion callback. -/
theorem C8_fill_red_show (cfg : Config) (hal : HAL) (s : State)
    (hfam : cfg.family = .WS2812) (hn : cfg.NUM_PIXELS = 5)
    (hg : cfg.USE_GAMMA_CORRECTION = false) (hs : s.Sized cfg) (hbr : s.ARGB_BR = 255) :
    ∃ s1, ARGB_FillRGB cfg s 255 0 0 = some s1 ∧
      (∀ p, p < 5 → s1.RGB_BUF[3 * p]? = some 0 ∧ s1.RGB_BUF[3 * p + 1]? = some 255 ∧
        s1.RGB_BUF[3 * p + 2]? = some 0) ∧
      ∀ h, Show_passes cfg hal s1 h → h.ccr_reg ≠ .NULL → Show_dma_accepted cfg hal s1 h →
        ∃ s2, ARGB_Show cfg hal s1 = some (.ARGB_OK, s2) ∧
          (∀ p, p < 5 → ∀ j, j < 8 →
            s2.PWM_BUF[24 * p + j]? = some s.PWM_LO ∧
            s2.PWM_BUF[24 * p + 8 + j]? = some s.PWM_HI ∧
            s2.PWM_BUF[24 * p + 16 + j]? = some s.PWM_LO) ∧
          (∀ i, i < 60 → s2.PWM_BUF[120 + i]? = some 0) ∧
          s2.PWM_BUF.length = 180 ∧
          ARGB_Ready s2 = .ARGB_BUSY ∧
          ∀ hdma, ARGB_Ready (ARGB_TIM_DMADelayPulseCplt cfg hal s2 hdma) = .ARGB_READY := by
  have hB : BYTES_PER_PIXEL cfg = 3 := by simp [BYTES_PER_PIXEL, Config.isSK6812, hfam]
  have hNB : NUM_BYTES cfg = 15 := by simp [NUM_BYTES, Config.isSK6812, hfam, hn]
  have hLEN : PWM_BUF_LEN cfg = 180 := by
    simp [PWM_BUF_LEN, BITS_PER_PIXEL, Config.isSK6812, hfam, hn, RST_LEN]
  have hsub : subpixels cfg s.ARGB_BR 255 0 0 = (0, 255, 0) := by
    rw [hbr]
    simp [subpixels, hfam, hg, brightness, u8, u16]
  obtain ⟨buf, hfill, hlen, hpt⟩ :=
    FillRGB_loop_spec cfg 255 0 0 cfg.NUM_PIXELS 65536 0 s (by omega) (by omega) (by omega) hs.1
  rw [hsub, hB, hNB] at hpt
  have hbyte : ∀ k, k < 15 → buf[k]? = some (if k % 3 = 1 then 255 else 0) := by
    intro k hk
    rw [hpt k, if_pos (by omega)]
    by_cases h0 : k % 3 = 0
    · have : ¬ k % 3 = 1 := by omega
      simp [h0]
    · by_cases h1 : k % 3 = 1
      · simp [h1]
      · simp [h0, h1]
  have hgetD : ∀ k, k < 15 → buf.getD k 0 = if k % 3 = 1 then 255 else 0 := by
    intro k hk
    simp [List.getD, hbyte k hk]
  refine ⟨{ s with RGB_BUF := buf }, hfill, ?_, ?_⟩
  · intro p hp
    refine ⟨?_, ?_, ?_⟩
    · show buf[3 * p]? = _
      rw [hbyte _ (by omega), if_neg (by omega)]
    · show buf[3 * p + 1]? = _
      rw [hbyte _ (by omega), if_pos (by omega)]
    · show buf[3 * p + 2]? = _
      rw [hbyte _ (by omega), if_neg (by omega)]
  · intro h hp hc hacc
    have hs1 : State.Sized cfg { s with RGB_BUF := buf } := ⟨by rw [← hs.1]; exact hlen, hs.2⟩
    obtain ⟨pb, s1, req, hfl, hprep, hshow, _, hbusy, hbuf, _, _, _, hhtim, _⟩ :=
      Show_runs cfg hal _ h hs1 (by omega) hp hc
    obtain ⟨b, hb1, hb2, hb3, hb4⟩ :=
      Show_fill_spec cfg s.PWM_HI s.PWM_LO buf s.PWM_BUF hs1.1 hs.2 (by omega)
    have hfl2 : Show_fill cfg s.PWM_HI s.PWM_LO buf s.PWM_BUF = some pb := hfl
    rw [hfl2] at hb1
    cases hb1
    have hsp := Show_start_spec hal s1 h req
    obtain ⟨hr, hl⟩ := hsp.2.2.2.2.2.2.2.2.1 (hacc s1 req hprep)
    have hP : (Show_start hal s1 h req).2.PWM_BUF = b := by rw [hsp.1, hbuf]
    rw [hNB] at hb3 hb4
    have lo_code : ∀ j, pulse_code s.PWM_HI s.PWM_LO 0 j = s.PWM_LO := by
      intro j
      simp [pulse_code]
    have hi_code : ∀ j, j < 8 → pulse_code s.PWM_HI s.PWM_LO 255 j = s.PWM_HI := by
      intro j hj
      unfold pulse_code
      interval_cases j <;> simp [Nat.testBit]
    refine ⟨(Show_start hal s1 h req).2, ?_, ?_, ?_, ?_, ?_, ?_⟩
    · rw [hshow, ← hr]
    · intro p hp5 j hj
      rw [hP]
      refine ⟨?_, ?_, ?_⟩
      · rw [hb3 _ (by omega)]
        have e1 : (24 * p + j) / 8 = 3 * p := by omega
        have e2 : (24 * p + j) % 8 = j := by omega
        rw [e1, e2, hgetD _ (by omega), if_neg (by omega), lo_code]
      · rw [hb3 _ (by omega)]
        have e1 : (24 * p + 8 + j) / 8 = 3 * p + 1 := by omega
        have e2 : (24 * p + 8 + j) % 8 = j := by omega
        rw [e1, e2, hgetD _ (by omega), if_pos (by omega), hi_code j hj]
      · rw [hb3 _ (by omega)]
        have e1 : (24 * p + 16 + j) / 8 = 3 * p + 2 := by omega
        have e2 : (24 * p + 16 + j) % 8 = j := by omega
        rw [e1, e2, hgetD _ (by omega), if_neg (by omega), lo_code]
    · intro i hi
      rw [hP]
      exact hb4 i hi
    · rw [hP, hb2, hLEN]
    · show (Show_start hal s1 h req).2.ARGB_LOC_ST = .ARGB_BUSY
      rw [hl, hbusy]
    · intro hdma
      apply Cplt_ready
      have := Show_handles_some cfg hal _ h hp.1
      rw [hsp.2.2.2.2.1, hhtim]
      exact this

set_option maxRecDepth 100000 in
/-- Witness for C8: the default build, attached and initialised on the example
hardware, with the example HAL. -/
theorem C8_fill_red_show_witness :
    ARGB_FillRGB cfg_default (s_ready cfg_default) 255 0 0 = some s_red ∧
    ∃ s2, ARGB_Show cfg_default hal_f4 s_red = some (.ARGB_OK, s2) ∧
      (∀ p, p < 5 → ∀ j, j < 8 →
        s2.PWM_BUF[24 * p + j]? = some (s_ready cfg_default).PWM_LO ∧
        s2.PWM_BUF[24 * p + 8 + j]? = some (s_ready cfg_default).PWM_HI ∧
        s2.PWM_BUF[24 * p + 16 + j]? = some (s_ready cfg_default).PWM_LO) ∧
      (∀ i, i < 60 → s2.PWM_BUF[120 + i]? = some 0) ∧
      ARGB_Ready s2 = .ARGB_BUSY ∧
      ∀ hdma, ARGB_Ready (ARGB_TIM_DMADelayPulseCplt cfg_default hal_f4 s2 hdma) =
        .ARGB_READY := by
  obtain ⟨s1, hf, _, hshow⟩ :=
    C8_fill_red_show cfg_default hal_f4 (s_ready cfg_default) rfl rfl rfl
      (s_ready_Sized cfg_default) (by decide)
  have e : ARGB_FillRGB cfg_default (s_ready cfg_default) 255 0 0 = some s_red := rfl
  have hs1 : s1 = s_red := Option.some.inj (hf.symm.trans e)
  subst hs1
  obtain ⟨s2, h1, h2, h3, _, h5, h6⟩ :=
    hshow h_example ⟨by decide, by decide⟩ (by decide)
      (fun t1 req hprep => of_decide_eq_true
        (option_all_elim (Show_prepare cfg_default hal_f4 s_red h_example)
          (fun sr => decide ((hal_f4.HAL_DMA_Start_IT sr.1.hw sr.2).1 = hal_f4.HAL_OK))
          (by decide) (t1, req) hprep))
  exact ⟨e, s2, h1, h2, h3, h5, h6⟩

/-- C9: for every 16-bit index `i` and every colour, `ARGB_SetRGB(i, r, g, b)` gives
exactly the state `ARGB_SetRGB(i mod NUM_PIXELS, r, g, b)` gives; it always returns
(the index is never rejected), all its stores are inside `RGB_BUF`, and what changes
are the three colour bytes of pixel `i mod NUM_PIXELS`. -/
theorem C9_SetRGB_index_wraps (cfg : Config) (s : State) (i r g b : Nat)
    (hN : 0 < cfg.NUM_PIXELS) (hi : i < 65536) (hlen : s.RGB_BUF.length = NUM_BYTES cfg) :
    ARGB_SetRGB cfg s i r g b = ARGB_SetRGB cfg s (i % cfg.NUM_PIXELS) r g b ∧
    ∃ s1, ARGB_SetRGB cfg s i r g b = some s1 ∧
      s1 = { s with RGB_BUF := set_pixel cfg s.RGB_BUF (i % cfg.NUM_PIXELS)
                                 (subpixels cfg s.ARGB_BR r g b) } ∧
      s1.RGB_BUF.length = NUM_BYTES cfg := by
  have hw := SetRGB_wrap cfg s i r g b hN hi
  have hr := SetRGB_in_range cfg s (i % cfg.NUM_PIXELS) r g b (Nat.mod_lt i hN) hlen
  refine ⟨hw, _, hw.trans hr, rfl, ?_⟩
  simp [set_pixel_length, hlen]

/-- Witness for C9: index 7 on the 5-pixel default strip lands on pixel 2. -/
theorem C9_SetRGB_index_wraps_witness :
    ARGB_SetRGB cfg_default (s_ready cfg_default) 7 1 2 3 =
      ARGB_SetRGB cfg_default (s_ready cfg_default) (7 % cfg_default.NUM_PIXELS) 1 2 3 ∧
    ∃ s1, ARGB_SetRGB cfg_default (s_ready cfg_default) 7 1 2 3 = some s1 ∧
      s1 = { s_ready cfg_default with
             RGB_BUF := set_pixel cfg_default (s_ready cfg_default).RGB_BUF
               (7 % cfg_default.NUM_PIXELS)
               (subpixels cfg_default (s_ready cfg_default).ARGB_BR 1 2 3) } ∧
      s1.RGB_BUF.length = NUM_BYTES cfg_default :=
  C9_SetRGB_index_wraps cfg_default (s_ready cfg_default) 7 1 2 3 (by decide) (by decide)
    (s_ready_Sized cfg_default).1

/-- C10, the code at the failing input: in the `SK6812` build with 5 pixels
(`RGB_BUF` has 20 bytes), `ARGB_SetWhite(5, 255)` stores to `RGB_BUF[4 * 5 + 3]`,
outside the array, so the call faults; the index is not wrapped, whereas
`ARGB_SetRGB(5, ..)` wraps it and returns, and `ARGB_SetWhite(0, 255)`, the call on
the wrapped index, stores 255 to `RGB_BUF[3]`. -/
theorem C10_SetWhite_index_not_wrapped :
    NUM_BYTES cfg_sk6812 = 20 ∧
    (ARGB_SetWhite cfg_sk6812 (s_ready cfg_sk6812) 5 255).isNone = true ∧
    (ARGB_SetRGB cfg_sk6812 (s_ready cfg_sk6812) 5 255 255 255).isSome = true ∧
    (ARGB_SetWhite cfg_sk6812 (s_ready cfg_sk6812) 0 255).map (fun t => t.RGB_BUF[3]?) =
      some (some 255) := by
  decide

/-! ## Lemmas: brightness scaling -/

/-- For byte operands the brightness step is the plain quotient `x / (256 / (b + 1))`. -/
theorem brightness_eq (b x : Nat) (hx : x < 256) (hb : b < 256) :
    brightness b x = x / (256 / (b + 1)) := by
  have hu : u16 b = b := by unfold u16; omega
  have hle : x / (256 / (b + 1)) ≤ x := Nat.div_le_self _ _
  unfold brightness
  rw [hu]
  exact Nat.mod_eq_of_lt (lt_of_le_of_lt hle hx)

/-- The divisor of the brightness step is at least 1 for a byte brightness. -/
theorem brightness_divisor_pos (b : Nat) (hb : b < 256) : 1 ≤ 256 / (b + 1) :=
  Nat.div_pos (by omega) (by omega)

/-- From brightness 128 on the divisor is 1. -/
theorem brightness_divisor_one (b : Nat) (h1 : 128 ≤ b) (hb : b < 256) : 256 / (b + 1) = 1 := by
  apply Nat.div_eq_of_lt_le
  · omega
  · omega

/-- Below brightness 128 the divisor is at least 2. -/
theorem brightness_divisor_two (b : Nat) (h1 : b < 128) : 2 ≤ 256 / (b + 1) := by
  rw [Nat.le_div_iff_mul_le (by omega)]
  omega

/-- C11: for byte operands the divisor `256 / (b + 1)` is at least 1, the stored value
is `x / (256 / (b + 1))` and lies between 0 and `x`; at brightness 255 the divisor is
1 and the value is `x`, at brightness 0 the divisor is 256 and the value is 0.
`ARGB_SetBrightness` stores the byte it is given. -/
theorem C11_brightness_bounded (s : State) (x b : Nat) (hx : x < 256) (hb : b < 256) :
    (ARGB_SetBrightness s b).ARGB_BR = b ∧
    1 ≤ 256 / (b + 1) ∧
    brightness b x = x / (256 / (b + 1)) ∧
    0 ≤ brightness b x ∧ brightness b x ≤ x ∧
    (256 / (255 + 1) = 1 ∧ brightness 255 x = x) ∧
    (256 / (0 + 1) = 256 ∧ brightness 0 x = 0) := by
  refine ⟨?_, brightness_divisor_pos b hb, brightness_eq b x hx hb, Nat.zero_le _, ?_, ?_, ?_⟩
  · show u8 b = b
    unfold u8
    omega
  · rw [brightness_eq b x hx hb]
    exact Nat.div_le_self _ _
  · refine ⟨by norm_num, ?_⟩
    rw [brightness_eq 255 x hx (by omega)]
    norm_num
  · refine ⟨by norm_num, ?_⟩
    rw [brightness_eq 0 x hx (by omega)]
    norm_num
    omega

/-- Witness for C11: the value 200 at brightness 63 is stored as 50. -/
theorem C11_brightness_bounded_witness :
    (ARGB_SetBrightness (s_ready cfg_default) 63).ARGB_BR = 63 ∧
    1 ≤ 256 / (63 + 1) ∧
    brightness 63 200 = 200 / (256 / (63 + 1)) ∧
    0 ≤ brightness 63 200 ∧ brightness 63 200 ≤ 200 ∧
    (256 / (255 + 1) = 1 ∧ brightness 255 200 = 200) ∧
    (256 / (0 + 1) = 256 ∧ brightness 0 200 = 0) :=
  C11_brightness_bounded (s_ready cfg_default) 200 63 (by decide) (by decide)

/-- C12: the stored value is monotonic in the brightness (`b1 ≤ b2` gives a value at
`b1` that is at most the value at `b2`) and, at a fixed brightness, non-decreasing in
the channel value. -/
theorem C12_brightness_monotonic (x y b1 b2 : Nat) (hxy : x ≤ y) (hy : y < 256)
    (hb : b1 ≤ b2) (hb2 : b2 < 256) :
    brightness b1 x ≤ brightness b2 x ∧ brightness b1 x ≤ brightness b1 y := by
  rw [brightness_eq b1 x (by omega) (by omega), brightness_eq b2 x (by omega) hb2,
    brightness_eq b1 y hy (by omega)]
  constructor
  · apply Nat.div_le_div_left
    · exact Nat.div_le_div_left (by omega) (by omega)
    · exact brightness_divisor_pos b2 hb2
  · exact Nat.div_le_div_right hxy

/-- Witness for C12: brightness 10 against 100, values 90 and 200. -/
theorem C12_brightness_monotonic_witness :
    brightness 10 90 ≤ brightness 100 90 ∧ brightness 10 90 ≤ brightness 10 200 :=
  C12_brightness_monotonic 90 200 10 100 (by decide) (by decide) (by decide) (by decide)

/-- C13, counterexample: at brightness 128, below 255, the non-zero value 100 is
stored as 100, not as something strictly smaller. -/
theorem C13_counterexample :
    128 < 255 ∧ (100 : Nat) ≠ 0 ∧ brightness 128 100 = 100 ∧ ¬ brightness 128 100 < 100 := by
  decide

/-- C13, amended: full value is reached from brightness 128 on. For a non-zero byte
value `x` the stored value is strictly less than `x` exactly when the brightness is
below 128; for every brightness from 128 to 255 the divisor is 1 and the stored value
is `x`. -/
theorem C13_brightness_full_from_128 (x b : Nat) (hx0 : 0 < x) (hx : x < 256) (hb : b < 256) :
    (brightness b x < x ↔ b < 128) ∧
    (128 ≤ b → 256 / (b + 1) = 1 ∧ brightness b x = x) := by
  rw [brightness_eq b x hx hb]
  constructor
  · constructor
    · intro h
      by_contra hge
      rw [brightness_divisor_one b (by omega) hb, Nat.div_one] at h
      omega
    · intro h
      exact Nat.div_lt_self hx0 (brightness_divisor_two b h)
  · intro h
    refine ⟨brightness_divisor_one b h hb, ?_⟩
    rw [brightness_divisor_one b h hb, Nat.div_one]

/-- Witness for C13: the value 100 at brightness 200. -/
theorem C13_brightness_full_from_128_witness :
    (brightness 200 100 < 100 ↔ 200 < 128) ∧
    (128 ≤ 200 → 256 / (200 + 1) = 1 ∧ brightness 200 100 = 100) :=
  C13_brightness_full_from_128 100 200 (by decide) (by decide) (by decide)

/-- C14: with gamma correction off, `ARGB_SetRGB(i, r, g, b)` returns and stores the
brightness-scaled values into the three bytes of pixel `m = i mod NUM_PIXELS` in the
family's wire order, green, red, blue for `WS2812` and red, green, blue for the other
families; every other byte of `RGB_BUF` (the white byte of pixel `m` in `SK6812`
among them), the brightness, the transfer state and all other statics are unchanged. -/
theorem C14_SetRGB_wire_order (cfg : Config) (s : State) (i r g b : Nat)
    (hg : cfg.USE_GAMMA_CORRECTION = false) (hN : 0 < cfg.NUM_PIXELS) (hi : i < 65536)
    (hlen : s.RGB_BUF.length = NUM_BYTES cfg) :
    ∃ s1, ARGB_SetRGB cfg s i r g b = some s1 ∧
      s1.RGB_BUF[BYTES_PER_PIXEL cfg * (i % cfg.NUM_PIXELS)]? =
        some (if cfg.family = .WS2812 then brightness s.ARGB_BR g
              else brightness s.ARGB_BR r) ∧
      s1.RGB_BUF[BYTES_PER_PIXEL cfg * (i % cfg.NUM_PIXELS) + 1]? =
        some (if cfg.family = .WS2812 then brightness s.ARGB_BR r
              else brightness s.ARGB_BR g) ∧
      s1.RGB_BUF[BYTES_PER_PIXEL cfg * (i % cfg.NUM_PIXELS) + 2]? =
        some (brightness s.ARGB_BR b) ∧
      (∀ j, j ≠ BYTES_PER_PIXEL cfg * (i % cfg.NUM_PIXELS) →
        j ≠ BYTES_PER_PIXEL cfg * (i % cfg.NUM_PIXELS) + 1 →
        j ≠ BYTES_PER_PIXEL cfg * (i % cfg.NUM_PIXELS) + 2 →
        s1.RGB_BUF[j]? = s.RGB_BUF[j]?) ∧
      (cfg.family = .SK6812 →
        BYTES_PER_PIXEL cfg = 4 ∧
        s1.RGB_BUF[4 * (i % cfg.NUM_PIXELS) + 3]? = s.RGB_BUF[4 * (i % cfg.NUM_PIXELS) + 3]?) ∧
      s1.RGB_BUF.length = s.RGB_BUF.length ∧
      s1.ARGB_BR = s.ARGB_BR ∧ s1.ARGB_LOC_ST = s.ARGB_LOC_ST ∧
      s1 = { s with RGB_BUF := s1.RGB_BUF } := by
  have hm : i % cfg.NUM_PIXELS < cfg.NUM_PIXELS := Nat.mod_lt i hN
  have hw := SetRGB_wrap cfg s i r g b hN hi
  have hr := SetRGB_in_range cfg s (i % cfg.NUM_PIXELS) r g b hm hlen
  have hB := BYTES_PER_PIXEL_ge cfg
  have hk : BYTES_PER_PIXEL cfg * (i % cfg.NUM_PIXELS) + 2 < s.RGB_BUF.length := by
    rw [hlen, NUM_BYTES_eq cfg]
    have : BYTES_PER_PIXEL cfg * (i % cfg.NUM_PIXELS + 1) ≤
        BYTES_PER_PIXEL cfg * cfg.NUM_PIXELS := Nat.mul_le_mul_left _ hm
    rw [Nat.mul_add, Nat.mul_one] at this
    omega
  have hsub : subpixels cfg s.ARGB_BR r g b =
      (if cfg.family = .WS2812 then brightness s.ARGB_BR g else brightness s.ARGB_BR r,
       if cfg.family = .WS2812 then brightness s.ARGB_BR r else brightness s.ARGB_BR g,
       brightness s.ARGB_BR b) := by
    unfold subpixels
    by_cases hf : cfg.family = .WS2812 <;> simp [hf, hg]
  have hget := set_pixel_getElem? cfg s.RGB_BUF (i % cfg.NUM_PIXELS)
    (subpixels cfg s.ARGB_BR r g b) hk
  generalize hkk : BYTES_PER_PIXEL cfg * (i % cfg.NUM_PIXELS) = k at hget hk
  refine ⟨_, hw.trans hr, ?_, ?_, ?_, ?_, ?_, ?_, rfl, rfl, rfl⟩
  · show (set_pixel cfg s.RGB_BUF _ _)[k]? = _
    rw [hget k, if_pos rfl, hsub]
  · show (set_pixel cfg s.RGB_BUF _ _)[k + 1]? = _
    rw [hget (k + 1), if_neg (by omega), if_pos rfl, hsub]
  · show (set_pixel cfg s.RGB_BUF _ _)[k + 2]? = _
    rw [hget (k + 2), if_neg (by omega), if_neg (by omega), if_pos rfl, hsub]
  · intro j h0 h1 h2
    show (set_pixel cfg s.RGB_BUF _ _)[j]? = _
    rw [hget j, if_neg h0, if_neg h1, if_neg h2]
  · intro hf
    have h4 : BYTES_PER_PIXEL cfg = 4 := by simp [BYTES_PER_PIXEL, Config.isSK6812, hf]
    refine ⟨h4, ?_⟩
    show (set_pixel cfg s.RGB_BUF _ _)[4 * (i % cfg.NUM_PIXELS) + 3]? = _
    rw [h4] at hkk
    rw [hget _, if_neg (by omega), if_neg (by omega), if_neg (by omega)]
  · show (set_pixel cfg s.RGB_BUF _ _).length = _
    exact set_pixel_length _ _ _ _

/-- Witness for C14: index 7 on the 5-pixel default strip. -/
theorem C14_SetRGB_wire_order_witness :
    ∃ s1, ARGB_SetRGB cfg_default (s_ready cfg_default) 7 10 20 30 = some s1 ∧
      s1.RGB_BUF[6]? = some 20 ∧ s1.RGB_BUF[7]? = some 10 ∧ s1.RGB_BUF[8]? = some 30 ∧
      s1.ARGB_BR = 255 ∧ s1.ARGB_LOC_ST = .ARGB_READY :=
  let ⟨s1, h0, h1, h2, h3, _, _, _, h7, h8, _⟩ :=
    C14_SetRGB_wire_order cfg_default (s_ready cfg_default) 7 10 20 30 rfl (by decide)
      (by decide) (s_ready_Sized cfg_default).1
  ⟨s1, h0, h1, h2, h3, h7, h8⟩

/-- C20: `ARGB_Attach` returns `ARGB_PARAM_ERR` exactly when the timer handle is
`NULL`, the DMA handle is `NULL`, or the channel is none of `TIM_CHANNEL_1` ..
`TIM_CHANNEL_4`; otherwise it returns `ARGB_OK` and has stored the two handles, the
channel, the timer clock, and the address of the compare register and the
DMA-request selector of exactly that channel. The channel constants are distinct,
being the labels of one `switch`. -/
theorem C20_Attach_result (hal : HAL) (s : State) (htim ch hdma clk : Nat)
    (hd : [hal.TIM_CHANNEL_1, hal.TIM_CHANNEL_2, hal.TIM_CHANNEL_3, hal.TIM_CHANNEL_4].Nodup) :
    ((ARGB_Attach hal s htim ch hdma clk).1 = .ARGB_PARAM_ERR ↔
      (htim = 0 ∨ hdma = 0 ∨
        ch ∉ [hal.TIM_CHANNEL_1, hal.TIM_CHANNEL_2, hal.TIM_CHANNEL_3, hal.TIM_CHANNEL_4])) ∧
    ((ARGB_Attach hal s htim ch hdma clk).1 ≠ .ARGB_PARAM_ERR →
      (ARGB_Attach hal s htim ch hdma clk).1 = .ARGB_OK ∧
      (ARGB_Attach hal s htim ch hdma clk).2.s_htim = htim ∧
      (ARGB_Attach hal s htim ch hdma clk).2.s_hdma = hdma ∧
      (ARGB_Attach hal s htim ch hdma clk).2.s_tim_channel = ch ∧
      (ARGB_Attach hal s htim ch hdma clk).2.s_timer_clock_hz = clk ∧
      (ch = hal.TIM_CHANNEL_1 →
        (ARGB_Attach hal s htim ch hdma clk).2.s_tim_ccr = .CCR1 (s.hw.tim htim).Instance ∧
        (ARGB_Attach hal s htim ch hdma clk).2.s_tim_dma_cc = hal.TIM_DMA_CC1) ∧
      (ch = hal.TIM_CHANNEL_2 →
        (ARGB_Attach hal s htim ch hdma clk).2.s_tim_ccr = .CCR2 (s.hw.tim htim).Instance ∧
        (ARGB_Attach hal s htim ch hdma clk).2.s_tim_dma_cc = hal.TIM_DMA_CC2) ∧
      (ch = hal.TIM_CHANNEL_3 →
        (ARGB_Attach hal s htim ch hdma clk).2.s_tim_ccr = .CCR3 (s.hw.tim htim).Instance ∧
        (ARGB_Attach hal s htim ch hdma clk).2.s_tim_dma_cc = hal.TIM_DMA_CC3) ∧
      (ch = hal.TIM_CHANNEL_4 →
        (ARGB_Attach hal s htim ch hdma clk).2.s_tim_ccr = .CCR4 (s.hw.tim htim).Instance ∧
        (ARGB_Attach hal s htim ch hdma clk).2.s_tim_dma_cc = hal.TIM_DMA_CC4)) := by
  simp only [List.nodup_cons, List.mem_cons, List.mem_singleton, List.not_mem_nil,
    not_or, List.nodup_nil, not_false_eq_true, and_true, or_false] at hd ⊢
  obtain ⟨⟨h12, h13, h14⟩, ⟨h23, h24⟩, h34⟩ := hd
  unfold ARGB_Attach
  by_cases hnull : htim = 0 ∨ hdma = 0
  · rw [if_pos hnull]
    constructor
    · constructor
      · intro _
        rcases hnull with h | h
        · exact Or.inl h
        · exact Or.inr (Or.inl h)
      · intro _
        rfl
    · intro h
      exact absurd rfl h
  · rw [if_neg hnull]
    have hn1 : htim ≠ 0 := fun h => hnull (Or.inl h)
    have hn2 : hdma ≠ 0 := fun h => hnull (Or.inr h)
    by_cases c1 : ch = hal.TIM_CHANNEL_1
    · subst c1
      simp [hn1, hn2, h12, h13, h14]
    · by_cases c2 : ch = hal.TIM_CHANNEL_2
      · subst c2
        simp [hn1, hn2, c1, h23, h24, Ne.symm h12]
      · by_cases c3 : ch = hal.TIM_CHANNEL_3
        · subst c3
          simp [hn1, hn2, c1, c2, h34, Ne.symm h13, Ne.symm h23]
        · by_cases c4 : ch = hal.TIM_CHANNEL_4
          · subst c4
            simp [hn1, hn2, c1, c2, c3, Ne.symm h14, Ne.symm h24, Ne.symm h34]
          · simp [hn1, hn2, c1, c2, c3, c4]

/-- Witness for C20: the example HAL, attaching on `TIM_CHANNEL_2`. -/
theorem C20_Attach_result_witness :
    (ARGB_Attach hal_f4 (State.initial cfg_default hw_example) 1 0x4 2 84000000).1 = .ARGB_OK ∧
    (ARGB_Attach hal_f4 (State.initial cfg_default hw_example) 1 0x4 2 84000000).2.s_tim_ccr =
      .CCR2 0x40000000 ∧
    (ARGB_Attach hal_f4 (State.initial cfg_default hw_example) 1 0x4 2 84000000).2.s_tim_dma_cc =
      0x400 :=
  have h := (C20_Attach_result hal_f4 (State.initial cfg_default hw_example) 1 0x4 2 84000000
    (by decide)).2 (by decide)
  ⟨h.1, h.2.2.2.2.2.2.1 rfl⟩

/-! ## Lemmas: the scans of `ARGB_AnalyzePin` -/

/-- The configuration the PWM scan leaves at `break`, from the row `e`. -/
theorem pwm_scan_match (core : Core) (hal : HAL) (pn fuel : Nat) (e : PinMap)
    (rest : List PinMap) (cfg : ARGB_PinConfig_t)
    (hnc : e.pin ≠ core.NC) (hpin : e.pin = pn)
    (hv : channel_valid (core.STM_PIN_CHANNEL e.function)) :
    AnalyzePin_pwm_scan core hal pn (fuel + 1) (e :: rest) cfg =
      some { cfg with tim := e.peripheral, tim_af := core.STM_PIN_AFNUM e.function,
                      tim_channel := (channel_consts hal (core.STM_PIN_CHANNEL e.function)).1,
                      tim_dma_cc := (channel_consts hal (core.STM_PIN_CHANNEL e.function)).2 } := by
  unfold channel_valid at hv
  rw [AnalyzePin_pwm_scan, if_pos hnc, if_pos hpin]
  unfold channel_consts
  rcases hv with h | h | h | h <;> simp [h]

/-- A row for the pin whose channel number is not 1..4 holds the scan for ever:
`continue` re-enters the loop without `map++`, so no fuel is enough. -/
theorem pwm_scan_stuck (core : Core) (hal : HAL) (pn : Nat) (e : PinMap) (rest : List PinMap)
    (hnc : e.pin ≠ core.NC) (hpin : e.pin = pn)
    (hv : ¬ channel_valid (core.STM_PIN_CHANNEL e.function)) :
    ∀ (fuel : Nat) (cfg : ARGB_PinConfig_t),
      AnalyzePin_pwm_scan core hal pn fuel (e :: rest) cfg = none := by
  unfold channel_valid at hv
  simp only [not_or] at hv
  obtain ⟨h1, h2, h3, h4⟩ := hv
  intro fuel
  induction fuel with
  | zero => intro cfg; rfl
  | succ n ih =>
    intro cfg
    rw [AnalyzePin_pwm_scan, if_pos hnc, if_pos hpin]
    simp only [h1, h2, h3, h4, if_false]
    exact ih _

/-- Rows that are neither the sentinel nor for the pin are passed over, one unit of
fuel each. -/
theorem pwm_scan_skip (core : Core) (hal : HAL) (pn : Nat) :
    ∀ (pre rest : List PinMap) (fuel : Nat) (cfg : ARGB_PinConfig_t),
      (∀ x ∈ pre, x.pin ≠ core.NC ∧ x.pin ≠ pn) →
      AnalyzePin_pwm_scan core hal pn (fuel + pre.length) (pre ++ rest) cfg =
        AnalyzePin_pwm_scan core hal pn fuel rest cfg := by
  intro pre
  induction pre with
  | nil => intro rest fuel cfg _; rfl
  | cons x pre ih =>
    intro rest fuel cfg h
    have hx := h x (List.mem_cons_self _ _)
    have e1 : fuel + (x :: pre).length = (fuel + pre.length) + 1 := by
      simp [List.length_cons]; omega
    rw [e1, List.cons_append, AnalyzePin_pwm_scan, if_pos hx.1, if_neg hx.2]
    exact ih rest fuel cfg (fun y hy => h y (List.mem_cons_of_mem _ hy))

/-- The scan ends at the sentinel with the configuration untouched. -/
theorem pwm_scan_sentinel (core : Core) (hal : HAL) (pn fuel : Nat) (e : PinMap)
    (rest : List PinMap) (cfg : ARGB_PinConfig_t) (hnc : e.pin = core.NC) :
    AnalyzePin_pwm_scan core hal pn (fuel + 1) (e :: rest) cfg = some cfg := by
  rw [AnalyzePin_pwm_scan, if_neg (by simpa using hnc)]

/-- A sentinel-terminated table without a row for the pin: the scan returns with the
configuration untouched whenever the fuel exceeds the table length. -/
theorem pwm_scan_absent (core : Core) (hal : HAL) (pn : Nat) :
    ∀ (tbl : List PinMap) (fuel : Nat) (cfg : ARGB_PinConfig_t),
      (∃ e ∈ tbl, e.pin = core.NC) → (∀ e ∈ tbl, e.pin ≠ pn) → tbl.length ≤ fuel →
      AnalyzePin_pwm_scan core hal pn fuel tbl cfg = some cfg := by
  intro tbl
  induction tbl with
  | nil =>
    intro fuel cfg h _ _
    obtain ⟨e, he, _⟩ := h
    cases he
  | cons x tbl ih =>
    intro fuel cfg hs ha hf
    obtain ⟨f, rfl⟩ : ∃ f, fuel = f + 1 := ⟨fuel - 1, by simp at hf; omega⟩
    by_cases hx : x.pin = core.NC
    · exact pwm_scan_sentinel core hal pn f x tbl cfg hx
    · rw [AnalyzePin_pwm_scan, if_pos hx, if_neg (ha x (List.mem_cons_self _ _))]
      apply ih
      · obtain ⟨e, he, hnc⟩ := hs
        rcases List.mem_cons.mp he with h | h
        · subst h; exact absurd hnc hx
        · exact ⟨e, h, hnc⟩
      · exact fun e he => ha e (List.mem_cons_of_mem _ he)
      · simp at hf; omega

/-- A scan that returned either ended at a sentinel, leaving the configuration
untouched, or left at the first row for the pin, whose channel number is 1..4. -/
theorem pwm_scan_inv (core : Core) (hal : HAL) (pn : Nat) :
    ∀ (tbl : List PinMap) (fuel : Nat) (cfg cfg1 : ARGB_PinConfig_t),
      AnalyzePin_pwm_scan core hal pn fuel tbl cfg = some cfg1 →
      cfg1 = cfg ∨
      ∃ e, tbl.find? (fun x => decide (x.pin = pn)) = some e ∧
        channel_valid (core.STM_PIN_CHANNEL e.function) ∧
        cfg1 = { cfg with tim := e.peripheral, tim_af := core.STM_PIN_AFNUM e.function,
                          tim_channel := (channel_consts hal (core.STM_PIN_CHANNEL e.function)).1,
                          tim_dma_cc := (channel_consts hal (core.STM_PIN_CHANNEL e.function)).2 } := by
  intro tbl
  induction tbl with
  | nil =>
    intro fuel cfg cfg1 h
    cases fuel <;> simp [AnalyzePin_pwm_scan] at h
  | cons x tbl ih =>
    intro fuel cfg cfg1 h
    cases fuel with
    | zero => simp [AnalyzePin_pwm_scan] at h
    | succ f =>
      by_cases hx : x.pin = core.NC
      · rw [pwm_scan_sentinel core hal pn f x tbl cfg hx] at h
        cases h
        exact Or.inl rfl
      · by_cases hp : x.pin = pn
        · by_cases hv : channel_valid (core.STM_PIN_CHANNEL x.function)
          · rw [pwm_scan_match core hal pn f x tbl cfg hx hp hv] at h
            cases h
            exact Or.inr ⟨x, List.find?_cons_of_pos _ (by simpa using hp), hv, rfl⟩
          · rw [pwm_scan_stuck core hal pn x tbl hx hp hv] at h
            cases h
        · rw [AnalyzePin_pwm_scan, if_pos hx, if_neg hp] at h
          rcases ih f cfg cfg1 h with h1 | ⟨e, he, hv, hc⟩
          · exact Or.inl h1
          · exact Or.inr ⟨e, by rw [List.find?_cons_of_neg _ (by simpa using hp)]; exact he, hv, hc⟩

/-- A table with a sentinel and no row for the pair: the DMA scan ends with
`ARGB_DMA_NO_DMA`, the configuration untouched. -/
theorem dma_scan_absent :
    ∀ (tbl : List ARGB_DMA_Map_t) (cfg : ARGB_PinConfig_t),
      (∃ d ∈ tbl, d.tim = 0) →
      (∀ d ∈ tbl, d.tim ≠ 0 → ¬ (d.tim = cfg.tim ∧ d.channel = cfg.tim_channel)) →
      AnalyzePin_dma_scan tbl cfg = some (.ARGB_DMA_NO_DMA, cfg) := by
  intro tbl
  induction tbl with
  | nil =>
    intro cfg h _
    obtain ⟨d, hd, _⟩ := h
    cases hd
  | cons x tbl ih =>
    intro cfg hs ha
    by_cases hx : x.tim = 0
    · simp [AnalyzePin_dma_scan, hx]
    · rw [AnalyzePin_dma_scan, if_pos hx, if_neg (ha x (List.mem_cons_self _ _) hx)]
      apply ih
      · obtain ⟨d, hd, h0⟩ := hs
        rcases List.mem_cons.mp hd with h | h
        · subst h; exact absurd h0 hx
        · exact ⟨d, h, h0⟩
      · exact fun d hd => ha d (List.mem_cons_of_mem _ hd)

/-- A DMA scan that returned `ARGB_DMA_OK` took the stream, request line and
interrupt of the first row of the table for the pair (timer, channel). -/
theorem dma_scan_inv :
    ∀ (tbl : List ARGB_DMA_Map_t) (cfg cfg1 : ARGB_PinConfig_t),
      AnalyzePin_dma_scan tbl cfg = some (.ARGB_DMA_OK, cfg1) →
      ∃ d, tbl.find? (fun d => decide (d.tim = cfg.tim ∧ d.channel = cfg.tim_channel)) = some d ∧
        cfg1 = { cfg with dma_stream := d.stream, dma_channel := d.dma_ch,
                          dma_irqn := d.irqn } := by
  intro tbl
  induction tbl with
  | nil =>
    intro cfg cfg1 h
    simp [AnalyzePin_dma_scan] at h
  | cons x tbl ih =>
    intro cfg cfg1 h
    by_cases hx : x.tim = 0
    · simp [AnalyzePin_dma_scan, hx] at h
    · by_cases hm : x.tim = cfg.tim ∧ x.channel = cfg.tim_channel
      · rw [AnalyzePin_dma_scan, if_pos hx, if_pos hm] at h
        simp only [Option.some.injEq, Prod.mk.injEq, true_and] at h
        exact ⟨x, List.find?_cons_of_pos _ (by simpa using hm), h.symm⟩
      · rw [AnalyzePin_dma_scan, if_pos hx, if_neg hm] at h
        obtain ⟨d, hd, hc⟩ := ih cfg cfg1 h
        exact ⟨d, by rw [List.find?_cons_of_neg _ (by simpa using hm)]; exact hd, hc⟩

/-- The DMA scan only ever answers `ARGB_DMA_OK` or `ARGB_DMA_NO_DMA`. -/
theorem dma_scan_result :
    ∀ (tbl : List ARGB_DMA_Map_t) (cfg : ARGB_PinConfig_t) (r : ARGB_DMA_Result_t)
      (cfg1 : ARGB_PinConfig_t),
      AnalyzePin_dma_scan tbl cfg = some (r, cfg1) →
      r = .ARGB_DMA_OK ∨ r = .ARGB_DMA_NO_DMA := by
  intro tbl
  induction tbl with
  | nil =>
    intro cfg r cfg1 h
    simp [AnalyzePin_dma_scan] at h
  | cons x tbl ih =>
    intro cfg r cfg1 h
    by_cases hx : x.tim = 0
    · simp [AnalyzePin_dma_scan, hx] at h
      exact Or.inr h.1.symm
    · by_cases hm : x.tim = cfg.tim ∧ x.channel = cfg.tim_channel
      · rw [AnalyzePin_dma_scan, if_pos hx, if_pos hm] at h
        simp only [Option.some.injEq, Prod.mk.injEq] at h
        exact Or.inl h.1.symm
      · rw [AnalyzePin_dma_scan, if_pos hx, if_neg hm] at h
        exact ih cfg r cfg1 h

theorem DMA_MAP_has_sentinel (core : Core) (hal : HAL) :
    ∃ d ∈ ARGB_DMA_MAP core hal, d.tim = 0 :=
  ⟨DMA_MAP_sentinel, by simp [ARGB_DMA_MAP], rfl⟩

/-! ## Lemmas: `ARGB_AnalyzePin` as a whole -/

/-- For a pin that translates to a port, `ARGB_AnalyzePin` is the PWM scan from the
start configuration followed by the rest of the function. -/
theorem AnalyzePin_valid_pin (core : Core) (hal : HAL) (fuel pin : Nat) (c0 : ARGB_PinConfig_t)
    (hpn : core.digitalPinToPinName pin ≠ core.NC)
    (hport : core.get_GPIO_Port (core.STM_PORT (core.digitalPinToPinName pin)) ≠ 0) :
    ARGB_AnalyzePin core hal fuel pin (some c0) =
      (AnalyzePin_pwm_scan core hal (core.digitalPinToPinName pin) fuel core.PinMap_PWM
        (AnalyzePin_start core pin)).bind (AnalyzePin_finish core hal) := by
  unfold ARGB_AnalyzePin AnalyzePin_start
  simp only [if_neg hpn]
  rw [if_neg hport]

/-- The rest of the function for a configuration with a timer: the counter width flag
is 1 exactly for `TIM2` and `TIM5`, then the DMA scan runs. -/
theorem AnalyzePin_finish_timer (core : Core) (hal : HAL) (cfg : ARGB_PinConfig_t)
    (ht : cfg.tim ≠ 0) :
    AnalyzePin_finish core hal cfg =
      if core.STM32F4xx then
        (AnalyzePin_dma_scan (ARGB_DMA_MAP core hal)
          { cfg with is_32bit_tim :=
              if core.TIM2 = some cfg.tim ∨ core.TIM5 = some cfg.tim then 1
              else cfg.is_32bit_tim }).map fun rc => (rc.1, some rc.2)
      else some (.ARGB_DMA_NO_DMA, some
          { cfg with is_32bit_tim :=
              if core.TIM2 = some cfg.tim ∨ core.TIM5 = some cfg.tim then 1
              else cfg.is_32bit_tim }) := by
  unfold AnalyzePin_finish
  rw [if_neg ht]
  by_cases h2 : core.TIM2 = some cfg.tim <;> by_cases h5 : core.TIM5 = some cfg.tim <;>
    simp [h2, h5]

/-- C16: for a pin id that translates to a pin name with a GPIO port, when the
sentinel-terminated PWM table has no row for that pin name, `ARGB_AnalyzePin`
returns `ARGB_DMA_NO_PWM` (for every fuel that covers the table), and the
configuration is left zeroed but for the GPIO port and pin. -/
theorem C16_no_pwm (core : Core) (hal : HAL) (fuel pin : Nat) (c0 : ARGB_PinConfig_t)
    (hpn : core.digitalPinToPinName pin ≠ core.NC)
    (hport : core.get_GPIO_Port (core.STM_PORT (core.digitalPinToPinName pin)) ≠ 0)
    (hterm : ∃ e ∈ core.PinMap_PWM, e.pin = core.NC)
    (habs : ∀ e ∈ core.PinMap_PWM, e.pin ≠ core.digitalPinToPinName pin)
    (hfuel : core.PinMap_PWM.length ≤ fuel) :
    ARGB_AnalyzePin core hal fuel pin (some c0) =
      some (.ARGB_DMA_NO_PWM, some (AnalyzePin_start core pin)) := by
  rw [AnalyzePin_valid_pin core hal fuel pin c0 hpn hport,
    pwm_scan_absent core hal _ core.PinMap_PWM fuel _ hterm habs hfuel]
  rfl

/-- Witness for C16: pin `PA_3` of the example core has no PWM row. -/
theorem C16_no_pwm_witness :
    ARGB_AnalyzePin core_f4 hal_f4 8 3 (some ARGB_PinConfig_t.zero) =
      some (.ARGB_DMA_NO_PWM, some (AnalyzePin_start core_f4 3)) :=
  C16_no_pwm core_f4 hal_f4 8 3 ARGB_PinConfig_t.zero (by decide) (by decide) (by decide)
    (by decide) (by decide)

/-! ## Lemmas: the rows of `ARGB_DMA_MAP` -/

/-- Every row of the table is the sentinel or belongs to the block of a defined
timer, whose address it carries. -/
theorem DMA_MAP_mem (core : Core) (hal : HAL) (d : ARGB_DMA_Map_t)
    (hd : d ∈ ARGB_DMA_MAP core hal) :
    d = DMA_MAP_sentinel ∨
    (core.TIM1 = some d.tim ∧ d ∈ DMA_MAP_TIM1 core hal d.tim) ∨
    (core.TIM2 = some d.tim ∧ d ∈ DMA_MAP_TIM2 core hal d.tim) ∨
    (core.TIM3 = some d.tim ∧ d ∈ DMA_MAP_TIM3 core hal d.tim) ∨
    (core.TIM4 = some d.tim ∧ d ∈ DMA_MAP_TIM4 core hal d.tim) ∨
    (core.TIM5 = some d.tim ∧ d ∈ DMA_MAP_TIM5 core hal d.tim) := by
  unfold ARGB_DMA_MAP at hd
  simp only [List.mem_append, List.mem_singleton] at hd
  rcases hd with ((((h | h) | h) | h) | h) | h
  · right; left
    cases hT : core.TIM1 with
    | none => simp [hT, DMA_MAP_block] at h
    | some t =>
      simp only [hT, DMA_MAP_block, DMA_MAP_TIM1, List.mem_cons, List.mem_singleton,
        List.not_mem_nil, or_false] at h
      rcases h with h | h | h | h | h <;> subst h <;> simp [DMA_MAP_TIM1]
  · right; right; left
    cases hT : core.TIM2 with
    | none => simp [hT, DMA_MAP_block] at h
    | some t =>
      simp only [hT, DMA_MAP_block, DMA_MAP_TIM2, List.mem_cons, List.mem_singleton,
        List.not_mem_nil, or_false] at h
      rcases h with h | h | h | h | h <;> subst h <;> simp [DMA_MAP_TIM2]
  · right; right; right; left
    cases hT : core.TIM3 with
    | none => simp [hT, DMA_MAP_block] at h
    | some t =>
      simp only [hT, DMA_MAP_block, DMA_MAP_TIM3, List.mem_cons, List.mem_singleton,
        List.not_mem_nil, or_false] at h
      rcases h with h | h | h | h <;> subst h <;> simp [DMA_MAP_TIM3]
  · right; right; right; right; left
    cases hT : core.TIM4 with
    | none => simp [hT, DMA_MAP_block] at h
    | some t =>
      simp only [hT, DMA_MAP_block, DMA_MAP_TIM4, List.mem_cons, List.mem_singleton,
        List.not_mem_nil, or_false] at h
      rcases h with h | h | h <;> subst h <;> simp [DMA_MAP_TIM4]
  · right; right; right; right; right
    cases hT : core.TIM5 with
    | none => simp [hT, DMA_MAP_block] at h
    | some t =>
      simp only [hT, DMA_MAP_block, DMA_MAP_TIM5, List.mem_cons, List.mem_singleton,
        List.not_mem_nil, or_false] at h
      rcases h with h | h | h | h | h <;> subst h <;> simp [DMA_MAP_TIM5]
  · exact Or.inl h

/-- A timer that is none of `TIM1` .. `TIM5` has no row. -/
theorem DMA_MAP_other_timer (core : Core) (hal : HAL) (t : Ptr)
    (ht : some t ∉ core.timers) (d : ARGB_DMA_Map_t) (hd : d ∈ ARGB_DMA_MAP core hal)
    (h0 : d.tim ≠ 0) : d.tim ≠ t := by
  intro heq
  simp only [Core.timers, List.mem_cons, List.mem_singleton, List.not_mem_nil, or_false,
    not_or] at ht
  obtain ⟨n1, n2, n3, n4, n5⟩ := ht
  rcases DMA_MAP_mem core hal d hd with h | h | h | h | h | h
  · subst h; exact h0 rfl
  · exact n1 (by rw [← heq]; exact h.1.symm)
  · exact n2 (by rw [← heq]; exact h.1.symm)
  · exact n3 (by rw [← heq]; exact h.1.symm)
  · exact n4 (by rw [← heq]; exact h.1.symm)
  · exact n5 (by rw [← heq]; exact h.1.symm)

/-- With distinct timers and channel constants, `TIM4` has no row for channel 4. -/
theorem DMA_MAP_TIM4_CH4 (core : Core) (hal : HAL) (t : Ptr) (hdis : core.Distinct hal)
    (h4 : core.TIM4 = some t) (d : ARGB_DMA_Map_t) (hd : d ∈ ARGB_DMA_MAP core hal)
    (h0 : d.tim ≠ 0) : ¬ (d.tim = t ∧ d.channel = hal.TIM_CHANNEL_4) := by
  rintro ⟨ht, hc⟩
  obtain ⟨hch, htim, _⟩ := hdis
  simp only [List.nodup_cons, List.mem_cons, List.mem_singleton, List.not_mem_nil,
    not_or, List.nodup_nil, not_false_eq_true, and_true, or_false] at hch
  obtain ⟨⟨_, _, h14⟩, ⟨_, h24⟩, h34⟩ := hch
  simp only [Core.timers, List.pairwise_cons, List.mem_cons, List.mem_singleton,
    List.not_mem_nil, or_false, forall_eq_or_imp, forall_eq, List.Pairwise.nil,
    and_true, IsEmpty.forall_iff, implies_true] at htim
  obtain ⟨⟨_, _, p14, _⟩, ⟨_, p24, _⟩, ⟨p34, _⟩, p45⟩ := htim
  rw [h4] at p14 p24 p34 p45
  rcases DMA_MAP_mem core hal d hd with h | h | h | h | h | h
  · subst h; exact h0 rfl
  · rw [ht] at h
    rcases p14 with p | p
    · rw [p] at h; cases h.1
    · exact p h.1
  · rw [ht] at h
    rcases p24 with p | p
    · rw [p] at h; cases h.1
    · exact p h.1
  · rw [ht] at h
    rcases p34 with p | p
    · rw [p] at h; cases h.1
    · exact p h.1
  · have hm := h.2
    simp only [DMA_MAP_TIM4, List.mem_cons, List.mem_singleton, List.not_mem_nil,
      or_false] at hm
    rcases hm with hm | hm | hm
    · rw [hm] at hc; exact h14 hc
    · rw [hm] at hc; exact h24 hc
    · rw [hm] at hc; exact h34 hc
  · rw [ht] at h
    rcases p45 with p | p
    · cases p
    · exact p h.1.symm

/-- When the first row for the pin comes before any sentinel and carries a channel
number in 1..4 and a timer, `ARGB_AnalyzePin` is the DMA scan from the configuration
of that row (or `ARGB_DMA_NO_DMA` outright when `STM32F4xx` is not defined). -/
theorem AnalyzePin_first_row (core : Core) (hal : HAL) (fuel pin : Nat)
    (c0 : ARGB_PinConfig_t) (pre post : List PinMap) (e : PinMap)
    (hpn : core.digitalPinToPinName pin ≠ core.NC)
    (hport : core.get_GPIO_Port (core.STM_PORT (core.digitalPinToPinName pin)) ≠ 0)
    (hsplit : core.PinMap_PWM = pre ++ e :: post)
    (hpre : ∀ x ∈ pre, x.pin ≠ core.NC ∧ x.pin ≠ core.digitalPinToPinName pin)
    (he : e.pin = core.digitalPinToPinName pin)
    (hv : channel_valid (core.STM_PIN_CHANNEL e.function))
    (ht : e.peripheral ≠ 0) (hfuel : pre.length < fuel) :
    ARGB_AnalyzePin core hal fuel pin (some c0) =
      if core.STM32F4xx then
        (AnalyzePin_dma_scan (ARGB_DMA_MAP core hal) (AnalyzePin_timer core hal pin e)).map
          fun rc => (rc.1, some rc.2)
      else some (.ARGB_DMA_NO_DMA, some (AnalyzePin_timer core hal pin e)) := by
  obtain ⟨f, rfl⟩ : ∃ f, fuel = (f + 1) + pre.length := ⟨fuel - pre.length - 1, by omega⟩
  have hnc : e.pin ≠ core.NC := by rw [he]; exact hpn
  rw [AnalyzePin_valid_pin core hal _ pin c0 hpn hport, hsplit,
    pwm_scan_skip core hal _ pre (e :: post) (f + 1) _ hpre,
    pwm_scan_match core hal _ f e post _ hnc he hv, Option.some_bind,
    AnalyzePin_finish_timer core hal _ ht]
  rfl

/-- C17: when the first row of the PWM table for the pin carries a channel number in
1..4 and a timer, and the pair (timer, channel) has no row in `ARGB_DMA_MAP` (as for
`TIM4` channel 4, or for any timer that is none of `TIM1` .. `TIM5`),
`ARGB_AnalyzePin` returns `ARGB_DMA_NO_DMA`, for every fuel that reaches that row. -/
theorem C17_no_dma (core : Core) (hal : HAL) (fuel pin : Nat)
    (c0 : ARGB_PinConfig_t) (pre post : List PinMap) (e : PinMap)
    (hpn : core.digitalPinToPinName pin ≠ core.NC)
    (hport : core.get_GPIO_Port (core.STM_PORT (core.digitalPinToPinName pin)) ≠ 0)
    (hsplit : core.PinMap_PWM = pre ++ e :: post)
    (hpre : ∀ x ∈ pre, x.pin ≠ core.NC ∧ x.pin ≠ core.digitalPinToPinName pin)
    (he : e.pin = core.digitalPinToPinName pin)
    (hv : channel_valid (core.STM_PIN_CHANNEL e.function))
    (ht : e.peripheral ≠ 0)
    (hno : ¬ DMA_mapped core hal e.peripheral
              (channel_consts hal (core.STM_PIN_CHANNEL e.function)).1 ∨
           (core.Distinct hal ∧ core.TIM4 = some e.peripheral ∧
              core.STM_PIN_CHANNEL e.function = 4) ∨
           some e.peripheral ∉ core.timers)
    (hfuel : pre.length < fuel) :
    ARGB_AnalyzePin core hal fuel pin (some c0) =
      some (.ARGB_DMA_NO_DMA, some (AnalyzePin_timer core hal pin e)) := by
  rw [AnalyzePin_first_row core hal fuel pin c0 pre post e hpn hport hsplit hpre he hv ht hfuel]
  by_cases hF : core.STM32F4xx = true
  · rw [if_pos hF, dma_scan_absent _ _ (DMA_MAP_has_sentinel core hal)]
    · rfl
    · intro d hd h0
      show ¬ (d.tim = e.peripheral ∧
        d.channel = (channel_consts hal (core.STM_PIN_CHANNEL e.function)).1)
      rcases hno with h | ⟨hdis, h4, hc⟩ | h
      · exact fun hm => h ⟨d, hd, hm⟩
      · rw [hc]
        exact DMA_MAP_TIM4_CH4 core hal e.peripheral hdis h4 d hd h0
      · exact fun hm => DMA_MAP_other_timer core hal e.peripheral h d hd h0 hm.1
  · rw [if_neg hF]

/-- Witness for C17: pin `PB_9` of the example core is on `TIM4` channel 4. -/
theorem C17_no_dma_witness :
    ARGB_AnalyzePin core_f4 hal_f4 8 25 (some ARGB_PinConfig_t.zero) =
      some (.ARGB_DMA_NO_DMA,
        some (AnalyzePin_timer core_f4 hal_f4 25 ⟨25, 0x40000800, pwm_function 2 4⟩)) :=
  C17_no_dma core_f4 hal_f4 8 25 ARGB_PinConfig_t.zero
    [ ⟨0, 0x40000000, pwm_function 1 1⟩, ⟨1, 0x40000000, pwm_function 1 2⟩,
      ⟨2, 0x40000000, pwm_function 1 3⟩, ⟨2, 0x40000C00, pwm_function 2 3⟩,
      ⟨8, 0x40010000, pwm_function 1 1⟩, ⟨19, 0x40000000, pwm_function 1 4⟩ ]
    [⟨0xFFFFFFFF, 0, 0⟩] ⟨25, 0x40000800, pwm_function 2 4⟩
    (by decide) (by decide) rfl (by decide) rfl (by unfold channel_valid; decide) (by decide)
    (Or.inr (Or.inl ⟨by unfold Core.Distinct; decide, rfl, by decide⟩)) (by decide)

/-! ## Lemmas: first match in `ARGB_DMA_MAP` -/

theorem find?_append_of_none {α : Type} (p : α → Bool) (xs ys : List α)
    (h : ∀ x ∈ xs, p x = false) : (xs ++ ys).find? p = ys.find? p := by
  induction xs with
  | nil => rfl
  | cons x xs ih =>
    have hx := h x (List.mem_cons_self _ _)
    rw [List.cons_append, List.find?_cons_of_neg _ (by simp [hx])]
    exact ih (fun y hy => h y (List.mem_cons_of_mem _ hy))

/-- The block of a timer macro that is not the timer `t` holds no row for `t`. -/
theorem DMA_MAP_block_other (rows : Ptr → List ARGB_DMA_Map_t) (T : Option Ptr) (t ch : Nat)
    (hrows : ∀ u, ∀ d ∈ rows u, d.tim = u) (hT : T ≠ some t) :
    ∀ d ∈ DMA_MAP_block rows T, decide (d.tim = t ∧ d.channel = ch) = false := by
  intro d hd
  cases T with
  | none => simp [DMA_MAP_block] at hd
  | some u =>
    have hu : d.tim = u := hrows u d hd
    have : u ≠ t := fun h => hT (by rw [h])
    simp [hu, this]

theorem DMA_MAP_TIM1_tim (core : Core) (hal : HAL) :
    ∀ u, ∀ d ∈ DMA_MAP_TIM1 core hal u, d.tim = u := by
  intro u d hd
  simp only [DMA_MAP_TIM1, List.mem_cons, List.mem_singleton, List.not_mem_nil, or_false] at hd
  rcases hd with h | h | h | h | h <;> rw [h]

theorem DMA_MAP_TIM2_tim (core : Core) (hal : HAL) :
    ∀ u, ∀ d ∈ DMA_MAP_TIM2 core hal u, d.tim = u := by
  intro u d hd
  simp only [DMA_MAP_TIM2, List.mem_cons, List.mem_singleton, List.not_mem_nil, or_false] at hd
  rcases hd with h | h | h | h | h <;> rw [h]

theorem DMA_MAP_TIM3_tim (core : Core) (hal : HAL) :
    ∀ u, ∀ d ∈ DMA_MAP_TIM3 core hal u, d.tim = u := by
  intro u d hd
  simp only [DMA_MAP_TIM3, List.mem_cons, List.mem_singleton, List.not_mem_nil, or_false] at hd
  rcases hd with h | h | h | h <;> rw [h]

theorem DMA_MAP_TIM4_tim (core : Core) (hal : HAL) :
    ∀ u, ∀ d ∈ DMA_MAP_TIM4 core hal u, d.tim = u := by
  intro u d hd
  simp only [DMA_MAP_TIM4, List.mem_cons, List.mem_singleton, List.not_mem_nil, or_false] at hd
  rcases hd with h | h | h <;> rw [h]

/-- The timers are pairwise distinct: what `Core.Distinct` says, pair by pair. -/
theorem Distinct_pairs (core : Core) (hal : HAL) (hdis : core.Distinct hal) (t : Ptr) :
    (core.TIM2 = some t → core.TIM1 ≠ some t) ∧
    (core.TIM5 = some t → core.TIM1 ≠ some t ∧ core.TIM2 ≠ some t ∧ core.TIM3 ≠ some t ∧
      core.TIM4 ≠ some t) := by
  obtain ⟨_, htim, _⟩ := hdis
  simp only [Core.timers, List.pairwise_cons, List.mem_cons, List.mem_singleton,
    List.not_mem_nil, or_false, forall_eq_or_imp, forall_eq, List.Pairwise.nil,
    and_true, IsEmpty.forall_iff, implies_true] at htim
  obtain ⟨⟨p12, _, _, p15⟩, ⟨_, _, p25⟩, ⟨_, p35⟩, p45⟩ := htim
  refine ⟨?_, ?_⟩
  · intro h2 h1
    rw [h2] at p12
    rcases p12 with p | p
    · rw [p] at h1; cases h1
    · exact p h1
  · intro h5
    rw [h5] at p15 p25 p35 p45
    refine ⟨?_, ?_, ?_, ?_⟩
    · intro h
      rcases p15 with p | p
      · rw [p] at h; cases h
      · exact p h
    · intro h
      rcases p25 with p | p
      · rw [p] at h; cases h
      · exact p h
    · intro h
      rcases p35 with p | p
      · rw [p] at h; cases h
      · exact p h
    · intro h
      rcases p45 with p | p
      · rw [p] at h; cases h
      · exact p h

/-- The first row of the table for `TIM1` channel 1 is the `DMA2_Stream1` row. -/
theorem DMA_MAP_first_TIM1_CH1 (core : Core) (hal : HAL) (t : Ptr) (h1 : core.TIM1 = some t) :
    (ARGB_DMA_MAP core hal).find?
        (fun d => decide (d.tim = t ∧ d.channel = hal.TIM_CHANNEL_1)) =
      some ⟨t, hal.TIM_CHANNEL_1, .DMA2, .DMA2_Stream 1, core.DMA_CHANNEL_6,
        .DMA2_Stream_IRQn 1⟩ := by
  simp [ARGB_DMA_MAP, DMA_MAP_block, h1, DMA_MAP_TIM1, List.find?]

/-- The first row of the table for `TIM2` channel 4 is the `DMA1_Stream6` row. -/
theorem DMA_MAP_first_TIM2_CH4 (core : Core) (hal : HAL) (t : Ptr) (hdis : core.Distinct hal)
    (h2 : core.TIM2 = some t) :
    (ARGB_DMA_MAP core hal).find?
        (fun d => decide (d.tim = t ∧ d.channel = hal.TIM_CHANNEL_4)) =
      some ⟨t, hal.TIM_CHANNEL_4, .DMA1, .DMA1_Stream 6, core.DMA_CHANNEL_3,
        .DMA1_Stream_IRQn 6⟩ := by
  have hp := (Distinct_pairs core hal hdis t).1 h2
  obtain ⟨hch, _, _⟩ := hdis
  simp only [List.nodup_cons, List.mem_cons, List.mem_singleton, List.not_mem_nil,
    not_or, List.nodup_nil, not_false_eq_true, and_true, or_false] at hch
  obtain ⟨⟨_, _, h14⟩, ⟨_, h24⟩, h34⟩ := hch
  unfold ARGB_DMA_MAP
  simp only [List.append_assoc]
  rw [find?_append_of_none _ _ _
    (DMA_MAP_block_other _ core.TIM1 t _ (DMA_MAP_TIM1_tim core hal) hp)]
  simp [DMA_MAP_block, h2, DMA_MAP_TIM2, List.find?, h14, h24, h34]

/-- The first row of the table for `TIM5` channel 4 is the `DMA1_Stream1` row. -/
theorem DMA_MAP_first_TIM5_CH4 (core : Core) (hal : HAL) (t : Ptr) (hdis : core.Distinct hal)
    (h5 : core.TIM5 = some t) :
    (ARGB_DMA_MAP core hal).find?
        (fun d => decide (d.tim = t ∧ d.channel = hal.TIM_CHANNEL_4)) =
      some ⟨t, hal.TIM_CHANNEL_4, .DMA1, .DMA1_Stream 1, core.DMA_CHANNEL_6,
        .DMA1_Stream_IRQn 1⟩ := by
  obtain ⟨p1, p2, p3, p4⟩ := (Distinct_pairs core hal hdis t).2 h5
  obtain ⟨hch, _, _⟩ := hdis
  simp only [List.nodup_cons, List.mem_cons, List.mem_singleton, List.not_mem_nil,
    not_or, List.nodup_nil, not_false_eq_true, and_true, or_false] at hch
  obtain ⟨⟨_, _, h14⟩, ⟨_, h24⟩, h34⟩ := hch
  unfold ARGB_DMA_MAP
  simp only [List.append_assoc]
  rw [find?_append_of_none _ _ _
      (DMA_MAP_block_other _ core.TIM1 t _ (DMA_MAP_TIM1_tim core hal) p1),
    find?_append_of_none _ _ _
      (DMA_MAP_block_other _ core.TIM2 t _ (DMA_MAP_TIM2_tim core hal) p2),
    find?_append_of_none _ _ _
      (DMA_MAP_block_other _ core.TIM3 t _ (DMA_MAP_TIM3_tim core hal) p3),
    find?_append_of_none _ _ _
      (DMA_MAP_block_other _ core.TIM4 t _ (DMA_MAP_TIM4_tim core hal) p4)]
  simp [DMA_MAP_block, h5, DMA_MAP_TIM5, List.find?, h14, h24, h34]

/-- A call that returned `ARGB_DMA_OK`: the PWM scan left at the first row for the pin
name, whose channel number is 1..4, and the DMA scan at the first row for the pair. -/
theorem AnalyzePin_ok_inv (core : Core) (hal : HAL) (fuel pin : Nat)
    (c0 c : ARGB_PinConfig_t)
    (hok : ARGB_AnalyzePin core hal fuel pin (some c0) = some (.ARGB_DMA_OK, some c)) :
    ∃ e d,
      core.PinMap_PWM.find? (fun x => decide (x.pin = core.digitalPinToPinName pin)) = some e ∧
      channel_valid (core.STM_PIN_CHANNEL e.function) ∧
      (ARGB_DMA_MAP core hal).find?
        (fun d => decide (d.tim = e.peripheral ∧
          d.channel = (channel_consts hal (core.STM_PIN_CHANNEL e.function)).1)) = some d ∧
      c = { AnalyzePin_timer core hal pin e with
            dma_stream := d.stream, dma_channel := d.dma_ch, dma_irqn := d.irqn } := by
  by_cases hpn : core.digitalPinToPinName pin = core.NC
  · simp [ARGB_AnalyzePin, hpn] at hok
  by_cases hport : core.get_GPIO_Port (core.STM_PORT (core.digitalPinToPinName pin)) = 0
  · simp [ARGB_AnalyzePin, hpn, hport] at hok
  rw [AnalyzePin_valid_pin core hal fuel pin c0 hpn hport] at hok
  cases hscan : AnalyzePin_pwm_scan core hal (core.digitalPinToPinName pin) fuel
      core.PinMap_PWM (AnalyzePin_start core pin) with
  | none => simp [hscan] at hok
  | some cfg1 =>
    rw [hscan, Option.some_bind] at hok
    rcases pwm_scan_inv core hal _ _ _ _ _ hscan with h | ⟨e, hfind, hv, hcfg⟩
    · subst h
      simp [AnalyzePin_finish, AnalyzePin_start, ARGB_PinConfig_t.zero] at hok
    · by_cases ht : cfg1.tim = 0
      · simp [AnalyzePin_finish, ht] at hok
      · rw [AnalyzePin_finish_timer core hal cfg1 ht] at hok
        by_cases hF : core.STM32F4xx = true
        · rw [if_pos hF] at hok
          cases hdma : AnalyzePin_dma_scan (ARGB_DMA_MAP core hal)
              { cfg1 with is_32bit_tim :=
                  if core.TIM2 = some cfg1.tim ∨ core.TIM5 = some cfg1.tim then 1
                  else cfg1.is_32bit_tim } with
          | none => simp [hdma] at hok
          | some rc =>
            obtain ⟨r, c2⟩ := rc
            simp only [hdma, Option.map_some', Option.some.injEq, Prod.mk.injEq] at hok
            obtain ⟨hr, hc⟩ := hok
            subst hr
            cases hc
            obtain ⟨d, hd, hc2⟩ := dma_scan_inv _ _ _ hdma
            subst hcfg
            exact ⟨e, d, hfind, hv, hd, hc2⟩
        · rw [if_neg hF] at hok
          simp at hok

/-- C18: first match wins in both tables. Whenever `ARGB_AnalyzePin` returns
`ARGB_DMA_OK`, the binding's timer, channel and alternate function are those of the
first row of the PWM table for the pin name, and its DMA stream, request line and
interrupt are those of the first row of `ARGB_DMA_MAP` for the pair (timer, channel).
So, timers and channel constants being distinct, `TIM1` channel 1 resolves to
`DMA2_Stream1`, `TIM2` channel 4 to `DMA1_Stream6` and `TIM5` channel 4 to
`DMA1_Stream1`, each with the interrupt of that stream. -/
theorem C18_first_match_wins (core : Core) (hal : HAL) (fuel pin : Nat)
    (c0 c : ARGB_PinConfig_t) (hdis : core.Distinct hal)
    (hok : ARGB_AnalyzePin core hal fuel pin (some c0) = some (.ARGB_DMA_OK, some c)) :
    (∃ e d,
      core.PinMap_PWM.find? (fun x => decide (x.pin = core.digitalPinToPinName pin)) = some e ∧
      c.tim = e.peripheral ∧ c.tim_af = core.STM_PIN_AFNUM e.function ∧
      channel_valid (core.STM_PIN_CHANNEL e.function) ∧
      c.tim_channel = (channel_consts hal (core.STM_PIN_CHANNEL e.function)).1 ∧
      (ARGB_DMA_MAP core hal).find?
        (fun d => decide (d.tim = c.tim ∧ d.channel = c.tim_channel)) = some d ∧
      c.dma_stream = d.stream ∧ c.dma_channel = d.dma_ch ∧ c.dma_irqn = d.irqn) ∧
    (core.TIM1 = some c.tim → c.tim_channel = hal.TIM_CHANNEL_1 →
      c.dma_stream = .DMA2_Stream 1 ∧ c.dma_irqn = .DMA2_Stream_IRQn 1) ∧
    (core.TIM2 = some c.tim → c.tim_channel = hal.TIM_CHANNEL_4 →
      c.dma_stream = .DMA1_Stream 6 ∧ c.dma_irqn = .DMA1_Stream_IRQn 6) ∧
    (core.TIM5 = some c.tim → c.tim_channel = hal.TIM_CHANNEL_4 →
      c.dma_stream = .DMA1_Stream 1 ∧ c.dma_irqn = .DMA1_Stream_IRQn 1) := by
  obtain ⟨e, d, hfind, hv, hd, hc⟩ := AnalyzePin_ok_inv core hal fuel pin c0 c hok
  have htim : c.tim = e.peripheral := by rw [hc]; rfl
  have hch : c.tim_channel = (channel_consts hal (core.STM_PIN_CHANNEL e.function)).1 := by
    rw [hc]; rfl
  have hs : c.dma_stream = d.stream := by rw [hc]
  have hi : c.dma_irqn = d.irqn := by rw [hc]
  have hd2 : (ARGB_DMA_MAP core hal).find?
      (fun d => decide (d.tim = c.tim ∧ d.channel = c.tim_channel)) = some d := by
    rw [htim, hch]; exact hd
  refine ⟨⟨e, d, hfind, htim, by rw [hc]; rfl, hv, hch, hd2, hs, by rw [hc], hi⟩, ?_, ?_, ?_⟩
  · intro h1 hc1
    rw [hc1, DMA_MAP_first_TIM1_CH1 core hal c.tim h1] at hd2
    cases hd2
    exact ⟨hs, hi⟩
  · intro h2 hc4
    rw [hc4, DMA_MAP_first_TIM2_CH4 core hal c.tim hdis h2] at hd2
    cases hd2
    exact ⟨hs, hi⟩
  · intro h5 hc4
    rw [hc4, DMA_MAP_first_TIM5_CH4 core hal c.tim hdis h5] at hd2
    cases hd2
    exact ⟨hs, hi⟩

/-- Witness for C18: pin `PA_2` of the example core has a `TIM2` channel 3 row before a
`TIM5` channel 3 row; the binding is `TIM2`, `DMA1_Stream1`. -/
theorem C18_first_match_wins_witness :
    ARGB_AnalyzePin core_f4 hal_f4 8 2 (some ARGB_PinConfig_t.zero) =
      some (.ARGB_DMA_OK, some
        { gpio_port := 0x40020000, gpio_pin := 4, tim := 0x40000000, tim_channel := 0x8,
          tim_af := 1, tim_dma_cc := 0x800, is_32bit_tim := 1,
          dma_stream := .DMA1_Stream 1, dma_channel := 3 <<< 25,
          dma_irqn := .DMA1_Stream_IRQn 1 }) ∧
    ∃ e d,
      core_f4.PinMap_PWM.find? (fun x => decide (x.pin = core_f4.digitalPinToPinName 2)) =
        some e ∧
      e.peripheral = 0x40000000 ∧
      (ARGB_DMA_MAP core_f4 hal_f4).find?
        (fun d => decide (d.tim = 0x40000000 ∧ d.channel = 0x8)) = some d ∧
      d.stream = .DMA1_Stream 1 :=
  have hok : ARGB_AnalyzePin core_f4 hal_f4 8 2 (some ARGB_PinConfig_t.zero) =
      some (.ARGB_DMA_OK, some
        { gpio_port := 0x40020000, gpio_pin := 4, tim := 0x40000000, tim_channel := 0x8,
          tim_af := 1, tim_dma_cc := 0x800, is_32bit_tim := 1,
          dma_stream := .DMA1_Stream 1, dma_channel := 3 <<< 25,
          dma_irqn := .DMA1_Stream_IRQn 1 }) := by decide
  let ⟨⟨e, d, h1, h2, _, _, _, h6, h7, _⟩, _⟩ :=
    C18_first_match_wins core_f4 hal_f4 8 2 ARGB_PinConfig_t.zero _
      (by unfold Core.Distinct; decide) hok
  ⟨hok, e, d, h1, h2.symm, h6, h7.symm⟩

/-- C19, the code at the failing input: the PWM table has a row for `PA_0` with the
channel number 5, then a row for `PA_0` with channel 1, then the sentinel. The scan
does not skip the first row: `continue` re-enters the loop without `map++`, so
`ARGB_AnalyzePin` does not return, whatever the fuel. On the table without its first
row the call returns `ARGB_DMA_OK`. -/
theorem C19_invalid_channel_row_never_left :
    (∃ e ∈ core_bad_channel.PinMap_PWM, e.pin = core_bad_channel.NC) ∧
    core_bad_channel.PinMap_PWM.map (fun e => core_bad_channel.STM_PIN_CHANNEL e.function) =
      [5, 1, 0] ∧
    (∀ fuel, ARGB_AnalyzePin core_bad_channel hal_f4 fuel 0 (some ARGB_PinConfig_t.zero) =
      none) ∧
    (ARGB_AnalyzePin { core_bad_channel with PinMap_PWM := core_bad_channel.PinMap_PWM.tail }
      hal_f4 8 0 (some ARGB_PinConfig_t.zero)).map (fun r => r.1) = some .ARGB_DMA_OK := by
  refine ⟨by decide, by decide, ?_, by decide⟩
  intro fuel
  rw [AnalyzePin_valid_pin core_bad_channel hal_f4 fuel 0 _ (by decide) (by decide)]
  have hstuck := pwm_scan_stuck core_bad_channel hal_f4 (core_bad_channel.digitalPinToPinName 0)
    ⟨0, 0x40000000, pwm_function 1 5⟩
    [⟨0, 0x40000000, pwm_function 1 1⟩, ⟨0xFFFFFFFF, 0, 0⟩]
    (by decide) (by decide) (by unfold channel_valid; decide) fuel
    (AnalyzePin_start core_bad_channel 0)
  have htbl : core_bad_channel.PinMap_PWM =
      [⟨0, 0x40000000, pwm_function 1 5⟩, ⟨0, 0x40000000, pwm_function 1 1⟩,
        ⟨0xFFFFFFFF, 0, 0⟩] := rfl
  rw [htbl, hstuck]
  rfl

/-! ## The claims on a rejected attach, the white channel and the automatic setup
(C21, C22, C23, C27) -/

set_option maxRecDepth 100000 in
/-- C21, the code at the failing input: on the power-up state of an Arduino build,
`ARGB_Attach(htim = 1, tim_channel = 3, hdma = 2, 84 MHz)` returns `ARGB_PARAM_ERR`
(3 is no `TIM_CHANNEL_x`) but has stored the timer handle, the DMA handle, the channel
and the clock, while the compare-register pointer and the DMA-request selector keep
their old values (`NULL`, 0). `ARGB_Init` and `ARGB_Show` then take the runtime
binding, and `ARGB_Show` stores through the `NULL` compare-register pointer. -/
theorem C21_rejected_attach_writes_binding :
    (ARGB_Attach hal_f4 (State.initial cfg_arduino hw_example) 1 3 2 84000000).1 =
      .ARGB_PARAM_ERR ∧
    (State.initial cfg_arduino hw_example).s_htim = 0 ∧
    (State.initial cfg_arduino hw_example).s_hdma = 0 ∧
    (ARGB_Attach hal_f4 (State.initial cfg_arduino hw_example) 1 3 2 84000000).2.s_htim = 1 ∧
    (ARGB_Attach hal_f4 (State.initial cfg_arduino hw_example) 1 3 2 84000000).2.s_hdma = 2 ∧
    (ARGB_Attach hal_f4 (State.initial cfg_arduino hw_example) 1 3 2 84000000).2.s_tim_channel
      = 3 ∧
    (ARGB_Attach hal_f4 (State.initial cfg_arduino hw_example) 1 3 2
      84000000).2.s_timer_clock_hz = 84000000 ∧
    (ARGB_Attach hal_f4 (State.initial cfg_arduino hw_example) 1 3 2 84000000).2.s_tim_ccr =
      .NULL ∧
    (ARGB_Attach hal_f4 (State.initial cfg_arduino hw_example) 1 3 2 84000000).2.s_tim_dma_cc
      = 0 ∧
    Show_handles cfg_arduino hal_f4
      (ARGB_Init cfg_arduino hal_f4
        (ARGB_Attach hal_f4 (State.initial cfg_arduino hw_example) 1 3 2 84000000).2) =
      some ⟨1, 2, 3, 0, .NULL⟩ ∧
    (ARGB_Show cfg_arduino hal_f4
      (ARGB_Init cfg_arduino hal_f4
        (ARGB_Attach hal_f4 (State.initial cfg_arduino hw_example) 1 3 2 84000000).2)).isNone
      = true := by
  decide

set_option maxRecDepth 100000 in
/-- C22, the code at the failing input: in the default build (`WS2812`, 5 pixels, 15
bytes in `RGB_BUF`, the macro `RGB` not defined) `ARGB_SetWhite(0, 255)` overwrites
`RGB_BUF[3]`, the first colour byte of pixel 1; `ARGB_SetWhite(3, 255)` stores to
`RGB_BUF[15]`, outside the array, and so does `ARGB_FillWhite(255)` on its way. -/
theorem C22_SetWhite_writes_in_rgb_family :
    cfg_default.family = .WS2812 ∧ cfg_default.RGB = false ∧ NUM_BYTES cfg_default = 15 ∧
    (s_ready cfg_default).RGB_BUF[3]? = some 0 ∧
    (ARGB_SetWhite cfg_default (s_ready cfg_default) 0 255).map (fun t => t.RGB_BUF[3]?) =
      some (some 255) ∧
    (ARGB_SetWhite cfg_default (s_ready cfg_default) 3 255).isNone = true ∧
    (ARGB_FillWhite cfg_default (s_ready cfg_default) 255).isNone = true := by
  decide

set_option maxRecDepth 100000 in
/-- C23, the code at the failing input: in the default build (`DMA_SIZE_WORD`, one
element of `PWM_BUF` is 32 bits wide) `ARGB_Setup` on pin `PA_8` resolves `TIM1`, a
16-bit timer (`is_32bit_tim = 0`), returns `ARGB_DMA_OK`, and hands `HAL_DMA_Init` the
half-word alignments for peripheral and memory: 16 bits against the 32 of the buffer
element. On pin `PA_0` (`TIM2`, 32-bit) the alignments are the word ones. -/
theorem C23_setup_halfword_dma_on_word_buffer :
    cfg_default.dma_size = .WORD ∧ dma_siz_bits cfg_default = 32 ∧
    (ARGB_Setup cfg_default core_f4 dev_f4 hal_f4 16 setup_initial 8).map
        (fun r => (r.1, r.2.ARGB_cfg.tim, r.2.ARGB_cfg.is_32bit_tim,
          DMA_Init_aligns r.2.calls)) =
      some (.ARGB_DMA_OK, 0x40010000, 0,
        [(.DMA_PDATAALIGN_HALFWORD, .DMA_MDATAALIGN_HALFWORD)]) ∧
    HAL_Const.align_bits .DMA_PDATAALIGN_HALFWORD = some 16 ∧
    HAL_Const.align_bits .DMA_MDATAALIGN_HALFWORD = some 16 ∧
    (ARGB_Setup cfg_default core_f4 dev_f4 hal_f4 16 setup_initial 0).map
        (fun r => (r.1, r.2.ARGB_cfg.tim, r.2.ARGB_cfg.is_32bit_tim,
          DMA_Init_aligns r.2.calls)) =
      some (.ARGB_DMA_OK, 0x40000000, 1,
        [(.DMA_PDATAALIGN_WORD, .DMA_MDATAALIGN_WORD)]) := by
  exact ⟨by decide, by decide, by decide, by decide, by decide, by decide⟩

set_option maxRecDepth 100000 in
/-- C27, the code at the failing input: for pin `PD_12` (port D at 0x40020C00, `TIM4`
channel 1, DMA1 stream 0) `ARGB_Setup` returns `ARGB_DMA_OK` and its calls are, in
order: the `TIM4` clock enable, the two DMA clock enables, `HAL_GPIO_Init` on port D,
the timer, DMA and interrupt configuration. No GPIO clock enable is among them: the
function has one for the ports A, B and C only. For pin `PA_0` the first call is the
clock enable of port A. -/
theorem C27_setup_port_D_clock_not_enabled :
    (ARGB_Setup cfg_default core_portD dev_f4 hal_f4 16 setup_initial 60).map
        (fun r => (r.1, r.2.ARGB_cfg.gpio_port, r.2.calls)) =
      some (.ARGB_DMA_OK, 0x40020C00,
        [ .HAL_RCC_TIM4_CLK_ENABLE, .HAL_RCC_DMA1_CLK_ENABLE, .HAL_RCC_DMA2_CLK_ENABLE,
          .HAL_GPIO_Init 0x40020C00
            ⟨4096, .GPIO_MODE_AF_PP, .GPIO_NOPULL, .GPIO_SPEED_FREQ_HIGH, 2⟩,
          .HAL_TIM_PWM_Init 0x20000100 0x40000800
            ⟨0, .TIM_COUNTERMODE_UP, 104, .TIM_CLOCKDIVISION_DIV1⟩,
          .HAL_TIM_PWM_ConfigChannel 0x20000100 ⟨.TIM_OCMODE_PWM1, 0, .TIM_OCPOLARITY_HIGH⟩ 0,
          .HAL_DMA_Init 0x20000200 (.DMA1_Stream 0)
            ⟨core_portD.DMA_CHANNEL_2, .DMA_MEMORY_TO_PERIPH, .DMA_PINC_DISABLE,
              .DMA_MINC_ENABLE, .DMA_PDATAALIGN_HALFWORD, .DMA_MDATAALIGN_HALFWORD,
              .DMA_NORMAL, .DMA_PRIORITY_HIGH, .DMA_FIFOMODE_DISABLE⟩,
          .HAL_LINKDMA 0x20000100 (Show_dma_id hal_f4 0) 0x20000200,
          .HAL_NVIC_SetPriority (.DMA1_Stream_IRQn 0) 1 0,
          .HAL_NVIC_EnableIRQ (.DMA1_Stream_IRQn 0) ]) ∧
    (ARGB_Setup cfg_default core_f4 dev_f4 hal_f4 16 setup_initial 0).map
        (fun r => (r.1, r.2.ARGB_cfg.gpio_port, r.2.calls.take 2)) =
      some (.ARGB_DMA_OK, 0x40020000,
        [ .HAL_RCC_GPIOA_CLK_ENABLE, .HAL_RCC_TIM2_CLK_ENABLE ]) := by
  decide

/-! ## Lemmas: the DMA scan ends -/

/-- On a table with a sentinel the DMA scan returns, and it touches the three DMA
fields of the configuration only. -/
theorem dma_scan_total :
    ∀ (tbl : List ARGB_DMA_Map_t) (cfg : ARGB_PinConfig_t),
      (∃ d ∈ tbl, d.tim = 0) →
      ∃ r c, AnalyzePin_dma_scan tbl cfg = some (r, c) ∧
        c.gpio_port = cfg.gpio_port ∧ c.gpio_pin = cfg.gpio_pin ∧ c.tim = cfg.tim ∧
        c.tim_channel = cfg.tim_channel ∧ c.tim_af = cfg.tim_af ∧
        c.tim_dma_cc = cfg.tim_dma_cc ∧ c.is_32bit_tim = cfg.is_32bit_tim := by
  intro tbl
  induction tbl with
  | nil =>
    intro cfg h
    obtain ⟨d, hd, _⟩ := h
    cases hd
  | cons x tbl ih =>
    intro cfg hs
    by_cases hx : x.tim = 0
    · exact ⟨.ARGB_DMA_NO_DMA, cfg, by simp [AnalyzePin_dma_scan, hx], rfl, rfl, rfl, rfl,
        rfl, rfl, rfl⟩
    · by_cases hm : x.tim = cfg.tim ∧ x.channel = cfg.tim_channel
      · refine ⟨.ARGB_DMA_OK,
          { cfg with dma_stream := x.stream, dma_channel := x.dma_ch, dma_irqn := x.irqn },
          ?_, rfl, rfl, rfl, rfl, rfl, rfl, rfl⟩
        rw [AnalyzePin_dma_scan, if_pos hx, if_pos hm]
      · obtain ⟨d, hd, hd0⟩ := hs
        have hd1 : d ∈ tbl := by
          rcases List.mem_cons.mp hd with h | h
          · exact absurd (h ▸ hd0) hx
          · exact h
        obtain ⟨r, c, hsc, hrest⟩ := ih cfg ⟨d, hd1, hd0⟩
        refine ⟨r, c, ?_, hrest⟩
        rw [AnalyzePin_dma_scan, if_pos hx, if_neg hm, hsc]

/-! ## The claims on the counter width (C24) -/

/-- C24: when the PWM scan of `ARGB_AnalyzePin` leaves at a row `e` for the pin (the
first row with the pin's name, a channel number in 1..4 and a timer), the function
returns a binding with the timer of that row whose `is_32bit_tim` flag is 1 exactly
when the timer is `TIM2` or `TIM5`, and 0 for every other timer. -/
theorem C24_is_32bit_flag (core : Core) (hal : HAL) (fuel pin : Nat)
    (c0 : ARGB_PinConfig_t) (pre post : List PinMap) (e : PinMap)
    (hpn : core.digitalPinToPinName pin ≠ core.NC)
    (hport : core.get_GPIO_Port (core.STM_PORT (core.digitalPinToPinName pin)) ≠ 0)
    (hsplit : core.PinMap_PWM = pre ++ e :: post)
    (hpre : ∀ x ∈ pre, x.pin ≠ core.NC ∧ x.pin ≠ core.digitalPinToPinName pin)
    (he : e.pin = core.digitalPinToPinName pin)
    (hv : channel_valid (core.STM_PIN_CHANNEL e.function))
    (ht : e.peripheral ≠ 0) (hfuel : pre.length < fuel) :
    ∃ r c, ARGB_AnalyzePin core hal fuel pin (some c0) = some (r, some c) ∧
      c.tim = e.peripheral ∧
      (c.is_32bit_tim = 1 ↔ (core.TIM2 = some c.tim ∨ core.TIM5 = some c.tim)) ∧
      (¬ (core.TIM2 = some c.tim ∨ core.TIM5 = some c.tim) → c.is_32bit_tim = 0) := by
  have hflag : ∀ c : ARGB_PinConfig_t, c.tim = (AnalyzePin_timer core hal pin e).tim →
      c.is_32bit_tim = (AnalyzePin_timer core hal pin e).is_32bit_tim →
      c.tim = e.peripheral ∧
      (c.is_32bit_tim = 1 ↔ (core.TIM2 = some c.tim ∨ core.TIM5 = some c.tim)) ∧
      (¬ (core.TIM2 = some c.tim ∨ core.TIM5 = some c.tim) → c.is_32bit_tim = 0) := by
    intro c h1 h2
    have h1 : c.tim = e.peripheral := h1
    have h2 : c.is_32bit_tim =
        if core.TIM2 = some e.peripheral ∨ core.TIM5 = some e.peripheral then 1 else 0 := h2
    rw [h1, h2]
    by_cases h : core.TIM2 = some e.peripheral ∨ core.TIM5 = some e.peripheral
    · simp [h]
    · simp [h]
  rw [AnalyzePin_first_row core hal fuel pin c0 pre post e hpn hport hsplit hpre he hv ht hfuel]
  by_cases hF : core.STM32F4xx = true
  · obtain ⟨r, c, hsc, _, _, h3, _, _, _, h7⟩ :=
      dma_scan_total (ARGB_DMA_MAP core hal) (AnalyzePin_timer core hal pin e)
        (DMA_MAP_has_sentinel core hal)
    refine ⟨r, c, ?_, hflag c h3 h7⟩
    rw [if_pos hF, hsc]
    rfl
  · refine ⟨.ARGB_DMA_NO_DMA, AnalyzePin_timer core hal pin e, ?_, hflag _ rfl rfl⟩
    rw [if_neg hF]

/-- Witness for C24: pin `PA_8` of the example core is on `TIM1`, whose row is the
fifth of the PWM table; the flag of the binding is 0. -/
theorem C24_is_32bit_flag_witness :
    ∃ r c, ARGB_AnalyzePin core_f4 hal_f4 8 8 (some ARGB_PinConfig_t.zero) = some (r, some c) ∧
      c.tim = 0x40010000 ∧
      (c.is_32bit_tim = 1 ↔ (core_f4.TIM2 = some c.tim ∨ core_f4.TIM5 = some c.tim)) ∧
      (¬ (core_f4.TIM2 = some c.tim ∨ core_f4.TIM5 = some c.tim) → c.is_32bit_tim = 0) :=
  C24_is_32bit_flag core_f4 hal_f4 8 8 ARGB_PinConfig_t.zero
    [ ⟨0, 0x40000000, pwm_function 1 1⟩, ⟨1, 0x40000000, pwm_function 1 2⟩,
      ⟨2, 0x40000000, pwm_function 1 3⟩, ⟨2, 0x40000C00, pwm_function 2 3⟩ ]
    [ ⟨19, 0x40000000, pwm_function 1 4⟩, ⟨25, 0x40000800, pwm_function 2 4⟩,
      ⟨0xFFFFFFFF, 0, 0⟩ ]
    ⟨8, 0x40010000, pwm_function 1 1⟩
    (by decide) (by decide) rfl (by decide) rfl (by unfold channel_valid; decide) (by decide)
    (by decide)

/-! ## The claims on filling (C25) -/

/-- C25: for a strip of at most 65535 pixels and a colour buffer of `NUM_BYTES` bytes,
`ARGB_FillRGB(r, g, b)` returns and changes `RGB_BUF` only; afterwards every pixel
`p < NUM_PIXELS` holds in its three colour bytes exactly what `ARGB_SetRGB(p, r, g, b)`
stores there from the state before the fill (the subpixel bytes of the colour under the
current brightness, the same for all pixels), and in the `SK6812` family the white byte
of every pixel is unchanged. -/
theorem C25_FillRGB_all_pixels (cfg : Config) (s : State) (r g b : Nat)
    (hN : cfg.NUM_PIXELS ≤ 65535) (hlen : s.RGB_BUF.length = NUM_BYTES cfg) :
    ∃ buf, ARGB_FillRGB cfg s r g b = some { s with RGB_BUF := buf } ∧
      buf.length = s.RGB_BUF.length ∧
      (∀ p, p < cfg.NUM_PIXELS →
        ∃ sp, ARGB_SetRGB cfg s p r g b = some sp ∧
          (∀ k, k < 3 → buf[BYTES_PER_PIXEL cfg * p + k]? =
            sp.RGB_BUF[BYTES_PER_PIXEL cfg * p + k]?) ∧
          buf[BYTES_PER_PIXEL cfg * p]? = some (subpixels cfg s.ARGB_BR r g b).1 ∧
          buf[BYTES_PER_PIXEL cfg * p + 1]? = some (subpixels cfg s.ARGB_BR r g b).2.1 ∧
          buf[BYTES_PER_PIXEL cfg * p + 2]? = some (subpixels cfg s.ARGB_BR r g b).2.2) ∧
      (cfg.family = .SK6812 → ∀ p, p < cfg.NUM_PIXELS →
        buf[4 * p + 3]? = s.RGB_BUF[4 * p + 3]?) := by
  obtain ⟨buf, hfill, hl, hget⟩ :=
    FillRGB_loop_spec cfg r g b cfg.NUM_PIXELS 65536 0 s (Nat.zero_add _) (by omega) hN hlen
  have hB := BYTES_PER_PIXEL_ge cfg
  have hNB := NUM_BYTES_eq cfg
  have hin : ∀ p k, p < cfg.NUM_PIXELS → k < BYTES_PER_PIXEL cfg →
      BYTES_PER_PIXEL cfg * p + k < NUM_BYTES cfg ∧
      (BYTES_PER_PIXEL cfg * p + k) % BYTES_PER_PIXEL cfg = k := by
    intro p k hp hk
    constructor
    · have h1 : BYTES_PER_PIXEL cfg * (p + 1) ≤ BYTES_PER_PIXEL cfg * cfg.NUM_PIXELS :=
        Nat.mul_le_mul_left _ hp
      rw [Nat.mul_add, Nat.mul_one] at h1
      omega
    · rw [Nat.mul_add_mod, Nat.mod_eq_of_lt hk]
  have hcol : ∀ p k, p < cfg.NUM_PIXELS → k < 3 →
      buf[BYTES_PER_PIXEL cfg * p + k]? =
        some (if k = 0 then (subpixels cfg s.ARGB_BR r g b).1
              else if k = 1 then (subpixels cfg s.ARGB_BR r g b).2.1
              else (subpixels cfg s.ARGB_BR r g b).2.2) := by
    intro p k hp hk
    obtain ⟨h1, h2⟩ := hin p k hp (by omega)
    rw [hget, h2, if_pos ⟨by simp, h1, hk⟩]
  refine ⟨buf, hfill, hl, ?_, ?_⟩
  · intro p hp
    obtain ⟨h2, _⟩ := hin p 2 hp (by omega)
    have hp2 : BYTES_PER_PIXEL cfg * p + 2 < s.RGB_BUF.length := by omega
    refine ⟨_, SetRGB_in_range cfg s p r g b hp hlen, ?_, ?_, ?_, ?_⟩
    · intro k hk
      rw [hcol p k hp hk]
      show _ = (set_pixel cfg s.RGB_BUF p (subpixels cfg s.ARGB_BR r g b))[_]?
      rw [set_pixel_getElem? cfg s.RGB_BUF p _ hp2]
      rcases (by omega : k = 0 ∨ k = 1 ∨ k = 2) with rfl | rfl | rfl
      · simp
      · simp
      · simp
    · simpa using hcol p 0 hp (by omega)
    · simpa using hcol p 1 hp (by omega)
    · simpa using hcol p 2 hp (by omega)
  · intro hf p hp
    have h4 : BYTES_PER_PIXEL cfg = 4 := by simp [BYTES_PER_PIXEL, Config.isSK6812, hf]
    obtain ⟨_, h2⟩ := hin p 3 hp (by omega)
    have h3 := hget (4 * p + 3)
    rw [h4] at h2
    rw [h4, h2] at h3
    rw [h3, if_neg (by omega)]

/-- Witness for C25: the `SK6812` build with 5 pixels, attached and initialised on the
example hardware, filled with the colour (10, 20, 30). -/
theorem C25_FillRGB_all_pixels_witness :
    ∃ buf, ARGB_FillRGB cfg_sk6812 (s_ready cfg_sk6812) 10 20 30 =
        some { s_ready cfg_sk6812 with RGB_BUF := buf } ∧
      buf.length = (s_ready cfg_sk6812).RGB_BUF.length ∧
      (∀ p, p < cfg_sk6812.NUM_PIXELS →
        ∃ sp, ARGB_SetRGB cfg_sk6812 (s_ready cfg_sk6812) p 10 20 30 = some sp ∧
          (∀ k, k < 3 → buf[BYTES_PER_PIXEL cfg_sk6812 * p + k]? =
            sp.RGB_BUF[BYTES_PER_PIXEL cfg_sk6812 * p + k]?) ∧
          buf[BYTES_PER_PIXEL cfg_sk6812 * p]? =
            some (subpixels cfg_sk6812 (s_ready cfg_sk6812).ARGB_BR 10 20 30).1 ∧
          buf[BYTES_PER_PIXEL cfg_sk6812 * p + 1]? =
            some (subpixels cfg_sk6812 (s_ready cfg_sk6812).ARGB_BR 10 20 30).2.1 ∧
          buf[BYTES_PER_PIXEL cfg_sk6812 * p + 2]? =
            some (subpixels cfg_sk6812 (s_ready cfg_sk6812).ARGB_BR 10 20 30).2.2) ∧
      (cfg_sk6812.family = .SK6812 → ∀ p, p < cfg_sk6812.NUM_PIXELS →
        buf[4 * p + 3]? = (s_ready cfg_sk6812).RGB_BUF[4 * p + 3]?) :=
  C25_FillRGB_all_pixels cfg_sk6812 (s_ready cfg_sk6812) 10 20 30 (by decide)
    (s_ready_Sized cfg_sk6812).1

/-! ## Lemmas: the timer base after `ARGB_Init` -/

/-- A successful `ARGB_Attach` had a timer handle, stored it with the channel and the
clock, and left the hardware alone. -/
theorem Attach_ok (hal : HAL) (s : State) (htim ch hdma c : Nat)
    (hok : (ARGB_Attach hal s htim ch hdma c).1 = .ARGB_OK) :
    htim ≠ 0 ∧ (ARGB_Attach hal s htim ch hdma c).2.s_htim = htim ∧
    (ARGB_Attach hal s htim ch hdma c).2.s_tim_channel = ch ∧
    (ARGB_Attach hal s htim ch hdma c).2.s_timer_clock_hz = c ∧
    (ARGB_Attach hal s htim ch hdma c).2.hw = s.hw := by
  unfold ARGB_Attach at hok ⊢
  by_cases hnull : htim = 0 ∨ hdma = 0
  · rw [if_pos hnull] at hok
    cases hok
  · have hn : htim ≠ 0 := fun h => hnull (Or.inl h)
    rw [if_neg hnull]
    refine ⟨hn, ?_⟩
    split_ifs <;> exact ⟨rfl, rfl, rfl, rfl⟩

/-- The registers and the state flag after the tail of `ARGB_Init`, when
`TIM_CCxChannelCmd` and `HAL_Delay` leave `PSC` and `ARR` of the timer alone. -/
theorem Init_tail_regs (cfg : Config) (hal : HAL) (s : State) (inst ch A : Nat)
    (hcmd : ∀ hw st,
      ((hal.TIM_CCxChannelCmd hw inst ch st).regs inst).PSC = (hw.regs inst).PSC ∧
      ((hal.TIM_CCxChannelCmd hw inst ch st).regs inst).ARR = (hw.regs inst).ARR)
    (hdelay : ∀ hw ms,
      ((hal.HAL_Delay hw ms).regs inst).PSC = (hw.regs inst).PSC ∧
      ((hal.HAL_Delay hw ms).regs inst).ARR = (hw.regs inst).ARR) :
    ((ARGB_Init_tail cfg hal s inst ch A).hw.regs inst).PSC = 0 ∧
    ((ARGB_Init_tail cfg hal s inst ch A).hw.regs inst).ARR =
      u16 (u32 (A / bit_freq cfg + 4294967295)) ∧
    (ARGB_Init_tail cfg hal s inst ch A).ARGB_LOC_ST = .ARGB_READY := by
  unfold ARGB_Init_tail
  simp only []
  rw [(hdelay _ _).1, (hdelay _ _).2, (hcmd _ _).1, (hcmd _ _).2]
  simp

/-- The period `(uint16_t) (APBfq - 1)` of a 32-bit clock not below the bit frequency
is the quotient less one: the quotient is at least 1 and at most 10737. -/
theorem period_exact (cfg : Config) (c : Nat) (hc : c < 4294967296) (hf : bit_freq cfg ≤ c) :
    u16 (u32 (c / bit_freq cfg + 4294967295)) = c / bit_freq cfg - 1 := by
  have hb : bit_freq cfg = 400000 ∨ bit_freq cfg = 800000 := by
    unfold bit_freq
    split
    · exact Or.inl rfl
    · exact Or.inr rfl
  have hpos : 0 < bit_freq cfg := by omega
  have h1 : 1 ≤ c / bit_freq cfg := (Nat.one_le_div_iff hpos).mpr hf
  have h2 : c / bit_freq cfg ≤ 10737 := by
    rcases hb with h | h <;> rw [h] <;> omega
  unfold u16 u32
  omega

/-! ## The claims on the timer base (C26) -/

/-- C26: after `ARGB_Attach` has returned `ARGB_OK` with the timer clock `c` and
`ARGB_Init` has run, for every 32-bit `c` not below the bit frequency `f` of the family
(400000 for `WS2811S`, 800000 otherwise) the prescaler register of the attached timer
is 0, its auto-reload register is `c / f - 1`, and the transfer state is Ready. The
HAL's `TIM_CCxChannelCmd` and `HAL_Delay`, which run at the end of `ARGB_Init`, are
taken not to touch `PSC` and `ARR` of that timer. -/
theorem C26_Init_period (cfg : Config) (hal : HAL) (s : State) (htim ch hdma c : Nat)
    (hok : (ARGB_Attach hal s htim ch hdma c).1 = .ARGB_OK)
    (hc : c < 4294967296) (hf : bit_freq cfg ≤ c)
    (hcmd : ∀ hw st,
      ((hal.TIM_CCxChannelCmd hw (s.hw.tim htim).Instance ch st).regs
          (s.hw.tim htim).Instance).PSC = (hw.regs (s.hw.tim htim).Instance).PSC ∧
      ((hal.TIM_CCxChannelCmd hw (s.hw.tim htim).Instance ch st).regs
          (s.hw.tim htim).Instance).ARR = (hw.regs (s.hw.tim htim).Instance).ARR)
    (hdelay : ∀ hw ms,
      ((hal.HAL_Delay hw ms).regs (s.hw.tim htim).Instance).PSC =
        (hw.regs (s.hw.tim htim).Instance).PSC ∧
      ((hal.HAL_Delay hw ms).regs (s.hw.tim htim).Instance).ARR =
        (hw.regs (s.hw.tim htim).Instance).ARR) :
    bit_freq cfg = (if cfg.family = .WS2811S then 400000 else 800000) ∧
    ((ARGB_Init cfg hal (ARGB_Attach hal s htim ch hdma c).2).hw.regs
      (s.hw.tim htim).Instance).PSC = 0 ∧
    ((ARGB_Init cfg hal (ARGB_Attach hal s htim ch hdma c).2).hw.regs
      (s.hw.tim htim).Instance).ARR = c / bit_freq cfg - 1 ∧
    ARGB_Ready (ARGB_Init cfg hal (ARGB_Attach hal s htim ch hdma c).2) = .ARGB_READY := by
  obtain ⟨hn, h1, h2, h3, h4⟩ := Attach_ok hal s htim ch hdma c hok
  have hI : ARGB_Init cfg hal (ARGB_Attach hal s htim ch hdma c).2 =
      ARGB_Init_tail cfg hal (ARGB_Attach hal s htim ch hdma c).2 (s.hw.tim htim).Instance
        ch c := by
    unfold ARGB_Init
    rw [if_pos (by rw [h1]; exact hn), h1, h2, h3, h4]
  obtain ⟨r1, r2, r3⟩ := Init_tail_regs cfg hal (ARGB_Attach hal s htim ch hdma c).2
    (s.hw.tim htim).Instance ch c hcmd hdelay
  rw [hI]
  refine ⟨rfl, r1, ?_, r3⟩
  rw [r2]
  exact period_exact cfg c hc hf

/-- Witness for C26: the default build on the example hardware, attached to timer
handle 1 on `TIM_CHANNEL_2` with an 84 MHz clock: `ARR = 84000000 / 800000 - 1 = 104`. -/
theorem C26_Init_period_witness :
    bit_freq cfg_default = (if cfg_default.family = .WS2811S then 400000 else 800000) ∧
    ((ARGB_Init cfg_default hal_f4
        (ARGB_Attach hal_f4 (State.initial cfg_default hw_example) 1 hal_f4.TIM_CHANNEL_2 2
          84000000).2).hw.regs
      ((State.initial cfg_default hw_example).hw.tim 1).Instance).PSC = 0 ∧
    ((ARGB_Init cfg_default hal_f4
        (ARGB_Attach hal_f4 (State.initial cfg_default hw_example) 1 hal_f4.TIM_CHANNEL_2 2
          84000000).2).hw.regs
      ((State.initial cfg_default hw_example).hw.tim 1).Instance).ARR =
      84000000 / bit_freq cfg_default - 1 ∧
    ARGB_Ready (ARGB_Init cfg_default hal_f4
        (ARGB_Attach hal_f4 (State.initial cfg_default hw_example) 1 hal_f4.TIM_CHANNEL_2 2
          84000000).2) = .ARGB_READY :=
  C26_Init_period cfg_default hal_f4 (State.initial cfg_default hw_example) 1
    hal_f4.TIM_CHANNEL_2 2 84000000 (by decide) (by decide) (by decide)
    (fun hw st => by simp [hal_f4, HW.mod_regs])
    (fun hw ms => ⟨rfl, rfl⟩)

/-! ## Lemmas: the results of `ARGB_AnalyzePin` -/

/-- On a sentinel-terminated table in which every row for the pin has a channel number
in 1..4, the PWM scan returns whenever the fuel covers the table. -/
theorem pwm_scan_total (core : Core) (hal : HAL) (pn : Nat) :
    ∀ (tbl : List PinMap) (fuel : Nat) (cfg : ARGB_PinConfig_t),
      (∃ e ∈ tbl, e.pin = core.NC) →
      (∀ e ∈ tbl, e.pin ≠ core.NC → e.pin = pn →
        channel_valid (core.STM_PIN_CHANNEL e.function)) →
      tbl.length ≤ fuel →
      ∃ c, AnalyzePin_pwm_scan core hal pn fuel tbl cfg = some c := by
  intro tbl
  induction tbl with
  | nil =>
    intro fuel cfg h _ _
    obtain ⟨e, he, _⟩ := h
    cases he
  | cons x tbl ih =>
    intro fuel cfg hs hv hf
    obtain ⟨f, rfl⟩ : ∃ f, fuel = f + 1 := ⟨fuel - 1, by simp at hf; omega⟩
    by_cases hx : x.pin = core.NC
    · exact ⟨_, pwm_scan_sentinel core hal pn f x tbl cfg hx⟩
    · by_cases hp : x.pin = pn
      · exact ⟨_, pwm_scan_match core hal pn f x tbl cfg hx hp
          (hv x (List.mem_cons_self _ _) hx hp)⟩
      · rw [AnalyzePin_pwm_scan, if_pos hx, if_neg hp]
        apply ih
        · obtain ⟨e, he, hnc⟩ := hs
          rcases List.mem_cons.mp he with h | h
          · subst h; exact absurd hnc hx
          · exact ⟨e, h, hnc⟩
        · exact fun e he => hv e (List.mem_cons_of_mem _ he)
        · simp at hf; omega

/-- The part of `ARGB_AnalyzePin` after the PWM scan always returns. -/
theorem AnalyzePin_finish_total (core : Core) (hal : HAL) (cfg : ARGB_PinConfig_t) :
    ∃ r c, AnalyzePin_finish core hal cfg = some (r, c) := by
  by_cases ht : cfg.tim = 0
  · exact ⟨_, _, by unfold AnalyzePin_finish; rw [if_pos ht]⟩
  · rw [AnalyzePin_finish_timer core hal cfg ht]
    by_cases hF : core.STM32F4xx = true
    · rw [if_pos hF]
      obtain ⟨r, c, hsc, _⟩ := dma_scan_total (ARGB_DMA_MAP core hal)
        { cfg with is_32bit_tim :=
            if core.TIM2 = some cfg.tim ∨ core.TIM5 = some cfg.tim then 1
            else cfg.is_32bit_tim } (DMA_MAP_has_sentinel core hal)
      exact ⟨r, some c, by rw [hsc]; rfl⟩
    · rw [if_neg hF]
      exact ⟨_, _, rfl⟩

/-- The part of `ARGB_AnalyzePin` after the PWM scan returns `ARGB_DMA_NO_PWM`,
`ARGB_DMA_OK` or `ARGB_DMA_NO_DMA`. -/
theorem AnalyzePin_finish_result (core : Core) (hal : HAL) (cfg : ARGB_PinConfig_t)
    (r : ARGB_DMA_Result_t) (c : Option ARGB_PinConfig_t)
    (h : AnalyzePin_finish core hal cfg = some (r, c)) :
    r = .ARGB_DMA_OK ∨ r = .ARGB_DMA_NO_PWM ∨ r = .ARGB_DMA_NO_DMA := by
  by_cases ht : cfg.tim = 0
  · unfold AnalyzePin_finish at h
    rw [if_pos ht] at h
    cases h
    exact Or.inr (Or.inl rfl)
  · rw [AnalyzePin_finish_timer core hal cfg ht] at h
    by_cases hF : core.STM32F4xx = true
    · rw [if_pos hF] at h
      cases hsc : AnalyzePin_dma_scan (ARGB_DMA_MAP core hal)
          { cfg with is_32bit_tim :=
              if core.TIM2 = some cfg.tim ∨ core.TIM5 = some cfg.tim then 1
              else cfg.is_32bit_tim } with
      | none => rw [hsc] at h; cases h
      | some rc =>
        rw [hsc] at h
        cases h
        rcases dma_scan_result _ _ rc.1 rc.2 hsc with h1 | h1
        · exact Or.inl h1
        · exact Or.inr (Or.inr h1)
    · rw [if_neg hF] at h
      cases h
      exact Or.inr (Or.inr rfl)

/-- Every result of `ARGB_AnalyzePin` is one of the four codes the function names. -/
theorem AnalyzePin_result (core : Core) (hal : HAL) (fuel pin : Nat)
    (cfg : Option ARGB_PinConfig_t) (r : ARGB_DMA_Result_t) (c : Option ARGB_PinConfig_t)
    (h : ARGB_AnalyzePin core hal fuel pin cfg = some (r, c)) :
    r = .ARGB_DMA_OK ∨ r = .ARGB_DMA_NO_PWM ∨ r = .ARGB_DMA_NO_DMA ∨ r = .ARGB_DMA_ERR := by
  cases cfg with
  | none =>
    simp only [ARGB_AnalyzePin] at h
    cases h
    exact Or.inr (Or.inr (Or.inr rfl))
  | some c0 =>
    by_cases hpn : core.digitalPinToPinName pin = core.NC
    · simp only [ARGB_AnalyzePin, hpn, if_true] at h
      cases h
      exact Or.inr (Or.inr (Or.inr rfl))
    by_cases hport : core.get_GPIO_Port (core.STM_PORT (core.digitalPinToPinName pin)) = 0
    · simp only [ARGB_AnalyzePin, hpn, if_false, hport, if_true] at h
      cases h
      exact Or.inr (Or.inr (Or.inr rfl))
    rw [AnalyzePin_valid_pin core hal fuel pin c0 hpn hport] at h
    cases hsc : AnalyzePin_pwm_scan core hal (core.digitalPinToPinName pin) fuel
        core.PinMap_PWM (AnalyzePin_start core pin) with
    | none => rw [hsc] at h; cases h
    | some c1 =>
      rw [hsc] at h
      rcases AnalyzePin_finish_result core hal c1 r c h with h1 | h1 | h1
      · exact Or.inl h1
      · exact Or.inr (Or.inl h1)
      · exact Or.inr (Or.inr (Or.inl h1))

/-- On a sentinel-terminated PWM table in which every row for the pin has a channel
number in 1..4, `ARGB_AnalyzePin` returns whenever the fuel covers the table. -/
theorem AnalyzePin_total (core : Core) (hal : HAL) (fuel pin : Nat)
    (cfg : Option ARGB_PinConfig_t)
    (hs : ∃ e ∈ core.PinMap_PWM, e.pin = core.NC)
    (hv : ∀ e ∈ core.PinMap_PWM, e.pin ≠ core.NC → e.pin = core.digitalPinToPinName pin →
      channel_valid (core.STM_PIN_CHANNEL e.function))
    (hf : core.PinMap_PWM.length ≤ fuel) :
    ∃ r c, ARGB_AnalyzePin core hal fuel pin cfg = some (r, c) := by
  cases cfg with
  | none => exact ⟨_, _, rfl⟩
  | some c0 =>
    by_cases hpn : core.digitalPinToPinName pin = core.NC
    · simp only [ARGB_AnalyzePin, hpn, if_true]
      exact ⟨_, _, rfl⟩
    by_cases hport : core.get_GPIO_Port (core.STM_PORT (core.digitalPinToPinName pin)) = 0
    · simp only [ARGB_AnalyzePin, hpn, if_false, hport, if_true]
      exact ⟨_, _, rfl⟩
    rw [AnalyzePin_valid_pin core hal fuel pin c0 hpn hport]
    obtain ⟨c1, hsc⟩ := pwm_scan_total core hal (core.digitalPinToPinName pin)
      core.PinMap_PWM fuel (AnalyzePin_start core pin) hs hv hf
    rw [hsc]
    exact AnalyzePin_finish_total core hal c1

/-- `ARGB_Setup` returns what `ARGB_AnalyzePin` returned, or `ARGB_DMA_OK`. -/
theorem Setup_result (bcfg : Config) (core : Core) (dev : Device) (hal : HAL) (fuel pin : Nat)
    (st st1 : Setup_State) (r : ARGB_DMA_Result_t)
    (h : ARGB_Setup bcfg core dev hal fuel st pin = some (r, st1)) :
    r = .ARGB_DMA_OK ∨
    ∃ c, ARGB_AnalyzePin core hal fuel pin (some st.ARGB_cfg) = some (r, c) := by
  unfold ARGB_Setup at h
  cases ha : ARGB_AnalyzePin core hal fuel pin (some st.ARGB_cfg) with
  | none => rw [ha] at h; cases h
  | some rc =>
    rw [ha] at h
    simp only [Option.some_bind] at h
    by_cases hr : rc.1 = .ARGB_DMA_OK
    · rw [if_neg (by simpa using hr)] at h
      cases h
      exact Or.inl rfl
    · rw [if_pos hr] at h
      cases h
      exact Or.inr ⟨rc.2, rfl⟩

/-- When `ARGB_AnalyzePin` returns, so does `ARGB_Setup`. -/
theorem Setup_total (bcfg : Config) (core : Core) (dev : Device) (hal : HAL) (fuel pin : Nat)
    (st : Setup_State)
    (h : ∃ r c, ARGB_AnalyzePin core hal fuel pin (some st.ARGB_cfg) = some (r, c)) :
    ∃ r st1, ARGB_Setup bcfg core dev hal fuel st pin = some (r, st1) := by
  obtain ⟨r, c, ha⟩ := h
  unfold ARGB_Setup
  rw [ha]
  simp only [Option.some_bind]
  by_cases hr : r = .ARGB_DMA_OK
  · rw [if_neg (by simpa using hr)]
    exact ⟨_, _, rfl⟩
  · rw [if_pos hr]
    exact ⟨_, _, rfl⟩

/-! ## The claims on the result codes (C28) -/

/-- C28: for every core, pin id, PWM table, fuel and output pointer, a result of
`ARGB_AnalyzePin` is one of `ARGB_DMA_OK`, `ARGB_DMA_NO_PWM`, `ARGB_DMA_NO_DMA`,
`ARGB_DMA_ERR`, never `ARGB_DMA_UNSUPPORTED_TIM`, and the same holds for a result of
`ARGB_Setup`. Both functions do return on a sentinel-terminated PWM table in which
every row for the pin has a channel number in 1..4, once the fuel covers the table. -/
theorem C28_never_unsupported_tim (bcfg : Config) (core : Core) (dev : Device) (hal : HAL)
    (fuel pin : Nat) (cfg : Option ARGB_PinConfig_t) (st : Setup_State) :
    (∀ r c, ARGB_AnalyzePin core hal fuel pin cfg = some (r, c) →
      r ≠ .ARGB_DMA_UNSUPPORTED_TIM ∧
      (r = .ARGB_DMA_OK ∨ r = .ARGB_DMA_NO_PWM ∨ r = .ARGB_DMA_NO_DMA ∨ r = .ARGB_DMA_ERR)) ∧
    (∀ r st1, ARGB_Setup bcfg core dev hal fuel st pin = some (r, st1) →
      r ≠ .ARGB_DMA_UNSUPPORTED_TIM ∧
      (r = .ARGB_DMA_OK ∨ r = .ARGB_DMA_NO_PWM ∨ r = .ARGB_DMA_NO_DMA ∨ r = .ARGB_DMA_ERR)) ∧
    ((∃ e ∈ core.PinMap_PWM, e.pin = core.NC) →
      (∀ e ∈ core.PinMap_PWM, e.pin ≠ core.NC → e.pin = core.digitalPinToPinName pin →
        channel_valid (core.STM_PIN_CHANNEL e.function)) →
      core.PinMap_PWM.length ≤ fuel →
      (∃ r c, ARGB_AnalyzePin core hal fuel pin cfg = some (r, c)) ∧
      (∃ r st1, ARGB_Setup bcfg core dev hal fuel st pin = some (r, st1))) := by
  have four : ∀ r : ARGB_DMA_Result_t,
      (r = .ARGB_DMA_OK ∨ r = .ARGB_DMA_NO_PWM ∨ r = .ARGB_DMA_NO_DMA ∨ r = .ARGB_DMA_ERR) →
      r ≠ .ARGB_DMA_UNSUPPORTED_TIM := by
    intro r h
    rcases h with h | h | h | h <;> rw [h] <;> decide
  refine ⟨?_, ?_, ?_⟩
  · intro r c h
    have h4 := AnalyzePin_result core hal fuel pin cfg r c h
    exact ⟨four r h4, h4⟩
  · intro r st1 h
    have h4 : r = .ARGB_DMA_OK ∨ r = .ARGB_DMA_NO_PWM ∨ r = .ARGB_DMA_NO_DMA ∨
        r = .ARGB_DMA_ERR := by
      rcases Setup_result bcfg core dev hal fuel pin st st1 r h with h1 | ⟨c, h1⟩
      · exact Or.inl h1
      · exact AnalyzePin_result core hal fuel pin _ r c h1
    exact ⟨four r h4, h4⟩
  · intro hs hv hf
    exact ⟨AnalyzePin_total core hal fuel pin cfg hs hv hf,
      Setup_total bcfg core dev hal fuel pin st
        (AnalyzePin_total core hal fuel pin _ hs hv hf)⟩

set_option maxRecDepth 100000 in
/-- Witness for C28: on the example core, whose PWM table of 8 rows ends in the
sentinel and has valid channel numbers, `ARGB_AnalyzePin` and `ARGB_Setup` return for
pin `PB_9` with fuel 8, and the result (`ARGB_DMA_NO_DMA`: `TIM4` channel 4 has no DMA
row) is none other than the four. -/
theorem C28_never_unsupported_tim_witness :
    ARGB_AnalyzePin core_f4 hal_f4 8 25 (some ARGB_PinConfig_t.zero) =
      some (.ARGB_DMA_NO_DMA,
        some (AnalyzePin_timer core_f4 hal_f4 25 ⟨25, 0x40000800, pwm_function 2 4⟩)) ∧
    (ARGB_DMA_Result_t.ARGB_DMA_NO_DMA ≠ .ARGB_DMA_UNSUPPORTED_TIM ∧
      (ARGB_DMA_Result_t.ARGB_DMA_NO_DMA = .ARGB_DMA_OK ∨
        ARGB_DMA_Result_t.ARGB_DMA_NO_DMA = .ARGB_DMA_NO_PWM ∨
        ARGB_DMA_Result_t.ARGB_DMA_NO_DMA = .ARGB_DMA_NO_DMA ∨
        ARGB_DMA_Result_t.ARGB_DMA_NO_DMA = .ARGB_DMA_ERR)) ∧
    (∃ r c, ARGB_AnalyzePin core_f4 hal_f4 8 25 (some ARGB_PinConfig_t.zero) = some (r, c)) ∧
    (∃ r st1, ARGB_Setup cfg_default core_f4 dev_f4 hal_f4 8 setup_initial 25 =
      some (r, st1)) :=
  have hret : ARGB_AnalyzePin core_f4 hal_f4 8 25 (some ARGB_PinConfig_t.zero) =
      some (.ARGB_DMA_NO_DMA,
        some (AnalyzePin_timer core_f4 hal_f4 25 ⟨25, 0x40000800, pwm_function 2 4⟩)) := by
    decide
  have h := C28_never_unsupported_tim cfg_default core_f4 dev_f4 hal_f4 8 25
    (some ARGB_PinConfig_t.zero) setup_initial
  ⟨hret, h.1 _ _ hret,
    h.2.2 ⟨⟨0xFFFFFFFF, 0, 0⟩, by decide, rfl⟩ (by unfold channel_valid; decide) (by decide)⟩

/-! ## Lemmas: floating-point intervals in `HSV2RGB` -/

/-- One faithful operation: a value within `d` of `c` is delivered within
`d + (c + d) / 4096 + 2^-20` of `c`. -/
theorem round_near (fp : FPU) (he : ∀ k x, |fp.round k x - x| ≤ |x| / 4096 + 1 / 1048576)
    (k : Nat) (x c d d1 : ℚ) (hc : 0 ≤ c) (h : |x - c| ≤ d)
    (hd : d + (c + d) / 4096 + 1 / 1048576 ≤ d1) : |fp.round k x - c| ≤ d1 := by
  have h1 := he k x
  have h2 : |fp.round k x - c| ≤ |fp.round k x - x| + |x - c| := abs_sub_le _ _ _
  have h3 : |x| ≤ c + d := by
    rw [abs_le] at h ⊢
    constructor <;> linarith [h.1, h.2]
  linarith

/-- A value of magnitude below 1 converts to 0. -/
theorem to_u8_small (x : ℚ) (h : |x| < 1) : to_u8 x = some 0 := by
  rw [abs_lt] at h
  unfold to_u8
  rw [if_pos ⟨h.1, by linarith [h.2]⟩]
  by_cases h0 : 0 ≤ x
  · rw [if_pos h0]
    have : ⌊x⌋ = 0 := Int.floor_eq_iff.mpr ⟨by simpa using h0, by simpa using h.2⟩
    rw [this]
    rfl
  · rw [if_neg h0]

/-- A value within 1 of 255 converts to some `u8_t`. -/
theorem to_u8_defined (x : ℚ) (h : |x - 255| < 1) : ∃ n, to_u8 x = some n := by
  rw [abs_lt] at h
  unfold to_u8
  rw [if_pos ⟨by linarith [h.1], by linarith [h.2]⟩]
  exact ⟨_, rfl⟩

/-- At full saturation and value, `p` is exactly 0. -/
theorem HSV2RGB_p_full (fp : FPU) (hfp : fp.Faithful) : HSV2RGB_p fp 1 1 = 0 := by
  obtain ⟨h0, h1, _⟩ := hfp
  simp [HSV2RGB_p, h0]

/-- At full saturation and value, `q` is below 1 in magnitude when `f` is within
0.0014 of 1. -/
theorem HSV2RGB_q_near0 (fp : FPU) (hfp : fp.Faithful) (f : ℚ) (hf : |f - 1| ≤ 14 / 10000) :
    |HSV2RGB_q fp f 1 1| < 1 := by
  obtain ⟨_, _, he⟩ := hfp
  unfold HSV2RGB_q
  rw [mul_one, one_mul]
  have a := round_near fp he 9 f 1 (14 / 10000) (17 / 10000) (by norm_num) hf (by norm_num)
  have b := round_near fp he 10 (1 - fp.round 9 f) 0 (17 / 10000) (18 / 10000) (by norm_num)
    (by rw [abs_le] at a ⊢; constructor <;> linarith [a.1, a.2]) (by norm_num)
  have c := round_near fp he 11 (fp.round 10 (1 - fp.round 9 f)) 0 (18 / 10000) (19 / 10000)
    (by norm_num) b (by norm_num)
  have d := round_near fp he 12 (fp.round 11 (fp.round 10 (1 - fp.round 9 f)) * 255) 0
    (4845 / 10000) (5 / 10) (by norm_num)
    (by rw [abs_le] at c ⊢; constructor <;> linarith [c.1, c.2]) (by norm_num)
  rw [sub_zero] at d
  linarith

/-- At full saturation and value, `q` is within 1 of 255 when `f` is within 0.0012
of 0. -/
theorem HSV2RGB_q_near255 (fp : FPU) (hfp : fp.Faithful) (f : ℚ) (hf : |f| ≤ 12 / 10000) :
    |HSV2RGB_q fp f 1 1 - 255| < 1 := by
  obtain ⟨_, _, he⟩ := hfp
  unfold HSV2RGB_q
  rw [mul_one, one_mul]
  have a := round_near fp he 9 f 0 (12 / 10000) (13 / 10000) (by norm_num)
    (by rw [sub_zero]; exact hf) (by norm_num)
  have b := round_near fp he 10 (1 - fp.round 9 f) 1 (13 / 10000) (16 / 10000) (by norm_num)
    (by rw [abs_le] at a ⊢; constructor <;> linarith [a.1, a.2]) (by norm_num)
  have c := round_near fp he 11 (fp.round 10 (1 - fp.round 9 f)) 1 (16 / 10000) (19 / 10000)
    (by norm_num) b (by norm_num)
  have d := round_near fp he 12 (fp.round 11 (fp.round 10 (1 - fp.round 9 f)) * 255) 255
    (4845 / 10000) (6 / 10) (by norm_num)
    (by rw [abs_le] at c ⊢; constructor <;> linarith [c.1, c.2]) (by norm_num)
  linarith

/-- At full saturation and value, `t` is below 1 in magnitude when `f` is within
0.0012 of 0. -/
theorem HSV2RGB_t_near0 (fp : FPU) (hfp : fp.Faithful) (f : ℚ) (hf : |f| ≤ 12 / 10000) :
    |HSV2RGB_t fp f 1 1| < 1 := by
  obtain ⟨_, _, he⟩ := hfp
  unfold HSV2RGB_t
  rw [mul_one, one_mul]
  have a := round_near fp he 13 (1 - f) 1 (12 / 10000) (15 / 10000) (by norm_num)
    (by rw [abs_le] at hf ⊢; constructor <;> linarith [hf.1, hf.2]) (by norm_num)
  have b := round_near fp he 14 (fp.round 13 (1 - f)) 1 (15 / 10000) (18 / 10000)
    (by norm_num) a (by norm_num)
  have c := round_near fp he 15 (1 - fp.round 14 (fp.round 13 (1 - f))) 0 (18 / 10000)
    (19 / 10000) (by norm_num)
    (by rw [abs_le] at b ⊢; constructor <;> linarith [b.1, b.2]) (by norm_num)
  have d := round_near fp he 16 (fp.round 15 (1 - fp.round 14 (fp.round 13 (1 - f)))) 0
    (19 / 10000) (20 / 10000) (by norm_num) c (by norm_num)
  have e := round_near fp he 17
    (fp.round 16 (fp.round 15 (1 - fp.round 14 (fp.round 13 (1 - f)))) * 255) 0
    (51 / 100) (6 / 10) (by norm_num)
    (by rw [abs_le] at d ⊢; constructor <;> linarith [d.1, d.2]) (by norm_num)
  rw [sub_zero] at e
  linarith

/-- At full saturation and value, `t` is within 1 of 255 when `f` is within 0.0014
of 1. -/
theorem HSV2RGB_t_near255 (fp : FPU) (hfp : fp.Faithful) (f : ℚ)
    (hf : |f - 1| ≤ 14 / 10000) : |HSV2RGB_t fp f 1 1 - 255| < 1 := by
  obtain ⟨_, _, he⟩ := hfp
  unfold HSV2RGB_t
  rw [mul_one, one_mul]
  have a := round_near fp he 13 (1 - f) 0 (14 / 10000) (15 / 10000) (by norm_num)
    (by rw [abs_le] at hf ⊢; constructor <;> linarith [hf.1, hf.2]) (by norm_num)
  have b := round_near fp he 14 (fp.round 13 (1 - f)) 0 (15 / 10000) (16 / 10000)
    (by norm_num) a (by norm_num)
  have c := round_near fp he 15 (1 - fp.round 14 (fp.round 13 (1 - f))) 1 (16 / 10000)
    (19 / 10000) (by norm_num)
    (by rw [abs_le] at b ⊢; constructor <;> linarith [b.1, b.2]) (by norm_num)
  have d := round_near fp he 16 (fp.round 15 (1 - fp.round 14 (fp.round 13 (1 - f)))) 1
    (19 / 10000) (22 / 10000) (by norm_num) c (by norm_num)
  have e := round_near fp he 17
    (fp.round 16 (fp.round 15 (1 - fp.round 14 (fp.round 13 (1 - f)))) * 255) 255
    (561 / 1000) (7 / 10) (by norm_num)
    (by rw [abs_le] at d ⊢; constructor <;> linarith [d.1, d.2]) (by norm_num)
  linarith

/-- Rounding to the nearest multiple of `2^-24` is faithful. -/
theorem fp_fixed24_Faithful : fp_fixed24.Faithful := by
  refine ⟨fun _ => ?_, fun _ => ?_, fun _ x => ?_⟩
  · show ((⌊(0 : ℚ) * 16777216 + 1 / 2⌋ : Int) : ℚ) / 16777216 = 0
    have : ⌊(0 : ℚ) * 16777216 + 1 / 2⌋ = 0 := Int.floor_eq_iff.mpr ⟨by norm_num, by norm_num⟩
    rw [this]; norm_num
  · show ((⌊(1 : ℚ) * 16777216 + 1 / 2⌋ : Int) : ℚ) / 16777216 = 1
    have : ⌊(1 : ℚ) * 16777216 + 1 / 2⌋ = 16777216 :=
      Int.floor_eq_iff.mpr ⟨by norm_num, by norm_num⟩
    rw [this]; norm_num
  · show |((⌊x * 16777216 + 1 / 2⌋ : Int) : ℚ) / 16777216 - x| ≤ |x| / 4096 + 1 / 1048576
    have h1 := Int.floor_le (x * 16777216 + 1 / 2)
    have h2 := Int.lt_floor_add_one (x * 16777216 + 1 / 2)
    have h3 := abs_nonneg x
    rw [abs_le]
    constructor
    · rw [le_sub_iff_add_le, le_div_iff₀ (by norm_num)]
      linarith
    · rw [sub_le_iff_le_add, div_le_iff₀ (by norm_num)]
      linarith

/-- `HSV2RGB(hue, 255, 255)`: `s` and `v` are exactly 1. -/
theorem HSV2RGB_full_sat_val (fp : FPU) (hfp : fp.Faithful) (hue : Nat) :
    HSV2RGB fp hue 255 255 =
      (to_u8 (HSV2RGB_p fp 1 1)).bind fun p =>
      (to_u8 (HSV2RGB_q fp
        (fp.round 5 (fp.round 4 (fp.round 0 ((hue : ℚ) / 255) * 6) -
          ((⌊fp.round 3 (fp.round 0 ((hue : ℚ) / 255) * 6)⌋ : Int) : ℚ))) 1 1)).bind fun q =>
      (to_u8 (HSV2RGB_t fp
        (fp.round 5 (fp.round 4 (fp.round 0 ((hue : ℚ) / 255) * 6) -
          ((⌊fp.round 3 (fp.round 0 ((hue : ℚ) / 255) * 6)⌋ : Int) : ℚ))) 1 1)).bind fun t =>
      match Int.tmod ⌊fp.round 3 (fp.round 0 ((hue : ℚ) / 255) * 6)⌋ 6 with
      | 0 => some (255, t, p)
      | 1 => some (q, 255, p)
      | 2 => some (p, 255, t)
      | 3 => some (p, q, 255)
      | 4 => some (t, p, 255)
      | _ => some (255, p, q) := by
  obtain ⟨_, h1, _⟩ := hfp
  have e : ((255 : Nat) : ℚ) / 255 = 1 := by norm_num
  unfold HSV2RGB
  rw [if_neg (by decide)]
  simp only [e, h1]

/-! ## The claim on the colour conversion (C15) -/

/-- C15: for every faithful floating-point unit, `HSV2RGB(0, 255, 255)` returns
exactly `(255, 0, 0)`, and `HSV2RGB(85, 255, 255)` returns a colour within 2 of
`(0, 255, 0)` in every channel: it is `(0, 255, 0)` itself, whether the hue sector
comes out as 2 or, by a rounding below 2, as 1. -/
theorem C15_HSV2RGB_red_green (fp : FPU) (hfp : fp.Faithful) :
    HSV2RGB fp 0 255 255 = some (255, 0, 0) ∧
    ∃ r g b, HSV2RGB fp 85 255 255 = some (r, g, b) ∧ (r, g, b) = (0, 255, 0) ∧
      r ≤ 2 ∧ 253 ≤ g ∧ g ≤ 255 ∧ b ≤ 2 := by
  have hp : to_u8 (HSV2RGB_p fp 1 1) = some 0 := by
    rw [HSV2RGB_p_full fp hfp]
    exact to_u8_small 0 (by norm_num)
  obtain ⟨h0, h1, he⟩ := id hfp
  constructor
  · rw [HSV2RGB_full_sat_val fp hfp 0, hp]
    have e0 : fp.round 0 (((0 : Nat) : ℚ) / 255) * 6 = 0 := by
      rw [Nat.cast_zero, zero_div, h0, zero_mul]
    have ei : ⌊fp.round 3 (0 : ℚ)⌋ = 0 := by rw [h0]; exact Int.floor_zero
    have ef : fp.round 5 (fp.round 4 (0 : ℚ) - ((0 : Int) : ℚ)) = 0 := by
      rw [h0, Int.cast_zero, sub_zero, h0]
    rw [e0, ei, ef]
    obtain ⟨q, hq⟩ := to_u8_defined _ (HSV2RGB_q_near255 fp hfp 0 (by norm_num))
    rw [hq, to_u8_small _ (HSV2RGB_t_near0 fp hfp 0 (by norm_num))]
    rfl
  · refine ⟨0, 255, 0, ?_, rfl, by decide, by decide, by decide, by decide⟩
    rw [HSV2RGB_full_sat_val fp hfp 85, hp]
    have hh : |fp.round 0 (((85 : Nat) : ℚ) / 255) - 1 / 3| ≤ 1 / 10000 :=
      round_near fp he 0 _ (1 / 3) 0 (1 / 10000) (by norm_num) (by norm_num) (by norm_num)
    generalize fp.round 0 (((85 : Nat) : ℚ) / 255) = h at hh
    have h6 : |h * 6 - 2| ≤ 6 / 10000 := by
      rw [abs_le] at hh ⊢; constructor <;> linarith [hh.1, hh.2]
    have hx := round_near fp he 3 (h * 6) 2 (6 / 10000) (11 / 10000) (by norm_num) h6
      (by norm_num)
    have hy := round_near fp he 4 (h * 6) 2 (6 / 10000) (11 / 10000) (by norm_num) h6
      (by norm_num)
    generalize fp.round 4 (h * 6) = y at hy
    generalize fp.round 3 (h * 6) = x at hx
    rw [abs_le] at hx
    have hi1 : (1 : Int) ≤ ⌊x⌋ := Int.le_floor.mpr (by push_cast; linarith [hx.1])
    have hi3 : ⌊x⌋ < (3 : Int) := Int.floor_lt.mpr (by push_cast; linarith [hx.2])
    rcases (by omega : ⌊x⌋ = 1 ∨ ⌊x⌋ = 2) with hi | hi
    · rw [hi]
      have hf := round_near fp he 5 (y - ((1 : Int) : ℚ)) 1 (11 / 10000) (14 / 10000)
        (by norm_num)
        (by rw [abs_le] at hy ⊢; push_cast; constructor <;> linarith [hy.1, hy.2])
        (by norm_num)
      obtain ⟨t, ht⟩ := to_u8_defined _ (HSV2RGB_t_near255 fp hfp _ hf)
      rw [to_u8_small _ (HSV2RGB_q_near0 fp hfp _ hf), ht]
      rfl
    · rw [hi]
      have hf := round_near fp he 5 (y - ((2 : Int) : ℚ)) 0 (11 / 10000) (12 / 10000)
        (by norm_num)
        (by rw [abs_le] at hy ⊢; push_cast; constructor <;> linarith [hy.1, hy.2])
        (by norm_num)
      rw [sub_zero] at hf
      obtain ⟨q, hq⟩ := to_u8_defined _ (HSV2RGB_q_near255 fp hfp _ hf)
      rw [hq, to_u8_small _ (HSV2RGB_t_near0 fp hfp _ hf)]
      rfl

/-- Witness for C15: arithmetic rounded to multiples of `2^-24`, in which `85 / 255`
is not exact and the hue sector of `HSV2RGB(85, 255, 255)` is 1. -/
theorem C15_HSV2RGB_red_green_witness :
    HSV2RGB fp_fixed24 0 255 255 = some (255, 0, 0) ∧
    ∃ r g b, HSV2RGB fp_fixed24 85 255 255 = some (r, g, b) ∧ (r, g, b) = (0, 255, 0) ∧
      r ≤ 2 ∧ 253 ≤ g ∧ g ≤ 255 ∧ b ≤ 2 :=
  C15_HSV2RGB_red_green fp_fixed24 fp_fixed24_Faithful

end ARGB
